import Mathlib

/-!
# UQImage: the image server `uqimageproc` and its client `uqimageclient`

A shallow embedding of the server `src/uqimageproc.c`, followed by the
properties proved about it: the request validator (`check_initial_validity`
and the functions it calls), the plan builder (`get_operations`), the image
pipeline (`process_operations`), the connection worker (`client_thread`), the
statistics report (`sighup_statistics`), the command line
(`command_line_arguments`), the port check (`check_port`) and the dispatcher
(`process_connections`); and of the client `src/uqimageclient.c`: its command
line, the request it builds and what it does with the response.

Conventions of the embedding:

* a C string is the list of its characters before the terminating NUL; a
  `char*` that may be `NULL` is an `Option`;
* a `NULL`-terminated array of strings is the list of its non-`NULL` entries,
  and reading entry `k` is `l[k]?` (`none` is the terminating `NULL`);
* `long` and `unsigned long` are 64 bits wide, `unsigned int` is 32 bits wide;
* writing a response to the client stream appends the response record to a
  list; the statistics record is passed explicitly;
* a call that ends the process, or whose behaviour C leaves undefined, returns
  `Except.error`;
* the raster codec is a parameter: a record of the functions the server calls
  on a bitmap; the socket layer and the files the client opens are parameters
  as well;
* threads are interleaved steps of a step function on a state that holds the
  semaphore and the counters.

The C library functions `strtol`, `strlen`, `isspace`, `isdigit` and the `%ld`
and `%u` conversions of `printf` are modelled after the C standard;
`split_by_char` comes from the course library `csse2310a4` and is modelled
after its documented behaviour.
-/

namespace UQImage

/-! ## Constants of `uqimageproc.c` -/

def GET : List Char := ['G', 'E', 'T']
def POST : List Char := ['P', 'O', 'S', 'T']

def METHOD_NOT_ALLOWED : Nat := 405
def NOT_FOUND : Nat := 404
def OK : Nat := 200
def BAD_REQUEST : Nat := 400
def PAYLOAD_TOO_LARGE : Nat := 413
def UNPROCESSABLE_CONTENT : Nat := 422
def FAILED_OPERATION : Nat := 501

def ROTATE : List Char := ['r', 'o', 't', 'a', 't', 'e']
def FLIP : List Char := ['f', 'l', 'i', 'p']
def SCALE : List Char := ['s', 'c', 'a', 'l', 'e']
def ROTATE_MIN : Int := -359
def ROTATE_MAX : Int := 359
def HORIZONTAL : List Char := ['h']
def VERTICAL : List Char := ['v']
def SCALE_MIN : Int := 1
def SCALE_MAX : Int := 10000
def LAST_SCALE_ARGUMENT : Nat := 3

def EIGHT_MIB : Nat := 8388608

/-! ## Library functions used by the validator -/

def LONG_MAX : Int := 9223372036854775807
def LONG_MIN : Int := -9223372036854775808

/-- The C `isspace` of the default locale: space, `\t`, `\n`, `\v`, `\f`, `\r`. -/
def isspace (c : Char) : Bool :=
  c.toNat = 32 || (9 ≤ c.toNat && c.toNat ≤ 13)

/-- The C `isdigit`: `0` to `9`. -/
def isdigit (c : Char) : Bool :=
  48 ≤ c.toNat && c.toNat ≤ 57

/-- Value of a run of decimal digits, most significant digit first. -/
def digitsValue (ds : List Char) : Nat :=
  ds.foldl (fun acc c => 10 * acc + (c.toNat - 48)) 0

/-- The C `strtol(nptr, &endPtr, 10)`: skips leading white space, reads an
optional `+` or `-` and then the longest run of decimal digits. Returns the
value, clamped to the range of `long`, together with the text `endPtr` points
at. When there is no digit, no conversion is made: the value is `0` and
`endPtr` is `nptr`. -/
def strtol (nptr : List Char) : Int × List Char :=
  let t := nptr.dropWhile isspace
  let negative : Bool := t.head? = some '-'
  let u := if t.head? = some '-' ∨ t.head? = some '+' then t.tail else t
  let ds := u.takeWhile isdigit
  if ds = [] then (0, nptr)
  else
    let v : Int := if negative then -(digitsValue ds : Int) else (digitsValue ds : Int)
    (max LONG_MIN (min LONG_MAX v), u.dropWhile isdigit)

/-- The C `strlen` of a buffer: the number of bytes before the first NUL. -/
def strlen (buf : List Char) : Nat :=
  (buf.takeWhile (fun c => c.toNat ≠ 0)).length

/-- Modelled from the spec: `split_by_char(str, split, 0)` of the course library
`csse2310a4`, whose source is not part of the repository. It cuts `str` at every
occurrence of `split` and returns the fields in order (the spec: "Split on `/`
... Each segment is then split on `,`"). A string with `n` separators has
`n + 1` fields, empty fields are kept, and the empty string has the single
field `""`. The third argument is `0` (no limit on the number of fields) at
every call in the source. -/
def split_by_char : List Char → Char → List (List Char)
  | [], _ => [[]]
  | x :: xs, split =>
    if x = split then [] :: split_by_char xs split
    else
      match split_by_char xs split with
      | [] => [[x]]
      | field :: fields => (x :: field) :: fields

/-- The text `snprintf` produces for `%ld` when handed an `unsigned long`: the
64 bits are read as a signed `long` and printed in decimal. -/
def snprintf_ld (n : Nat) : List Char :=
  let w := n % 18446744073709551616
  if w < 9223372036854775808 then Nat.toDigits 10 w
  else '-' :: Nat.toDigits 10 (18446744073709551616 - w)

/-! ## Data model -/

/-- The C `HttpRequest`, without the header array (never read by the server). -/
structure HttpRequest where
  method : List Char
  address : List Char
  body : List Char
  len : Nat

/-- One `HttpHeader`: name and value. -/
structure HttpHeader where
  name : List Char
  value : List Char
deriving DecidableEq, Repr

/-- The C `HttpResponse` as handed to `construct_HTTP_response`: status,
explanation, headers, body buffer and the number of body bytes to send. -/
structure HttpResponse where
  status : Nat
  statusExplanation : List Char
  headers : List HttpHeader
  body : List Char
  bodySize : Nat
deriving DecidableEq, Repr

/-- The body bytes that `construct_HTTP_response` puts on the wire: the first
`bodySize` bytes of the body buffer. -/
def HttpResponse.sentBody (r : HttpResponse) : List Char :=
  r.body.take r.bodySize

/-- The C `Operation` record. -/
structure Operation where
  operation : Option (List Char)
  value1 : Int
  value2 : Int
  direction : Option (List Char)
deriving DecidableEq, Repr

/-- The C `Statistics` record of five `unsigned int` counters. -/
structure Statistics where
  connected : Nat
  serviced : Nat
  success : Nat
  unSuccess : Nat
  operations : Nat
deriving DecidableEq, Repr

/-- The C `x++` on an `unsigned int`. -/
def incr (x : Nat) : Nat := (x + 1) % 4294967296

/-- Result of a function that writes to the client stream and updates the
statistics: its return value, the responses written (in order) and the
statistics afterwards. -/
structure Effect (α : Type) where
  result : α
  sent : List HttpResponse
  stats : Statistics

/-- Ways a call can fail to return a value. -/
inductive Fault where
  /-- `command_line_error`: usage message, the process exits with status 15. -/
  | usageExit
  /-- Behaviour the C standard leaves undefined (a `NULL` string is read, or a
  record is left uninitialised). -/
  | undefinedBehaviour
deriving DecidableEq, Repr

/-! ## Response builders -/

/-- The two headers every response builder constructs: `Content-Type`, then
`Content-Length` printed with `%ld`. -/
def make_headers (contentType : List Char) (bodySize : Nat) : List HttpHeader :=
  [⟨"Content-Type".toList, contentType⟩,
   ⟨"Content-Length".toList, snprintf_ld bodySize⟩]

def invalid_method_response : HttpResponse :=
  let body := "Invalid method on request list\n".toList
  { status := METHOD_NOT_ALLOWED
    statusExplanation := "Method Not Allowed".toList
    headers := make_headers "text/plain".toList (strlen body)
    body := body
    bodySize := strlen body }

def invalid_get_response : HttpResponse :=
  let body := "Invalid address in GET request\n".toList
  { status := NOT_FOUND
    statusExplanation := "Not Found".toList
    headers := make_headers "text/plain".toList (strlen body)
    body := body
    bodySize := strlen body }

/-- The response of `home_page_response`; `file` is the content of the home
page asset. The buffer is the file followed by a NUL, and the size sent is the
`strlen` of that buffer. -/
def home_page_response (file : List Char) : HttpResponse :=
  let buffer := file ++ [Char.ofNat 0]
  { status := OK
    statusExplanation := "OK".toList
    headers := make_headers "text/html".toList (strlen buffer)
    body := buffer
    bodySize := strlen buffer }

def invalid_operation_response : HttpResponse :=
  let body := "Invalid image operation\n".toList
  { status := BAD_REQUEST
    statusExplanation := "Bad Request".toList
    headers := make_headers "text/plain".toList (strlen body)
    body := body
    bodySize := strlen body }

def invalid_size_response (request : HttpRequest) : HttpResponse :=
  let body := "Image is too large: ".toList ++ snprintf_ld request.len ++ " bytes\n".toList
  { status := PAYLOAD_TOO_LARGE
    statusExplanation := "Payload Too Large".toList
    headers := make_headers "text/plain".toList (strlen body)
    body := body
    bodySize := strlen body }

/-! ## Request validator -/

def valid_method (request : HttpRequest) : Bool :=
  if request.method = GET then true
  else if request.method = POST then true
  else false

def valid_get (request : HttpRequest) : Bool :=
  if request.address = ['/'] then true else false

def check_operation (name : List Char) : Bool :=
  if name = ROTATE ∨ name = FLIP ∨ name = SCALE then true else false

def valid_operation_value (intString : Option (List Char)) (min max : Int) : Bool :=
  match intString with
  | none => false
  | some s =>
    let converted := (strtol s).1
    let endPtr := (strtol s).2
    if endPtr ≠ [] ∨ converted < min ∨ converted > max then false else true

/-- One iteration of the loop of `valid_operation` on the segment
`operations[i]`: `false` when the iteration returns `false`, `true` when it
reaches `i++`. -/
def valid_operation_body (segment : List Char) : Bool :=
  let op := split_by_char segment ','
  let op0 := op.headD []
  if !check_operation op0 then false
  else if op0 = ROTATE then
    if ((op[1]?).isNone || !valid_operation_value op[1]? ROTATE_MIN ROTATE_MAX)
        || (op[2]?).isSome then false
    else true
  else if op0 = FLIP then
    if (op[1]?).isNone || (op[1]? ≠ some VERTICAL && op[1]? ≠ some HORIZONTAL)
        || (op[2]?).isSome then false
    else true
  else if op0 = SCALE then
    if (op[1]?).isNone || !valid_operation_value op[1]? SCALE_MIN SCALE_MAX then false
    else if (op[2]?).isNone || !valid_operation_value op[2]? SCALE_MIN SCALE_MAX then false
    else if (op[LAST_SCALE_ARGUMENT]?).isSome then false
    else true
  else true

/-- The `while (operations[i] != NULL)` loop of `valid_operation`, on the
entries from index `i` on. -/
def valid_operation_loop : List (List Char) → Bool
  | [] => true
  | segment :: rest =>
    if valid_operation_body segment then valid_operation_loop rest else false

def valid_operation (request : HttpRequest) : Bool :=
  let operations := split_by_char request.address '/'
  valid_operation_loop (operations.drop 1)

def valid_image_size (request : HttpRequest) : Bool :=
  if request.len > EIGHT_MIB then false else true

/-- The validator. `file` is the content of the home page asset and `stats` the
statistics record before the call. -/
def check_initial_validity (request : HttpRequest) (file : List Char)
    (stats : Statistics) : Effect Bool :=
  if !valid_method request then
    ⟨false, [invalid_method_response], { stats with unSuccess := incr stats.unSuccess }⟩
  else if request.method = GET then
    if !valid_get request then
      ⟨false, [invalid_get_response], { stats with unSuccess := incr stats.unSuccess }⟩
    else
      ⟨false, [home_page_response file], { stats with success := incr stats.success }⟩
  else if !valid_operation request then
    ⟨false, [invalid_operation_response], { stats with unSuccess := incr stats.unSuccess }⟩
  else if !valid_image_size request then
    ⟨false, [invalid_size_response request], { stats with unSuccess := incr stats.unSuccess }⟩
  else
    ⟨true, [], stats⟩

/-! ## Plan builder -/

/-- The C `convert_to_int`: the value when the whole string is an integer
within the bounds; otherwise `command_line_error` ends the process. A `NULL`
argument is read by `strtol`, which is undefined. -/
def convert_to_int (intString : Option (List Char)) (min max : Int) : Except Fault Int :=
  match intString with
  | none => .error .undefinedBehaviour
  | some s =>
    let converted := (strtol s).1
    let endPtr := (strtol s).2
    if endPtr ≠ [] ∨ converted < min ∨ converted > max then .error .usageExit
    else .ok converted

/-- The record `get_operations` stores for the segment `addresses[i + 1]`. When
the name is none of the three operations no field of the record is written. -/
def get_operations_body (segment : List Char) : Except Fault Operation :=
  let op := split_by_char segment ','
  let op0 := op.headD []
  if op0 = ROTATE then
    match convert_to_int op[1]? ROTATE_MIN ROTATE_MAX with
    | .error e => .error e
    | .ok v1 => .ok ⟨some ROTATE, v1, 0, none⟩
  else if op0 = FLIP then
    match op[1]? with
    | none => .error .undefinedBehaviour
    | some d => .ok ⟨some FLIP, 0, 0, some d⟩
  else if op0 = SCALE then
    match convert_to_int op[1]? SCALE_MIN SCALE_MAX with
    | .error e => .error e
    | .ok v1 =>
      match convert_to_int op[2]? SCALE_MIN SCALE_MAX with
      | .error e => .error e
      | .ok v2 => .ok ⟨some SCALE, v1, v2, none⟩
  else .error .undefinedBehaviour

/-- The `while (addresses[i + 1] != NULL)` loop of `get_operations` followed by
the terminating record whose `operation` is `NULL`. -/
def get_operations_loop : List (List Char) → Except Fault (List Operation)
  | [] => .ok [⟨none, 0, 0, none⟩]
  | segment :: rest =>
    match get_operations_body segment with
    | .error e => .error e
    | .ok o =>
      match get_operations_loop rest with
      | .error e => .error e
      | .ok os => .ok (o :: os)

def get_operations (request : HttpRequest) : Except Fault (List Operation) :=
  let addresses := split_by_char request.address '/'
  get_operations_loop (addresses.drop 1)

/-- The plan held by an operation array: the records before the first one whose
`operation` is `NULL` (the records `process_operations` and `free_operations`
walk over). -/
def plan (operations : List Operation) : List Operation :=
  operations.takeWhile (fun o => o.operation.isSome)

/-! ## Specification-side notions

The words of the specification, written out without reference to the code. -/

/-- A non-empty run of decimal digits. -/
def isDigits (ds : List Char) : Bool :=
  !ds.isEmpty && ds.all isdigit

/-- A decimal integer: an optional `-` followed by one or more decimal digits. -/
def isDecimal (s : List Char) : Bool :=
  if s.head? = some '-' then isDigits s.tail else isDigits s

/-- The integer a decimal integer denotes. -/
def decimalValue (s : List Char) : Int :=
  if s.head? = some '-' then -(digitsValue s.tail : Int) else (digitsValue s : Int)

/-- The target `/op1/op2/.../opN` built from the segments `op1`, ..., `opN`. -/
def joinTarget : List (List Char) → List Char
  | [] => []
  | segment :: rest => '/' :: segment ++ joinTarget rest

/-- A well-formed operation segment: `rotate,n` with `n` a decimal integer in
`[-359, 359]`, `flip,h`, `flip,v`, or `scale,w,h` with `w` and `h` decimal
integers in `[1, 10000]`. -/
def WellFormedOp (segment : List Char) : Prop :=
  (∃ n, isDecimal n = true ∧ -359 ≤ decimalValue n ∧ decimalValue n ≤ 359 ∧
      segment = "rotate,".toList ++ n) ∨
  segment = "flip,h".toList ∨ segment = "flip,v".toList ∨
  (∃ w h, isDecimal w = true ∧ 1 ≤ decimalValue w ∧ decimalValue w ≤ 10000 ∧
      isDecimal h = true ∧ 1 ≤ decimalValue h ∧ decimalValue h ≤ 10000 ∧
      segment = "scale,".toList ++ w ++ ',' :: h)

/-- A structurally malformed segment: it is empty, or its first comma-field is
none of `rotate`, `flip`, `scale`, or it is a `rotate` or `flip` segment whose
number of comma-fields is not two, or a `scale` segment whose number of
comma-fields is not three, or a `flip` segment whose second field is neither
`h` nor `v`. -/
def Malformed (segment : List Char) : Prop :=
  segment = [] ∨
  ((segment.splitOn ',').head? ≠ some "rotate".toList ∧
    (segment.splitOn ',').head? ≠ some "flip".toList ∧
    (segment.splitOn ',').head? ≠ some "scale".toList) ∨
  (((segment.splitOn ',').head? = some "rotate".toList ∨
      (segment.splitOn ',').head? = some "flip".toList) ∧
    (segment.splitOn ',').length ≠ 2) ∨
  ((segment.splitOn ',').head? = some "scale".toList ∧ (segment.splitOn ',').length ≠ 3) ∨
  ((segment.splitOn ',').head? = some "flip".toList ∧
    (segment.splitOn ',')[1]? ≠ some "h".toList ∧ (segment.splitOn ',')[1]? ≠ some "v".toList)

/-- A signed decimal integer with optional leading white space: optional white
space, an optional `+` or `-`, then one or more decimal digits. -/
def isSignedDecimal (s : List Char) : Bool :=
  isDigits
    (if (s.dropWhile isspace).head? = some '-' ∨ (s.dropWhile isspace).head? = some '+'
      then (s.dropWhile isspace).tail else s.dropWhile isspace)

/-- The record the plan holds for a segment: the name of the segment, with the
parsed angle for `rotate`, the direction string for `flip`, the parsed width
and height for `scale`, and every other field `0` or `NULL`. The parsed value
of a field is what `strtol` reads, which for a decimal integer is the integer
it denotes. -/
def OperationOf (segment : List Char) (o : Operation) : Prop :=
  (∃ a, segment = "rotate,".toList ++ a ∧ ',' ∉ a ∧
      o = ⟨some "rotate".toList, (strtol a).1, 0, none⟩ ∧
      (isDecimal a = true → o.value1 = decimalValue a)) ∨
  (∃ d, (d = "h".toList ∨ d = "v".toList) ∧ segment = "flip,".toList ++ d ∧
      o = ⟨some "flip".toList, 0, 0, some d⟩) ∨
  (∃ w h, segment = "scale,".toList ++ w ++ ',' :: h ∧ ',' ∉ w ∧ ',' ∉ h ∧
      o = ⟨some "scale".toList, (strtol w).1, (strtol h).1, none⟩ ∧
      (isDecimal w = true → o.value1 = decimalValue w) ∧
      (isDecimal h = true → o.value2 = decimalValue h))

/-- Putting the separator back between the fields. -/
def unsplit (c : Char) : List (List Char) → List Char
  | [] => []
  | [f] => f
  | f :: g :: fs => f ++ c :: unsplit c (g :: fs)

/-! ## Image pipeline and connection worker -/

/-- The C `x--` on an `unsigned int`. -/
def decr (x : Nat) : Nat := (x + 4294967295) % 4294967296

/-- The raster codec, a black box: the functions of FreeImage and of the course
library that the server calls on a bitmap. A `NULL` result is `none`; the two
flips work in place and return the success flag together with the bitmap
afterwards; the PNG encoder is taken to return its buffer (the server never
tests its result), whose length is the `numBytes` it reports. -/
structure Codec (Bitmap : Type) where
  fi_load_image_from_buffer : List Char → Nat → Option Bitmap
  FreeImage_Rotate : Bitmap → Int → Option Bitmap
  FreeImage_FlipVertical : Bitmap → Bool × Bitmap
  FreeImage_FlipHorizontal : Bitmap → Bool × Bitmap
  FreeImage_Rescale : Bitmap → Int → Int → Option Bitmap
  fi_save_png_image_to_buffer : Bitmap → List Char

def invalid_image_response : HttpResponse :=
  let body := "Invalid image received\n".toList
  { status := UNPROCESSABLE_CONTENT
    statusExplanation := "Unprocessable Content".toList
    headers := make_headers "text/plain".toList (strlen body)
    body := body
    bodySize := strlen body }

/-- The response of `failed_operation_response`. The name is printed with `%s`;
the function is only called with a record whose `operation` is not `NULL`
(glibc prints `(null)` for a `NULL` string). -/
def failed_operation_response (op : Operation) : HttpResponse :=
  let body := "Operation did not complete: ".toList ++ op.operation.getD "(null)".toList
    ++ "\n".toList
  { status := FAILED_OPERATION
    statusExplanation := "Not Implemented".toList
    headers := make_headers "text/plain".toList (strlen body)
    body := body
    bodySize := strlen body }

def success_response (data : List Char) (numBytes : Nat) : HttpResponse :=
  { status := OK
    statusExplanation := "OK".toList
    headers := make_headers "image/png".toList numBytes
    body := data
    bodySize := numBytes }

/-- What one iteration of the loop of `process_operations` does with the
bitmap. -/
inductive Stage (Bitmap : Type) where
  /-- The iteration reaches `operations++`; the bitmap `*image` afterwards. -/
  | completed (image : Bitmap)
  /-- The iteration sends the 501 response and returns `false`; `*image`
  afterwards (`none` is `NULL`). -/
  | failed (image : Option Bitmap)
  /-- The direction of a flip record is `NULL` and is handed to `strcmp`. -/
  | undefined

/-- The body of the loop of `process_operations` for the record `op` whose
`operation` is the string `name`, up to the test `*image == NULL`. A record
whose name is none of the three operations leaves the bitmap as it is. -/
def process_operations_body {Bitmap : Type} (codec : Codec Bitmap) (op : Operation)
    (name : List Char) (image : Bitmap) : Stage Bitmap :=
  if name = ROTATE then
    match codec.FreeImage_Rotate image op.value1 with
    | none => .failed none
    | some rotated => .completed rotated
  else if name = FLIP then
    match op.direction with
    | none => .undefined
    | some direction =>
      if direction = VERTICAL then
        if (codec.FreeImage_FlipVertical image).1 = false then
          .failed (some (codec.FreeImage_FlipVertical image).2)
        else .completed (codec.FreeImage_FlipVertical image).2
      else if (codec.FreeImage_FlipHorizontal image).1 = false then
        .failed (some (codec.FreeImage_FlipHorizontal image).2)
      else .completed (codec.FreeImage_FlipHorizontal image).2
  else if name = SCALE then
    match codec.FreeImage_Rescale image op.value1 op.value2 with
    | none => .failed none
    | some scaled => .completed scaled
  else .completed image

/-- The C `process_operations` on the operation array from index `i` on, with
the bitmap `*image` and the statistics at that point. The result is the
returned flag together with `*image` afterwards. An array without terminating
record would be read past its end. -/
def process_operations {Bitmap : Type} (codec : Codec Bitmap) :
    List Operation → Bitmap → Statistics → Except Fault (Effect (Bool × Option Bitmap))
  | [], _, _ => .error .undefinedBehaviour
  | op :: rest, image, stats =>
    match op.operation with
    | none => .ok ⟨(true, some image), [], stats⟩
    | some name =>
      match process_operations_body codec op name image with
      | .undefined => .error .undefinedBehaviour
      | .failed after => .ok ⟨(false, after), [failed_operation_response op], stats⟩
      | .completed next =>
        process_operations codec rest next { stats with operations := incr stats.operations }

/-- The C `invalid_image`: the 422 response and `unSuccess++`. -/
def invalid_image (stats : Statistics) : Effect Unit :=
  ⟨(), [invalid_image_response], { stats with unSuccess := incr stats.unSuccess }⟩

/-- The C `process_success`: the bitmap is encoded as PNG, sent with
`success_response`, and `success++`. -/
def process_success {Bitmap : Type} (codec : Codec Bitmap) (image : Bitmap)
    (stats : Statistics) : Effect Unit :=
  ⟨(), [success_response (codec.fi_save_png_image_to_buffer image)
      (codec.fi_save_png_image_to_buffer image).length],
    { stats with success := incr stats.success }⟩

/-- One iteration of the `while (1)` loop of `client_thread` after a request has
been read: validation, plan, decoding, stages, success response. -/
def client_thread_body {Bitmap : Type} (codec : Codec Bitmap) (file : List Char)
    (request : HttpRequest) (stats : Statistics) : Except Fault (Effect Unit) :=
  let validity := check_initial_validity request file stats
  if !validity.result then .ok ⟨(), validity.sent, validity.stats⟩
  else
    match get_operations request with
    | .error e => .error e
    | .ok operations =>
      match codec.fi_load_image_from_buffer request.body request.len with
      | none =>
        .ok ⟨(), validity.sent ++ (invalid_image validity.stats).sent,
          (invalid_image validity.stats).stats⟩
      | some image =>
        match process_operations codec operations image validity.stats with
        | .error e => .error e
        | .ok processed =>
          if !processed.result.1 then
            .ok ⟨(), validity.sent ++ processed.sent, processed.stats⟩
          else
            match processed.result.2 with
            | none => .error .undefinedBehaviour
            | some final =>
              .ok ⟨(), validity.sent ++ processed.sent
                  ++ (process_success codec final processed.stats).sent,
                (process_success codec final processed.stats).stats⟩

/-- The `while (1)` loop of `client_thread` on the results of the successive
calls of `get_HTTP_request`: `some request` for a request read, `none` for a
call that returns 0 (the peer closed the connection or sent a malformed
request). The end of the list is the end of the stream, where the call returns
0 as well. -/
def client_thread_loop {Bitmap : Type} (codec : Codec Bitmap) (file : List Char) :
    List (Option HttpRequest) → Statistics → Except Fault (Effect Unit)
  | [], stats => .ok ⟨(), [], stats⟩
  | none :: _, stats => .ok ⟨(), [], stats⟩
  | some request :: rest, stats =>
    match client_thread_body codec file request stats with
    | .error e => .error e
    | .ok handled =>
      match client_thread_loop codec file rest handled.stats with
      | .error e => .error e
      | .ok later => .ok ⟨(), handled.sent ++ later.sent, later.stats⟩

/-- The C `end_client_thread`: `connected--`, `serviced++`, and `sem_post` on the
admission semaphore (whose value is `semaphore`) when a limit was given. -/
def end_client_thread (maxGiven : Bool) (stats : Statistics) (semaphore : Nat) :
    Statistics × Nat :=
  ({ stats with connected := decr stats.connected, serviced := incr stats.serviced },
    if maxGiven then semaphore + 1 else semaphore)

/-- The C `client_thread`: `connected++`, the request loop, `end_client_thread`.
The result is the value of the semaphore afterwards. -/
def client_thread {Bitmap : Type} (codec : Codec Bitmap) (file : List Char)
    (maxGiven : Bool) (reads : List (Option HttpRequest)) (stats : Statistics)
    (semaphore : Nat) : Except Fault (Effect Nat) :=
  match client_thread_loop codec file reads
      { stats with connected := incr stats.connected } with
  | .error e => .error e
  | .ok served =>
    .ok ⟨(end_client_thread maxGiven served.stats semaphore).2, served.sent,
      (end_client_thread maxGiven served.stats semaphore).1⟩

/-! ## Statistics report -/

/-- The text `fprintf` produces for `%u` and an `unsigned int`. -/
def fprintf_u (n : Nat) : List Char :=
  Nat.toDigits 10 (n % 4294967296)

/-- The C `sighup_statistics`: the texts of its five `fprintf` calls to the
diagnostic stream, in order, and the statistics record afterwards (the function
only reads it). -/
def sighup_statistics (stats : Statistics) : List (List Char) × Statistics :=
  (["Connected clients: ".toList ++ fprintf_u stats.connected ++ "\n".toList,
    "Serviced clients: ".toList ++ fprintf_u stats.serviced ++ "\n".toList,
    "Successfully processed HTTP requests: ".toList ++ fprintf_u stats.success ++ "\n".toList,
    "Unsuccessful HTTP requests: ".toList ++ fprintf_u stats.unSuccess ++ "\n".toList,
    "Operations on images completed: ".toList ++ fprintf_u stats.operations ++ "\n".toList],
   stats)

/-! ## Command line of the server -/

def PORT : List Char := "--port".toList
def CONNECTIONS : List Char := "--max".toList
def MAX_CONNECTIONS : Int := 10000
def MIN_CONNECTIONS : Int := 0
def COMMAND_LINE_ERROR : Nat := 15

/-- The C `CommandParameters` of the server. -/
structure CommandParameters where
  port : List Char
  portGiven : Bool
  max : Int
  maxGiven : Bool
deriving DecidableEq, Repr

/-- What the process writes to the diagnostic stream and the status it exits
with when a call ends in `command_line_error`. -/
def command_line_error : List Char × Nat :=
  ("Usage: uqimageproc [--port port] [--max connections]\n".toList, COMMAND_LINE_ERROR)

def check_empty_string (arg : List Char) : Except Fault Unit :=
  if arg = [] then .error .usageExit else .ok ()

def check_out_of_bounds (num bound : Nat) : Except Fault Unit :=
  if num ≥ bound then .error .usageExit else .ok ()

def check_boolean (boolean : Bool) : Except Fault Unit :=
  if boolean then .error .usageExit else .ok ()

/-- The `for` loop of `command_line_arguments` on the arguments `argv[i]`,
`argv[i + 1]`, ... that are left; `rest.length` is `argc - (i + 1)`, so that
`i + 1 >= argc` is `0 >= rest.length`. -/
def command_line_arguments_loop :
    List (List Char) → CommandParameters → Except Fault CommandParameters
  | [], params => .ok params
  | arg :: rest, params =>
    match check_empty_string arg with
    | .error e => .error e
    | .ok _ =>
      if arg = PORT then
        match check_boolean params.portGiven with
        | .error e => .error e
        | .ok _ =>
          match check_out_of_bounds 0 rest.length with
          | .error e => .error e
          | .ok _ =>
            match rest with
            | [] => .error .undefinedBehaviour
            | value :: rest' =>
              match check_empty_string value with
              | .error e => .error e
              | .ok _ =>
                command_line_arguments_loop rest'
                  { params with port := value, portGiven := true }
      else if arg = CONNECTIONS then
        match check_boolean params.maxGiven with
        | .error e => .error e
        | .ok _ =>
          match check_out_of_bounds 0 rest.length with
          | .error e => .error e
          | .ok _ =>
            match rest with
            | [] => .error .undefinedBehaviour
            | value :: rest' =>
              match check_empty_string value with
              | .error e => .error e
              | .ok _ =>
                match convert_to_int (some value) MIN_CONNECTIONS MAX_CONNECTIONS with
                | .error e => .error e
                | .ok max =>
                  command_line_arguments_loop rest'
                    { params with max := max, maxGiven := true }
      else .error .usageExit

/-- The C `command_line_arguments` of the server; `argv[0]` is the program
name. -/
def command_line_arguments (argv : List (List Char)) : Except Fault CommandParameters :=
  command_line_arguments_loop (argv.drop 1) ⟨"0".toList, false, 0, false⟩

/-! ## Worker life cycle -/

/-- The shared statistics record together with the number of workers that have
entered `client_thread` and the number that have run `end_client_thread`. -/
structure Workers where
  stats : Statistics
  entered : Nat
  released : Nat

/-- The steps of the worker life cycle; each one updates the statistics with
the mutex held. -/
inductive WorkerEvent where
  /-- A worker enters `client_thread`: `connected++`. -/
  | enter
  /-- A worker that has entered and not yet released handles a request. -/
  | handle (request : HttpRequest)
  /-- A worker that has entered and not yet released runs `end_client_thread`. -/
  | release

/-- The start of `process_connections`: all counters 0, no worker. -/
def Workers.initial : Workers := ⟨⟨0, 0, 0, 0, 0⟩, 0, 0⟩

/-- One step of the life cycle; `none` when the step cannot be taken (no worker
is between entry and release, or the request handling does not return). -/
def worker_step {Bitmap : Type} (codec : Codec Bitmap) (file : List Char) (w : Workers) :
    WorkerEvent → Option Workers
  | .enter =>
    some ⟨{ w.stats with connected := incr w.stats.connected }, w.entered + 1, w.released⟩
  | .handle request =>
    if w.released < w.entered then
      match client_thread_body codec file request w.stats with
      | .error _ => none
      | .ok handled => some ⟨handled.stats, w.entered, w.released⟩
    else none
  | .release =>
    if w.released < w.entered then
      some ⟨(end_client_thread false w.stats 0).1, w.entered, w.released + 1⟩
    else none

/-- A sequence of steps from a state. -/
def worker_run {Bitmap : Type} (codec : Codec Bitmap) (file : List Char) :
    List WorkerEvent → Workers → Option Workers
  | [], w => some w
  | event :: events, w =>
    match worker_step codec file w event with
    | none => none
    | some w' => worker_run codec file events w'

/-! ## Specification-side notions for the pipeline, the responses and the command line -/

/-- The range invariant of an operation record (data model of the spec): a
rotate angle in `[-359, 359]`, a flip direction `h` or `v`, a scale width and
height in `[1, 10000]`. -/
def RangeInvariant (o : Operation) : Prop :=
  (o.operation = some "rotate".toList ∧ -359 ≤ o.value1 ∧ o.value1 ≤ 359) ∨
  (o.operation = some "flip".toList ∧
    (o.direction = some "h".toList ∨ o.direction = some "v".toList)) ∨
  (o.operation = some "scale".toList ∧ 1 ≤ o.value1 ∧ o.value1 ≤ 10000 ∧
    1 ≤ o.value2 ∧ o.value2 ≤ 10000)

/-- The output of one stage (spec 4.5, Transform): the codec's rotate with the
angle, flip-vertical when the direction is `v` and flip-horizontal when it is
`h`, rescale with the stored width and height. `none` is a stage failure: a
null bitmap from rotate or rescale, or a flip that reports failure. -/
def stageOutput {Bitmap : Type} (codec : Codec Bitmap) (o : Operation) (image : Bitmap) :
    Option Bitmap :=
  if o.operation = some "rotate".toList then codec.FreeImage_Rotate image o.value1
  else if o.operation = some "flip".toList then
    if o.direction = some "v".toList then
      if (codec.FreeImage_FlipVertical image).1 = true then
        some (codec.FreeImage_FlipVertical image).2
      else none
    else if o.direction = some "h".toList then
      if (codec.FreeImage_FlipHorizontal image).1 = true then
        some (codec.FreeImage_FlipHorizontal image).2
      else none
    else none
  else if o.operation = some "scale".toList then
    codec.FreeImage_Rescale image o.value1 o.value2
  else none

/-- The bitmap after all the stages of a plan, each stage being fed the output
of the one before; `none` when some stage fails. -/
def runStages {Bitmap : Type} (codec : Codec Bitmap) : List Operation → Bitmap → Option Bitmap
  | [], image => some image
  | o :: rest, image =>
    match stageOutput codec o image with
    | none => none
    | some next => runStages codec rest next

/-- The walk of a plan from left to right: the number of stages completed
before the walk ends, and how it ends, with the operation of the first stage
that fails (`Sum.inl`) or with the final bitmap (`Sum.inr`). -/
def walkPlan {Bitmap : Type} (codec : Codec Bitmap) :
    List Operation → Bitmap → Nat × (Operation ⊕ Bitmap)
  | [], image => (0, .inr image)
  | o :: rest, image =>
    match stageOutput codec o image with
    | none => (0, .inl o)
    | some next => ((walkPlan codec rest next).1 + 1, (walkPlan codec rest next).2)

/-- The plan of a request: the records `get_operations` returns before the
terminating one. -/
def planOf (r : HttpRequest) : List Operation :=
  match get_operations r with
  | .ok operations => plan operations
  | .error _ => []

/-- The response the spec prescribes for a request (4.3 to 4.5): the four gates
in order, then decoding, then the stages, then the encoded image. -/
def response_for {Bitmap : Type} (codec : Codec Bitmap) (file : List Char)
    (r : HttpRequest) : HttpResponse :=
  if r.method ≠ "GET".toList ∧ r.method ≠ "POST".toList then invalid_method_response
  else if r.method = "GET".toList then
    if r.address = "/".toList then home_page_response file else invalid_get_response
  else if valid_operation r = false then invalid_operation_response
  else if r.len > 8388608 then invalid_size_response r
  else
    match codec.fi_load_image_from_buffer r.body r.len with
    | none => invalid_image_response
    | some image =>
      match (walkPlan codec (planOf r) image).2 with
      | .inl o => failed_operation_response o
      | .inr final =>
        success_response (codec.fi_save_png_image_to_buffer final)
          (codec.fi_save_png_image_to_buffer final).length

/-- The number of stages completed for a request: 0 when it does not reach the
pipeline or its body does not decode, otherwise the number of stages the walk
of its plan completes. -/
def stagesCompleted {Bitmap : Type} (codec : Codec Bitmap) (r : HttpRequest) : Nat :=
  if r.method = "POST".toList ∧ valid_operation r = true ∧ r.len ≤ 8388608 then
    match codec.fi_load_image_from_buffer r.body r.len with
    | none => 0
    | some image => (walkPlan codec (planOf r) image).1
  else 0

/-- The value of the `Content-Type` header of a response. -/
def HttpResponse.contentType (x : HttpResponse) : Option (List Char) :=
  (x.headers.find? (fun h => h.name = "Content-Type".toList)).map (fun h => h.value)

/-- A codec for worked examples. A bitmap is its width and height. A non-empty
body decodes to a 100 by 50 bitmap; a rotation fails when `rotateFails` is set
and otherwise swaps width and height for an odd multiple of 90 degrees; a
vertical flip succeeds, a horizontal flip fails when `flipFails` is set;
rescaling gives the requested size; the encoded image is the text
`PNG <width>x<height>`, the two numbers being reduced modulo 100000. -/
def exampleCodec (rotateFails flipFails : Bool) : Codec (Int × Int) where
  fi_load_image_from_buffer := fun _ len => if len = 0 then none else some (100, 50)
  FreeImage_Rotate := fun b angle =>
    if rotateFails then none
    else if angle % 180 = 90 then some (b.2, b.1) else some b
  FreeImage_FlipVertical := fun b => (true, b)
  FreeImage_FlipHorizontal := fun b => (!flipFails, b)
  FreeImage_Rescale := fun _ w h => some (w, h)
  fi_save_png_image_to_buffer := fun b =>
    "PNG ".toList ++ Nat.toDigits 10 (b.1.toNat % 100000) ++ "x".toList
      ++ Nat.toDigits 10 (b.2.toNat % 100000)

/-- The integer denoted by a signed decimal integer with optional leading white
space. -/
def signedDecimalValue (s : List Char) : Int :=
  if (s.dropWhile isspace).head? = some '-' then
    -(digitsValue (s.dropWhile isspace).tail : Int)
  else if (s.dropWhile isspace).head? = some '+' then
    (digitsValue (s.dropWhile isspace).tail : Int)
  else (digitsValue (s.dropWhile isspace) : Int)

/-- The text is an integer within the bounds. -/
def IsIntegerIn (s : List Char) (lo hi : Int) : Prop :=
  isSignedDecimal s = true ∧ lo ≤ signedDecimalValue s ∧ signedDecimalValue s ≤ hi

/-- The command lines of the server that are rejected, in the reading by
position; `args` are the arguments after the program name. Every option takes
one value, so the arguments at even positions are in option position and those
at odd positions are values: a text `--port` or `--max` at an odd position is a
value and counts neither as a repeated option nor as an option without value.
An integer is what `strtol` reads as one (`IsIntegerIn`): optional white space,
an optional sign, digits. This is narrower than the words "appears twice", "is
the last argument" and "not an integer" taken by themselves. -/
def BadCommandLine (args : List (List Char)) : Prop :=
  [] ∈ args ∨
  (∃ i a, i % 2 = 0 ∧ args[i]? = some a ∧ a ≠ "--port".toList ∧ a ≠ "--max".toList) ∨
  (∃ i j, i < j ∧ i % 2 = 0 ∧ j % 2 = 0 ∧ args[i]? = some "--port".toList ∧
    args[j]? = some "--port".toList) ∨
  (∃ i j, i < j ∧ i % 2 = 0 ∧ j % 2 = 0 ∧ args[i]? = some "--max".toList ∧
    args[j]? = some "--max".toList) ∨
  (∃ i, i % 2 = 0 ∧ i + 1 = args.length ∧
    (args[i]? = some "--port".toList ∨ args[i]? = some "--max".toList)) ∨
  (∃ i v, i % 2 = 0 ∧ args[i]? = some "--max".toList ∧ args[i + 1]? = some v ∧
    ¬ IsIntegerIn v 0 10000)

/-- What the argument loop of the server accepts, given the parameters it has
collected so far: no empty argument, an even number of arguments, `--port` or
`--max` at every even position, neither of them given twice, and an integer in
`[0, 10000]` after every `--max`. -/
def GoodArguments (args : List (List Char)) (params : CommandParameters) : Prop :=
  [] ∉ args ∧ args.length % 2 = 0 ∧
  (∀ i a, i % 2 = 0 → args[i]? = some a → a = PORT ∨ a = CONNECTIONS) ∧
  (∀ i, i % 2 = 0 → args[i]? = some PORT →
    params.portGiven = false ∧ ∀ j, i < j → j % 2 = 0 → args[j]? ≠ some PORT) ∧
  (∀ i, i % 2 = 0 → args[i]? = some CONNECTIONS →
    params.maxGiven = false ∧ ∀ j, i < j → j % 2 = 0 → args[j]? ≠ some CONNECTIONS) ∧
  (∀ i v, i % 2 = 0 → args[i]? = some CONNECTIONS → args[i + 1]? = some v →
    IsIntegerIn v 0 10000)

/-! ## Start of the server: port check and listening socket -/

def FAILED_LISTEN : Nat := 3
def PORT_MIN : Int := 1024
def PORT_MAX : Int := 65535

/-- What the process writes to the diagnostic stream and the status it exits
with when a call ends in `connection_error`. -/
def connection_error (params : CommandParameters) : List Char × Nat :=
  ("uqimageproc: cannot listen on port \"".toList ++ params.port ++ "\"\n".toList,
    FAILED_LISTEN)

/-- The C `check_port`: `strtol` reads the port, and a value that is neither 0
nor within `[PORT_MIN, PORT_MAX]` ends the process in `connection_error`. The
text `endPtr` points at is never looked at. -/
def check_port (params : CommandParameters) : Except (List Char × Nat) Unit :=
  let converted := (strtol params.port).1
  if (converted < PORT_MIN ∨ converted > PORT_MAX) ∧ converted ≠ 0 then
    .error (connection_error params)
  else .ok ()

/-- How the start of `main` ends. -/
inductive Startup where
  /-- The process has ended: what it wrote to the diagnostic stream and its exit
  status. -/
  | exited (stderr : List Char) (status : Nat)
  /-- The call of `open_listen` has returned the listening descriptor. -/
  | listening (params : CommandParameters) (fdServer : Nat)
  /-- The command line was read in a way C leaves undefined. -/
  | undefined
deriving DecidableEq, Repr

/-- The C `open_listen`. The socket layer is the parameter `sockets`: for the
parameters of the call, the descriptor that `socket` returns once `getaddrinfo`,
`socket`, `setsockopt`, `bind` and `listen` have all succeeded, or `none` when
one of them fails and `connection_error` ends the process. -/
def open_listen (sockets : CommandParameters → Option Nat) (params : CommandParameters) :
    Except (List Char × Nat) Nat :=
  match sockets params with
  | none => .error (connection_error params)
  | some listenfd => .ok listenfd

/-- The start of the C `main`: `command_line_arguments`, then `check_port`, then
`open_listen`. -/
def main_startup (argv : List (List Char)) (sockets : CommandParameters → Option Nat) :
    Startup :=
  match command_line_arguments argv with
  | .error .usageExit => .exited command_line_error.1 command_line_error.2
  | .error .undefinedBehaviour => .undefined
  | .ok params =>
    match check_port params with
    | .error e => .exited e.1 e.2
    | .ok _ =>
      match open_listen sockets params with
      | .error e => .exited e.1 e.2
      | .ok fdServer => .listening params fdServer

/-! ## Dispatcher and admission control -/

/-- Where the dispatcher is in the `while (1)` loop of `process_connections`. -/
inductive DispatcherAt where
  /-- At the top of the loop, before `sem_wait`. -/
  | loopTop
  /-- After `sem_wait` (or after the test `params.maxGiven` failed), before
  `accept`. -/
  | beforeAccept
  /-- The call of `accept` has returned a descriptor; `create_client_thread` is
  next. -/
  | beforeSpawn
  /-- The call of `accept` has failed and `exit(1)` has ended the process. -/
  | exited
deriving DecidableEq, Repr

/-- The dispatcher together with its workers: the admission semaphore, the place
of the dispatcher in its loop, the number of connections accepted, the number
of workers created, and the statistics with the numbers of workers that have
entered and that have released. -/
structure Server where
  maxGiven : Bool
  semaphore : Nat
  dispatcher : DispatcherAt
  accepted : Nat
  spawned : Nat
  workers : Workers

/-- The steps of the dispatcher and of the workers. -/
inductive ServerEvent where
  /-- The dispatcher runs `if (params.maxGiven) sem_wait(&semaphore)`. -/
  | acquire
  /-- The call of `accept` returns: a descriptor, or a failure. -/
  | accept (ok : Bool)
  /-- The dispatcher runs `create_client_thread`. -/
  | spawn
  /-- A step of a worker. -/
  | worker (event : WorkerEvent)

/-- The state `process_connections` starts its loop in: when a limit was given
the semaphore holds `params.max` (read as the `unsigned int` that `sem_init`
takes), no connection has been accepted and there is no worker. -/
def Server.initial (params : CommandParameters) : Server :=
  { maxGiven := params.maxGiven
    semaphore := if params.maxGiven then (params.max % 4294967296).toNat else 0
    dispatcher := .loopTop
    accepted := 0
    spawned := 0
    workers := Workers.initial }

/-- One step of the dispatcher or of a worker; `none` when the step cannot be
taken: `sem_wait` blocks while the semaphore is 0, the dispatcher takes its
steps in the order of the loop, a worker starts only after it was created, and
nothing runs once the process has exited. A worker that releases runs
`end_client_thread`, which posts the semaphore when a limit was given. -/
def server_step {Bitmap : Type} (codec : Codec Bitmap) (file : List Char) (s : Server) :
    ServerEvent → Option Server
  | .acquire =>
    if s.dispatcher = .loopTop then
      if s.maxGiven then
        if s.semaphore = 0 then none
        else some { s with semaphore := s.semaphore - 1, dispatcher := .beforeAccept }
      else some { s with dispatcher := .beforeAccept }
    else none
  | .accept ok =>
    if s.dispatcher = .beforeAccept then
      if ok then some { s with accepted := s.accepted + 1, dispatcher := .beforeSpawn }
      else some { s with accepted := s.accepted + 1, dispatcher := .exited }
    else none
  | .spawn =>
    if s.dispatcher = .beforeSpawn then
      some { s with spawned := s.spawned + 1, dispatcher := .loopTop }
    else none
  | .worker event =>
    if s.dispatcher = .exited then none
    else
      match event with
      | .enter =>
        if s.workers.entered < s.spawned then
          (worker_step codec file s.workers .enter).map (fun w => { s with workers := w })
        else none
      | .handle request =>
        (worker_step codec file s.workers (.handle request)).map
          (fun w => { s with workers := w })
      | .release =>
        (worker_step codec file s.workers .release).map
          (fun w => { s with
            workers := w
            semaphore := (end_client_thread s.maxGiven s.workers.stats s.semaphore).2 })

/-- A sequence of steps from a state. -/
def server_run {Bitmap : Type} (codec : Codec Bitmap) (file : List Char) :
    List ServerEvent → Server → Option Server
  | [], s => some s
  | event :: events, s =>
    match server_step codec file s event with
    | none => none
    | some s' => server_run codec file events s'

/-- The invariant of admission control for a semaphore of capacity `n`: no more
workers have released than have entered, and no more have entered than were
created; the tokens in the semaphore, the one the dispatcher holds once it is
past `sem_wait`, and the workers created and not yet released are `n` together;
every accepted connection has its worker, but for the one the dispatcher has
just accepted; and with capacity 0 no worker is ever created. -/
def AdmissionInvariant (n : Nat) (s : Server) : Prop :=
  s.maxGiven = true ∧ s.workers.released ≤ s.workers.entered ∧
  s.workers.entered ≤ s.spawned ∧
  s.semaphore + (if s.dispatcher = .loopTop then 0 else 1) + s.spawned
    = n + s.workers.released ∧
  s.accepted = s.spawned +
    (if s.dispatcher = .beforeSpawn ∨ s.dispatcher = .exited then 1 else 0) ∧
  (n = 0 → s.spawned = 0)

/-! ## The client `uqimageclient`

The embedding of `src/uqimageclient.c`. Its functions share many names with
those of the server and live in the namespace `Client`. A buffer is the list of
the bytes written to it; `strlen` and `strcat` read a buffer up to its first
NUL. -/

namespace Client

def INPUT : List Char := "--input".toList
def OUTPUT : List Char := "--output".toList
def ROTATE : List Char := "--rotate".toList
def MIN_ROTATE : Int := -359
def MAX_ROTATE : Int := 359
def FLIP : List Char := "--flip".toList
def SCALE : List Char := "--scale".toList
def MIN_SCALE : Int := 1
def MAX_SCALE : Int := 10000
def HORIZONTAL_FLIP : List Char := "h".toList
def VERTICAL_FLIP : List Char := "v".toList
def COMMAND_LINE_ERROR : Nat := 7
def HTTP_OK : Int := 200
def INPUT_FAIL : Nat := 8
def OUTPUT_FAIL : Nat := 2
def FAILED_PORT : Nat := 19
def EMPTY_IMAGE : Nat := 17
def BAD_HTTP_RESPONSE : Nat := 4
def WRITE_FAIL : Nat := 5
def CONNECTION_CLOSED : Nat := 15

/-- The C `CommandParameters` of the client. -/
structure CommandParameters where
  portNo : List Char
  inputFile : Bool
  inputName : Option (List Char)
  rotate : Bool
  angle : Int
  scale : Bool
  widthScale : Int
  heightScale : Int
  flip : Bool
  direction : Char
  outputFile : Bool
  outputName : Option (List Char)
deriving DecidableEq, Repr

/-- The C `ImageData`: the bytes read and their number. -/
structure ImageData where
  imageData : List Char
  size : Nat
deriving DecidableEq, Repr

/-- Ways a call of the client can fail to return. -/
inductive Fault where
  /-- The process ends: what the call wrote to the diagnostic stream before, and
  the exit status. -/
  | exit (stderr : List Char) (status : Nat)
  /-- Behaviour the C standard leaves undefined. -/
  | undefinedBehaviour
deriving DecidableEq, Repr

/-- The C `command_line_error`: the usage message and exit status 7. -/
def command_line_error : Fault :=
  .exit ("Usage: uqimageclient portno [--input infile] [--rotate angle | ".toList
    ++ "--scale width height | --flip direction] [--output ".toList
    ++ "outputfilename]\n".toList) COMMAND_LINE_ERROR

/-- The C `check_empty_string`; `none` is an argument past the end of `argv`. -/
def check_empty_string (arg : Option (List Char)) : Except Fault Unit :=
  match arg with
  | none => .error .undefinedBehaviour
  | some s => if s = [] then .error command_line_error else .ok ()

/-- The C `cmd_line_check_port` on `argv[1]`. -/
def cmd_line_check_port (port : List Char) : Except Fault Unit :=
  if port = INPUT ∨ port = OUTPUT ∨ port = ROTATE ∨ port = FLIP ∨ port = SCALE ∨ port = [] then
    .error command_line_error
  else .ok ()

def check_out_of_bounds (num bound : Nat) : Except Fault Unit :=
  if num ≥ bound then .error command_line_error else .ok ()

def check_boolean (boolean : Bool) : Except Fault Unit :=
  if boolean then .error command_line_error else .ok ()

/-- The C `set_string`: the copy of the argument that is stored at `*location`
(the flag `*stringBoolean` is set by the caller of this definition). -/
def set_string (argument : Option (List Char)) : Except Fault (List Char) :=
  match argument with
  | none => .error .undefinedBehaviour
  | some s => if s = [] then .error command_line_error else .ok s

/-- The C `convert_to_int` of the client. At every call the bounds are within
the range of `int`, so that the conversion `(int)converted` keeps the value. -/
def convert_to_int (intString : Option (List Char)) (min max : Int) : Except Fault Int :=
  match intString with
  | none => .error .undefinedBehaviour
  | some s =>
    let converted := (strtol s).1
    let endPtr := (strtol s).2
    if endPtr ≠ [] ∨ converted < min ∨ converted > max then .error command_line_error
    else .ok converted

def check_direction (params : CommandParameters) (argument : Option (List Char)) :
    Except Fault CommandParameters :=
  match argument with
  | none => .error .undefinedBehaviour
  | some s =>
    if s = HORIZONTAL_FLIP then .ok { params with direction := 'h' }
    else if s = VERTICAL_FLIP then .ok { params with direction := 'v' }
    else .error command_line_error

/-- The C `rotate_check`; `rest` holds the arguments `argv[i + 1]`, ... so that
`rest.length` is `argc - (i + 1)` and `i + 1 >= argc` is `0 >= rest.length`. -/
def rotate_check (params : CommandParameters) (rest : List (List Char))
    (operationGiven : Bool) : Except Fault CommandParameters := do
  check_boolean operationGiven
  check_out_of_bounds 0 rest.length
  check_empty_string rest[0]?
  let angle ← convert_to_int rest[0]? MIN_ROTATE MAX_ROTATE
  pure { params with angle := angle, rotate := true }

/-- The C `flip_check`, with `rest` as in `rotate_check`. -/
def flip_check (params : CommandParameters) (rest : List (List Char))
    (operationGiven : Bool) : Except Fault CommandParameters := do
  check_boolean operationGiven
  check_out_of_bounds 0 rest.length
  check_empty_string rest[0]?
  let params ← check_direction params rest[0]?
  pure { params with flip := true }

/-- The C `scale_check`, with `rest` as in `rotate_check`: `i + 2 >= argc` is
`1 >= rest.length`. -/
def scale_check (params : CommandParameters) (rest : List (List Char))
    (operationGiven : Bool) : Except Fault CommandParameters := do
  check_boolean operationGiven
  check_out_of_bounds 1 rest.length
  check_empty_string rest[0]?
  check_empty_string rest[1]?
  let widthScale ← convert_to_int rest[0]? MIN_SCALE MAX_SCALE
  let heightScale ← convert_to_int rest[1]? MIN_SCALE MAX_SCALE
  pure { params with widthScale := widthScale, heightScale := heightScale, scale := true }

/-- The branch of the loop of `command_line_arguments` for `--input` up to the
`i++`: the parameters afterwards. -/
def input_check (params : CommandParameters) (rest : List (List Char)) :
    Except Fault CommandParameters := do
  check_boolean params.inputFile
  check_out_of_bounds 0 rest.length
  let name ← set_string rest[0]?
  pure { params with inputName := some name, inputFile := true }

/-- The branch of the loop of `command_line_arguments` for `--output` up to the
`i++`: the parameters afterwards. -/
def output_check (params : CommandParameters) (rest : List (List Char)) :
    Except Fault CommandParameters := do
  check_boolean params.outputFile
  check_out_of_bounds 0 rest.length
  let name ← set_string rest[0]?
  pure { params with outputName := some name, outputFile := true }

/-- One iteration of the `for` loop of `command_line_arguments` for `i >= 2`,
with `arg` the argument `argv[i]` and `rest` the arguments after it: by how much
the branch taken advances `i` over the values of its option, the flag
`operationGiven` and the parameters afterwards. -/
def command_line_arguments_body (arg : List Char) (rest : List (List Char))
    (operationGiven : Bool) (params : CommandParameters) :
    Except Fault (Nat × Bool × CommandParameters) :=
  if arg = [] then .error command_line_error
  else if arg = INPUT then
    match input_check params rest with
    | .error e => .error e
    | .ok params' => .ok (1, operationGiven, params')
  else if arg = OUTPUT then
    match output_check params rest with
    | .error e => .error e
    | .ok params' => .ok (1, operationGiven, params')
  else if arg = ROTATE then
    match rotate_check params rest operationGiven with
    | .error e => .error e
    | .ok params' => .ok (1, true, params')
  else if arg = FLIP then
    match flip_check params rest operationGiven with
    | .error e => .error e
    | .ok params' => .ok (1, true, params')
  else if arg = SCALE then
    match scale_check params rest operationGiven with
    | .error e => .error e
    | .ok params' => .ok (2, true, params')
  else .error command_line_error

/-- The `for` loop of `command_line_arguments` from `i = 2` on, on the arguments
that are left. An argument over which a branch has advanced `i` is stepped
over; `skip` is the number of those that are still ahead. -/
def command_line_arguments_loop :
    List (List Char) → Nat → Bool → CommandParameters → Except Fault CommandParameters
  | [], _, _, params => .ok params
  | _ :: rest, skip + 1, operationGiven, params =>
    command_line_arguments_loop rest skip operationGiven params
  | arg :: rest, 0, operationGiven, params =>
    match command_line_arguments_body arg rest operationGiven params with
    | .error e => .error e
    | .ok (skip, operationGiven', params') =>
      command_line_arguments_loop rest skip operationGiven' params'

/-- The C `command_line_arguments` of the client; `argv[0]` is the program name
and `argv[1]` the port. With `argc = 0` the read of `argv[1]` is past the end of
the array. -/
def command_line_arguments (argv : List (List Char)) : Except Fault CommandParameters :=
  match argv with
  | [] => .error .undefinedBehaviour
  | [_] => .error command_line_error
  | _ :: port :: rest =>
    match cmd_line_check_port port with
    | .error e => .error e
    | .ok _ =>
      command_line_arguments_loop rest 0 false
        ⟨port, false, none, false, 0, false, 0, 0, false, ' ', false, none⟩

/-! ### Request construction -/

/-- The text `sprintf` produces for `%d`. -/
def sprintf_d (x : Int) : List Char :=
  if x < 0 then '-' :: Nat.toDigits 10 x.natAbs else Nat.toDigits 10 x.natAbs

/-- The text `sprintf` produces for `%lu` and an `unsigned long`. -/
def sprintf_lu (n : Nat) : List Char :=
  Nat.toDigits 10 (n % 18446744073709551616)

/-- The value an arithmetic result has once it is stored in an `int`. -/
def to_int (x : Int) : Int :=
  (x + 2147483648) % 4294967296 - 2147483648

/-- The C `strcat(dst, src)`: the string in `dst` followed by the string in
`src`. -/
def strcat (dst src : List Char) : List Char :=
  dst.take (strlen dst) ++ src.take (strlen src)

/-- The C `construct_http_request_type`: the request line is printed into
`requestType`, appended to the request with `strcat`, and `*textSize` grows by
the size of `requestType`, terminating NUL included. -/
def construct_http_request_type (params : CommandParameters) (httpRequest : List Char)
    (textSize : Int) : List Char × Int :=
  let requestType : List Char :=
    if params.rotate then
      "POST /rotate,".toList ++ sprintf_d params.angle ++ " HTTP/1.1\r\n".toList
    else if params.scale then
      "POST /scale,".toList ++ sprintf_d params.widthScale ++ ",".toList
        ++ sprintf_d params.heightScale ++ " HTTP/1.1\r\n".toList
    else if params.flip then
      "POST /flip,".toList ++ [params.direction] ++ " HTTP/1.1\r\n".toList
    else
      "POST /rotate,".toList ++ sprintf_d 0 ++ " HTTP/1.1\r\n".toList
  let size : Int := requestType.length + 1
  (strcat httpRequest requestType, to_int (textSize + size))

/-- The C `construct_http_headers`: the `Content-Length` line, appended in the
same way. -/
def construct_http_headers (body : ImageData) (httpRequest : List Char) (textSize : Int) :
    List Char × Int :=
  let requestLength : List Char :=
    "Content-Length: ".toList ++ sprintf_lu body.size ++ "\r\n".toList
  let size : Int := requestLength.length + 1
  (strcat httpRequest requestLength, to_int (textSize + size))

/-- The C `construct_http_body`: the empty line is appended with `strcat`, the
`body.size` bytes of the image are copied behind the string the request holds,
and `*textSize` grows by `body.size` only. -/
def construct_http_body (body : ImageData) (httpRequest : List Char) (textSize : Int) :
    List Char × Int :=
  let endOfHeaders : List Char := "\r\n".toList
  let withEnd := strcat httpRequest endOfHeaders
  (withEnd.take (strlen withEnd) ++ body.imageData.take body.size,
    to_int (textSize + body.size))

/-- The C `construct_http_request`: the request buffer and `*size` afterwards;
`size` is the value `*size` has at the call. -/
def construct_http_request (params : CommandParameters) (body : ImageData) (size : Int) :
    List Char × Int :=
  let httpRequest : List Char := []
  let typed := construct_http_request_type params httpRequest size
  let headed := construct_http_headers body typed.1 typed.2
  construct_http_body body headed.1 headed.2

/-! ### Connection, request and response -/

/-- What the client meets outside itself. -/
structure World where
  /-- The bytes standard input delivers when it is not redirected. -/
  standardInput : List Char
  /-- The call `open(name, O_RDONLY)`: the content of the file, `none` when the
  call fails. -/
  openForReading : List Char → Option (List Char)
  /-- Whether `open(name, O_WRONLY | O_CREAT | O_TRUNC, S_IRWXU)` succeeds. -/
  openForWriting : List Char → Bool
  /-- Whether `getaddrinfo` and `connect` both succeed for the port. -/
  connects : List Char → Bool
  /-- What `get_HTTP_response` reads once these bytes have been sent: status,
  body and length of the body, or `none` when it returns 0. -/
  response : List Char → Option (Int × List Char × Nat)
  /-- Whether `write` to standard output succeeds. -/
  writes : Bool

/-- The calls by which the client touches the world, as they are logged. -/
inductive Call where
  | openInput (name : List Char)
  | openOutput (name : List Char)
  /-- The calls `getaddrinfo`, `socket` and `connect` for the port. -/
  | connect (port : List Char)
  /-- The loop of `read` calls on standard input, up to its end. -/
  | readInput
  | send (bytes : List Char)
  | readResponse
deriving DecidableEq, Repr

/-- The C `redirect_input`: the bytes standard input delivers afterwards. -/
def redirect_input (params : CommandParameters) (world : World) :
    List Call × Except Fault (List Char) :=
  if params.inputFile then
    match params.inputName with
    | none => ([], .error .undefinedBehaviour)
    | some name =>
      match world.openForReading name with
      | none =>
        ([.openInput name],
          .error (.exit ("uqimageclient: unable to open file \"".toList ++ name
            ++ "\" for reading\n".toList) INPUT_FAIL))
      | some content => ([.openInput name], .ok content)
  else ([], .ok world.standardInput)

/-- The C `redirect_output`. -/
def redirect_output (params : CommandParameters) (world : World) :
    List Call × Except Fault Unit :=
  if params.outputFile then
    match params.outputName with
    | none => ([], .error .undefinedBehaviour)
    | some name =>
      if world.openForWriting name then ([.openOutput name], .ok ())
      else
        ([.openOutput name],
          .error (.exit ("uqimageclient: unable to open file \"".toList ++ name
            ++ "\" for writing\n".toList) OUTPUT_FAIL))
  else ([], .ok ())

/-- The C `redirection`: both files are opened, then put in the place of
standard input and standard output. The result is what standard input delivers
afterwards. -/
def redirection (params : CommandParameters) (world : World) :
    List Call × Except Fault (List Char) :=
  match redirect_input params world with
  | (calls, .error e) => (calls, .error e)
  | (calls, .ok input) =>
    match redirect_output params world with
    | (calls', .error e) => (calls ++ calls', .error e)
    | (calls', .ok _) => (calls ++ calls', .ok input)

/-- The C `failed_connection`. -/
def failed_connection (params : CommandParameters) : Fault :=
  .exit ("uqimageclient: unable to connect to port \"".toList ++ params.portNo
    ++ "\"\n".toList) FAILED_PORT

/-- The C `no_data_error`. -/
def no_data_error : Fault :=
  .exit "uqimageclient: no data in input image\n".toList EMPTY_IMAGE

/-- The C `construct_image_data`; `input` is what standard input delivers. The
loop appends every block `read` returns until the input ends, so the data are
the whole input and `size` is their number (an `unsigned long`). -/
def construct_image_data (input : List Char) : Except Fault ImageData :=
  let body : ImageData := ⟨input, input.length % 18446744073709551616⟩
  if body.size = 0 then .error no_data_error else .ok body

/-- The C `connect_to_server`: the calls it makes, in order, and the bytes it
has sent when it returns. `send` is handed the request buffer and `size`. -/
def connect_to_server (params : CommandParameters) (world : World) :
    List Call × Except Fault (List Char) :=
  match redirection params world with
  | (calls, .error e) => (calls, .error e)
  | (calls, .ok input) =>
    if world.connects params.portNo = false then
      (calls ++ [.connect params.portNo], .error (failed_connection params))
    else
      match construct_image_data input with
      | .error e => (calls ++ [.connect params.portNo, .readInput], .error e)
      | .ok body =>
        let httpRequest := construct_http_request params body 0
        let sent := httpRequest.1.take httpRequest.2.toNat
        (calls ++ [.connect params.portNo, .readInput, .send sent], .ok sent)

/-- The C `process_http_response`; `response` is what `get_HTTP_response`
delivers. The result on return is what was written to standard output. The
conversion `%.*s` prints the body up to its first NUL and at most `(int)len`
bytes of it (all of it when `(int)len` is negative). -/
def process_http_response (response : Option (Int × List Char × Nat)) (writes : Bool) :
    Except Fault (List Char) :=
  match response with
  | none =>
    .error (.exit "uqimageclient: server connection terminated\n".toList CONNECTION_CLOSED)
  | some (status, bodyText, len) =>
    if status = HTTP_OK then
      if writes = false then
        .error (.exit "uqimageclient: unable to write output\n".toList WRITE_FAIL)
      else .ok (bodyText.take len)
    else if len ≠ 0 then
      let precision := to_int len
      let printed :=
        if precision < 0 then bodyText.take (strlen bodyText)
        else (bodyText.take precision.toNat).take (strlen (bodyText.take precision.toNat))
      .error (.exit printed BAD_HTTP_RESPONSE)
    else .ok []

/-- A run of the client: the calls made, what was written to standard output
and to the diagnostic stream, and the exit status (`none` when the behaviour is
undefined). -/
structure Run where
  calls : List Call
  stdout : List Char
  stderr : List Char
  status : Option Nat
deriving DecidableEq, Repr

/-- The run that ends in a fault after the calls made so far. -/
def Run.ofFault (calls : List Call) : Fault → Run
  | .exit stderr status => ⟨calls, [], stderr, some status⟩
  | .undefinedBehaviour => ⟨calls, [], [], none⟩

/-- The C `main` of the client: `command_line_arguments`, `connect_to_server`,
`process_http_response`, and `return 0`. -/
def main (argv : List (List Char)) (world : World) : Run :=
  match command_line_arguments argv with
  | .error f => Run.ofFault [] f
  | .ok params =>
    match connect_to_server params world with
    | (calls, .error f) => Run.ofFault calls f
    | (calls, .ok sent) =>
      match process_http_response (world.response sent) world.writes with
      | .error f => Run.ofFault (calls ++ [.readResponse]) f
      | .ok written => ⟨calls ++ [.readResponse], written, [], some 0⟩

end Client

/-! ## Specification-side notions for the client -/

namespace Client

/-- One of the three transformation options `--rotate`, `--scale`, `--flip`. -/
def isTransformation (arg : List Char) : Bool :=
  arg = "--rotate".toList || arg = "--scale".toList || arg = "--flip".toList

/-- The arguments in option position among those that follow the port: the
first of them, and then the one that follows each option and its values (two
values after `--scale`, one value after any other option). The number is that
of the values still to be stepped over. -/
def optionArguments : Nat → List (List Char) → List (List Char)
  | _, [] => []
  | 0, arg :: rest => arg :: optionArguments (if arg = "--scale".toList then 2 else 1) rest
  | k + 1, _ :: rest => optionArguments k rest

/-- What the command line of the client allows a parameter record to hold: at
most one of the three transformations, an angle in `[-359, 359]` with
`--rotate`, a width and a height in `[1, 10000]` with `--scale`, the direction
`h` or `v` with `--flip`, and the direction a blank, `h` or `v` in every case. -/
def Parsed (p : CommandParameters) : Prop :=
  (p.rotate = true → p.scale = false ∧ p.flip = false ∧ -359 ≤ p.angle ∧ p.angle ≤ 359) ∧
  (p.scale = true → p.rotate = false ∧ p.flip = false ∧
    1 ≤ p.widthScale ∧ p.widthScale ≤ 10000 ∧ 1 ≤ p.heightScale ∧ p.heightScale ≤ 10000) ∧
  (p.flip = true → p.rotate = false ∧ p.scale = false ∧
    (p.direction = 'h' ∨ p.direction = 'v')) ∧
  (p.direction = ' ' ∨ p.direction = 'h' ∨ p.direction = 'v')

/-- The target of the request the spec has the client send: `/rotate,<angle>`
for `--rotate`, `/scale,<w>,<h>` for `--scale`, `/flip,<d>` for `--flip`, and
`/rotate,0` when no transformation was requested; the numbers are written in
decimal. -/
def requestTarget (p : CommandParameters) : List Char :=
  if p.rotate then "/rotate,".toList ++ sprintf_d p.angle
  else if p.scale then
    "/scale,".toList ++ sprintf_d p.widthScale ++ ",".toList ++ sprintf_d p.heightScale
  else if p.flip then "/flip,".toList ++ [p.direction]
  else "/rotate,0".toList

/-- The request the spec has the client send for a target and a body: the
request line, the `Content-Length` header with the decimal length of the body,
the empty line, and the body. -/
def requestBytes (target body : List Char) : List Char :=
  "POST ".toList ++ target ++ " HTTP/1.1\r\n".toList
    ++ "Content-Length: ".toList ++ Nat.toDigits 10 body.length ++ "\r\n".toList
    ++ "\r\n".toList ++ body

end Client

/-! ## Lemmas on the response builders and the gates -/

theorem digitChar_ne_nul : ∀ m, m < 10 → (Nat.digitChar m).toNat ≠ 0 := by decide

theorem toDigitsCore_ne_nul (fuel : Nat) : ∀ (n : Nat) (ds : List Char),
    (∀ c ∈ ds, c.toNat ≠ 0) → ∀ c ∈ Nat.toDigitsCore 10 fuel n ds, c.toNat ≠ 0 := by
  induction fuel with
  | zero => intro n ds h; simpa [Nat.toDigitsCore] using h
  | succ fuel ih =>
    intro n ds h
    have hd : (Nat.digitChar (n % 10)).toNat ≠ 0 := digitChar_ne_nul _ (Nat.mod_lt _ (by decide))
    have hcons : ∀ c ∈ Nat.digitChar (n % 10) :: ds, c.toNat ≠ 0 := by
      intro c hc
      rcases List.mem_cons.1 hc with rfl | hc
      · exact hd
      · exact h c hc
    unfold Nat.toDigitsCore
    by_cases h0 : n / 10 = 0
    · simpa [h0] using hcons
    · simpa [h0] using ih (n / 10) _ hcons

theorem toDigits_ne_nul (n : Nat) : ∀ c ∈ Nat.toDigits 10 n, c.toNat ≠ 0 :=
  toDigitsCore_ne_nul _ _ _ (by simp)

theorem strlen_eq_length (buf : List Char) (h : ∀ c ∈ buf, c.toNat ≠ 0) :
    strlen buf = buf.length := by
  unfold strlen
  rw [List.takeWhile_eq_self_iff.2]
  intro c hc
  simpa using h c hc

theorem snprintf_ld_of_lt (n : Nat) (h : n < 9223372036854775808) :
    snprintf_ld n = Nat.toDigits 10 n := by
  have h1 : n % 18446744073709551616 = n := Nat.mod_eq_of_lt (by omega)
  simp [snprintf_ld, h1, h]

theorem valid_method_eq_true_iff (r : HttpRequest) :
    valid_method r = true ↔ r.method = GET ∨ r.method = POST := by
  unfold valid_method
  by_cases h1 : r.method = GET
  · simp [h1]
  · by_cases h2 : r.method = POST <;> simp [h1, h2]

theorem POST_ne_GET : POST ≠ GET := by decide

/-- The method gate: a method other than `GET` and `POST` ends the validation. -/
theorem check_invalid_method (r : HttpRequest) (file : List Char) (stats : Statistics)
    (h1 : r.method ≠ GET) (h2 : r.method ≠ POST) :
    check_initial_validity r file stats =
      ⟨false, [invalid_method_response], { stats with unSuccess := incr stats.unSuccess }⟩ := by
  have hv : valid_method r = false := by
    cases h : valid_method r
    · rfl
    · rcases (valid_method_eq_true_iff r).1 h with h | h
      · exact absurd h h1
      · exact absurd h h2
  simp [check_initial_validity, hv]

/-- The `GET` branch: only the address is looked at. -/
theorem check_get (r : HttpRequest) (file : List Char) (stats : Statistics)
    (h : r.method = GET) :
    check_initial_validity r file stats =
      if r.address = ['/'] then
        ⟨false, [home_page_response file], { stats with success := incr stats.success }⟩
      else
        ⟨false, [invalid_get_response], { stats with unSuccess := incr stats.unSuccess }⟩ := by
  have hv : valid_method r = true := (valid_method_eq_true_iff r).2 (Or.inl h)
  by_cases ha : r.address = ['/'] <;> simp [check_initial_validity, hv, h, valid_get, ha]

/-- The `POST` branch: the grammar first, then the body size. -/
theorem check_post (r : HttpRequest) (file : List Char) (stats : Statistics)
    (h : r.method = POST) :
    check_initial_validity r file stats =
      if valid_operation r = false then
        ⟨false, [invalid_operation_response], { stats with unSuccess := incr stats.unSuccess }⟩
      else if r.len > EIGHT_MIB then
        ⟨false, [invalid_size_response r], { stats with unSuccess := incr stats.unSuccess }⟩
      else ⟨true, [], stats⟩ := by
  have hv : valid_method r = true := (valid_method_eq_true_iff r).2 (Or.inr h)
  have hg : ¬ r.method = GET := by rw [h]; exact POST_ne_GET
  by_cases ho : valid_operation r = false
  · simp [check_initial_validity, hv, hg, ho]
  · have ho2 : valid_operation r = true := by simpa using ho
    by_cases hl : r.len > EIGHT_MIB <;>
      simp [check_initial_validity, hv, hg, ho2, valid_image_size, hl]

theorem invalid_size_sentBody (r : HttpRequest) (h : r.len < 9223372036854775808) :
    (invalid_size_response r).sentBody =
      "Image is too large: ".toList ++ Nat.toDigits 10 r.len ++ " bytes\n".toList := by
  have hnul : ∀ c ∈ "Image is too large: ".toList ++ Nat.toDigits 10 r.len ++ " bytes\n".toList,
      c.toNat ≠ 0 := by
    intro c hc
    have hfix : ∀ c ∈ "Image is too large: ".toList ++ " bytes\n".toList, c.toNat ≠ 0 := by
      decide
    rcases List.mem_append.1 hc with hc | hc
    · rcases List.mem_append.1 hc with hc | hc
      · exact hfix c (List.mem_append_left _ hc)
      · exact toDigits_ne_nul _ c hc
    · exact hfix c (List.mem_append_right _ hc)
  simp only [invalid_size_response, HttpResponse.sentBody, snprintf_ld_of_lt r.len h]
  rw [strlen_eq_length _ hnul, List.take_length]

/-! ## Lemmas on `split_by_char` -/

theorem split_by_char_ne_nil (s : List Char) (c : Char) : split_by_char s c ≠ [] := by
  cases s with
  | nil => simp [split_by_char]
  | cons x xs =>
    unfold split_by_char
    split
    · simp
    · split <;> simp

theorem split_by_char_cons_ne (x : Char) (xs : List Char) (c : Char) (h : x ≠ c) :
    split_by_char (x :: xs) c = (split_by_char xs c).modifyHead (List.cons x) := by
  have hne := split_by_char_ne_nil xs c
  rw [split_by_char, if_neg h]
  cases hs : split_by_char xs c with
  | nil => exact absurd hs hne
  | cons f fs => rfl

theorem split_by_char_cons_eq (xs : List Char) (c : Char) :
    split_by_char (c :: xs) c = [] :: split_by_char xs c := by
  rw [split_by_char, if_pos rfl]

/-- The model of the library function agrees with the standard list splitting. -/
theorem split_by_char_eq_splitOn (s : List Char) (c : Char) :
    split_by_char s c = s.splitOn c := by
  induction s with
  | nil => simp [split_by_char, List.splitOn]
  | cons x xs ih =>
    unfold List.splitOn at ih ⊢
    rw [List.splitOnP_cons]
    by_cases h : x = c
    · subst h
      simp [split_by_char_cons_eq, ih]
    · rw [split_by_char_cons_ne x xs c h, ih]
      simp [h]

theorem split_by_char_of_not_mem (s : List Char) (c : Char) (h : c ∉ s) :
    split_by_char s c = [s] := by
  induction s with
  | nil => rfl
  | cons x xs ih =>
    have hx : x ≠ c := fun e => h (by simp [e])
    have hxs : c ∉ xs := fun e => h (List.mem_cons_of_mem _ e)
    rw [split_by_char_cons_ne x xs c hx, ih hxs]
    rfl

theorem split_by_char_append_cons (a b : List Char) (c : Char) :
    split_by_char (a ++ c :: b) c = split_by_char a c ++ split_by_char b c := by
  induction a with
  | nil => simp [split_by_char]
  | cons x xs ih =>
    by_cases h : x = c
    · subst h
      simp [split_by_char_cons_eq, ih]
    · rw [List.cons_append, split_by_char_cons_ne x _ c h, split_by_char_cons_ne x xs c h, ih]
      cases hs : split_by_char xs c with
      | nil => exact absurd hs (split_by_char_ne_nil xs c)
      | cons f fs => rfl

/-- Splitting at a separator that the first piece does not contain. -/
theorem split_by_char_field_cons (a b : List Char) (c : Char) (h : c ∉ a) :
    split_by_char (a ++ c :: b) c = a :: split_by_char b c := by
  rw [split_by_char_append_cons, split_by_char_of_not_mem a c h]
  rfl

theorem split_by_char_append_joinTarget (first : List Char) (segs : List (List Char))
    (h1 : '/' ∉ first) (h : ∀ s ∈ segs, '/' ∉ s) :
    split_by_char (first ++ joinTarget segs) '/' = first :: segs := by
  induction segs generalizing first with
  | nil => simpa [joinTarget] using split_by_char_of_not_mem first '/' h1
  | cons s rest ih =>
    have hs : '/' ∉ s := h s (by simp)
    have hrest : ∀ t ∈ rest, '/' ∉ t := fun t ht => h t (List.mem_cons_of_mem _ ht)
    rw [joinTarget, List.cons_append, split_by_char_field_cons first _ '/' h1, ih s hs hrest]

theorem not_mem_of_mem_split_by_char (s : List Char) (c : Char) :
    ∀ f ∈ split_by_char s c, c ∉ f := by
  induction s with
  | nil => simp [split_by_char]
  | cons x xs ih =>
    by_cases h : x = c
    · subst h
      rw [split_by_char_cons_eq]
      intro f hf
      rcases List.mem_cons.1 hf with rfl | hf
      · simp
      · exact ih f hf
    · rw [split_by_char_cons_ne x xs c h]
      cases hs : split_by_char xs c with
      | nil => exact absurd hs (split_by_char_ne_nil xs c)
      | cons g gs =>
        rw [hs] at ih
        intro f hf
        simp only [List.modifyHead, List.mem_cons] at hf
        rcases hf with rfl | hf
        · have := ih g (by simp)
          simp only [List.mem_cons, not_or]
          exact ⟨fun e => h e.symm, this⟩
        · exact ih f (List.mem_cons_of_mem _ hf)


theorem unsplit_split_by_char (s : List Char) (c : Char) :
    unsplit c (split_by_char s c) = s := by
  induction s with
  | nil => rfl
  | cons x xs ih =>
    by_cases h : x = c
    · subst h
      rw [split_by_char_cons_eq]
      cases hs : split_by_char xs x with
      | nil => exact absurd hs (split_by_char_ne_nil xs x)
      | cons g gs => rw [hs] at ih; simp [unsplit, ih]
    · rw [split_by_char_cons_ne x xs c h]
      cases hs : split_by_char xs c with
      | nil => exact absurd hs (split_by_char_ne_nil xs c)
      | cons g gs =>
        rw [hs] at ih
        cases gs with
        | nil => simpa [unsplit, List.modifyHead] using ih
        | cons g2 gs2 => simpa [unsplit, List.modifyHead] using ih

theorem valid_operation_loop_eq_all (segs : List (List Char)) :
    valid_operation_loop segs = segs.all valid_operation_body := by
  induction segs with
  | nil => rfl
  | cons s rest ih =>
    rw [valid_operation_loop, ih, List.all_cons]
    cases valid_operation_body s <;> rfl

theorem valid_operation_eq_all (r : HttpRequest) :
    valid_operation r = ((r.address.splitOn '/').tail).all valid_operation_body := by
  simp [valid_operation, valid_operation_loop_eq_all, split_by_char_eq_splitOn]

/-! ## Lemmas on `strtol` and `valid_operation_value` -/

theorem isdigit_facts (c : Char) (h : isdigit c = true) :
    isspace c = false ∧ c ≠ '-' ∧ c ≠ '+' ∧ c ≠ ',' ∧ c ≠ '/' := by
  simp only [isdigit, Bool.and_eq_true, decide_eq_true_eq] at h
  refine ⟨?_, ?_, ?_, ?_, ?_⟩
  · simp only [isspace, Bool.or_eq_false_iff, Bool.and_eq_false_iff, decide_eq_false_iff_not]
    omega
  all_goals
    intro e
    subst e
    revert h
    decide

theorem isDigits_iff (ds : List Char) :
    isDigits ds = true ↔ ds ≠ [] ∧ ∀ c ∈ ds, isdigit c = true := by
  cases ds <;> simp [isDigits]

theorem strtol_digits (ds : List Char) (h : isDigits ds = true) :
    strtol ds = (max LONG_MIN (min LONG_MAX (digitsValue ds : Int)), []) := by
  obtain ⟨hne, hall⟩ := (isDigits_iff ds).1 h
  cases ds with
  | nil => exact absurd rfl hne
  | cons d ds =>
    obtain ⟨hsp, hm, hp, -, -⟩ := isdigit_facts d (hall d (by simp))
    have htake : (d :: ds).takeWhile isdigit = d :: ds :=
      List.takeWhile_eq_self_iff.2 hall
    have hdrop : (d :: ds).dropWhile isdigit = [] :=
      List.dropWhile_eq_nil_iff.2 hall
    have hdw : (d :: ds).dropWhile isspace = d :: ds := by
      simp [List.dropWhile, hsp]
    simp only [strtol, hdw, List.head?_cons, Option.some.injEq, hm, hp, or_self, if_false,
      htake, hdrop, decide_False]
    simp

theorem strtol_minus_digits (ds : List Char) (h : isDigits ds = true) :
    strtol ('-' :: ds) = (max LONG_MIN (min LONG_MAX (-(digitsValue ds : Int))), []) := by
  obtain ⟨hne, hall⟩ := (isDigits_iff ds).1 h
  have htake : ds.takeWhile isdigit = ds := List.takeWhile_eq_self_iff.2 hall
  have hdrop : ds.dropWhile isdigit = [] := List.dropWhile_eq_nil_iff.2 hall
  have hdw : ('-' :: ds).dropWhile isspace = '-' :: ds := by
    have : isspace '-' = false := by decide
    simp [List.dropWhile, this]
  simp only [strtol, hdw, List.head?_cons, true_or, if_true, List.tail_cons, htake, hdrop,
    decide_True]
  simp [hne]

theorem strtol_decimal (s : List Char) (h : isDecimal s = true) :
    strtol s = (max LONG_MIN (min LONG_MAX (decimalValue s)), []) := by
  unfold isDecimal at h
  unfold decimalValue
  by_cases hm : s.head? = some '-'
  · rw [if_pos hm] at h ⊢
    cases s with
    | nil => simp at hm
    | cons c t =>
      simp only [List.head?_cons, Option.some.injEq] at hm
      subst hm
      exact strtol_minus_digits t h
  · rw [if_neg hm] at h ⊢
    exact strtol_digits s h

theorem valid_operation_value_decimal (s : List Char) (lo hi : Int) (h : isDecimal s = true)
    (hlo : LONG_MIN < lo) (hhi : hi < LONG_MAX) :
    valid_operation_value (some s) lo hi = decide (lo ≤ decimalValue s ∧ decimalValue s ≤ hi) := by
  simp only [valid_operation_value, strtol_decimal s h]
  by_cases hr : lo ≤ decimalValue s ∧ decimalValue s ≤ hi
  · have h1 : min LONG_MAX (decimalValue s) = decimalValue s := min_eq_right (by omega)
    have h2 : max LONG_MIN (decimalValue s) = decimalValue s := max_eq_right (by omega)
    simp [h1, h2, hr]
  · simp only [hr, decide_False]
    simp only [ne_eq, not_true_eq_false, false_or, ite_eq_left_iff, not_or, not_lt]
    intro ⟨ha, hb⟩
    exfalso
    apply hr
    rcases le_total (decimalValue s) LONG_MAX with h1 | h1
    · rw [min_eq_right h1] at ha hb
      rcases le_total LONG_MIN (decimalValue s) with h2 | h2
      · rw [max_eq_right h2] at ha hb; exact ⟨ha, hb⟩
      · rw [max_eq_left h2] at ha hb; omega
    · rw [min_eq_left h1] at ha hb
      have : LONG_MIN ≤ LONG_MAX := by decide
      rw [max_eq_right this] at ha hb
      omega

theorem not_mem_of_isDecimal (s : List Char) (h : isDecimal s = true) :
    ',' ∉ s ∧ '/' ∉ s := by
  have key : ∀ ds : List Char, (∀ c ∈ ds, isdigit c = true) → ',' ∉ ds ∧ '/' ∉ ds := by
    intro ds hall
    exact ⟨fun hc => (isdigit_facts _ (hall _ hc)).2.2.2.1 rfl,
           fun hc => (isdigit_facts _ (hall _ hc)).2.2.2.2 rfl⟩
  unfold isDecimal at h
  by_cases hm : s.head? = some '-'
  · rw [if_pos hm] at h
    cases s with
    | nil => simp at hm
    | cons c t =>
      simp only [List.head?_cons, Option.some.injEq] at hm
      subst hm
      have := key t ((isDigits_iff t).1 h).2
      simp only [List.tail_cons] at this ⊢
      refine ⟨?_, ?_⟩
      · simp only [List.mem_cons, not_or]; exact ⟨by decide, this.1⟩
      · simp only [List.mem_cons, not_or]; exact ⟨by decide, this.2⟩
  · rw [if_neg hm] at h
    exact key s ((isDigits_iff s).1 h).2

/-! ## Lemmas on the loop body of `valid_operation` -/

theorem names_distinct : ROTATE ≠ FLIP ∧ ROTATE ≠ SCALE ∧ FLIP ≠ SCALE ∧
    FLIP ≠ ROTATE ∧ SCALE ≠ ROTATE ∧ SCALE ≠ FLIP := by decide

/-- What an iteration of the loop of `valid_operation` accepts, in terms of the
comma-fields of the segment. -/
theorem valid_operation_body_eq_true_iff (segment : List Char) :
    valid_operation_body segment = true ↔
      (∃ a, split_by_char segment ',' = [ROTATE, a] ∧
        valid_operation_value (some a) ROTATE_MIN ROTATE_MAX = true) ∨
      (∃ d, split_by_char segment ',' = [FLIP, d] ∧ (d = VERTICAL ∨ d = HORIZONTAL)) ∨
      (∃ w h, split_by_char segment ',' = [SCALE, w, h] ∧
        valid_operation_value (some w) SCALE_MIN SCALE_MAX = true ∧
        valid_operation_value (some h) SCALE_MIN SCALE_MAX = true) := by
  obtain ⟨h1, h2, h3, h4, h5, h6⟩ := names_distinct
  unfold valid_operation_body
  generalize split_by_char segment ',' = op
  rcases op with _ | ⟨f0, _ | ⟨f1, _ | ⟨f2, _ | ⟨f3, rest⟩⟩⟩⟩
  · simp [check_operation, ROTATE, FLIP, SCALE]
  all_goals
    by_cases hr : f0 = ROTATE
    · subst hr
      simp [check_operation, h1, h2, h3, h4, h5, h6, LAST_SCALE_ARGUMENT]
    · by_cases hf : f0 = FLIP
      · subst hf
        simp [check_operation, h1, h2, h3, h4, h5, h6, LAST_SCALE_ARGUMENT]
      · by_cases hs : f0 = SCALE
        · subst hs
          simp [check_operation, h1, h2, h3, h4, h5, h6, LAST_SCALE_ARGUMENT]
          try
            constructor
            · rintro ⟨a, b⟩
              exact ⟨_, _, ⟨rfl, rfl⟩, a, b⟩
            · rintro ⟨w, h, ⟨rfl, rfl⟩, a, b⟩
              exact ⟨a, b⟩
        · simp [check_operation, hr, hf, hs, Ne.symm hr, Ne.symm hf, Ne.symm hs]


theorem valid_operation_body_rotate (a : List Char) (h : ',' ∉ a) :
    valid_operation_body (ROTATE ++ ',' :: a) =
      valid_operation_value (some a) ROTATE_MIN ROTATE_MAX := by
  have hs : split_by_char (ROTATE ++ ',' :: a) ',' = [ROTATE, a] := by
    rw [split_by_char_field_cons ROTATE _ ',' (by decide), split_by_char_of_not_mem a ',' h]
  rw [Bool.eq_iff_iff, valid_operation_body_eq_true_iff, hs]
  obtain ⟨h1, h2, h3, h4, h5, h6⟩ := names_distinct
  simp [h1, h2, h3, h4, h5, h6]

theorem valid_operation_body_flip (d : List Char) (h : ',' ∉ d) :
    valid_operation_body (FLIP ++ ',' :: d) = decide (d = VERTICAL ∨ d = HORIZONTAL) := by
  have hs : split_by_char (FLIP ++ ',' :: d) ',' = [FLIP, d] := by
    rw [split_by_char_field_cons FLIP _ ',' (by decide), split_by_char_of_not_mem d ',' h]
  rw [Bool.eq_iff_iff, valid_operation_body_eq_true_iff, hs]
  obtain ⟨h1, h2, h3, h4, h5, h6⟩ := names_distinct
  simp [h1, h2, h3, h4, h5, h6]

theorem valid_operation_body_scale (w h : List Char) (hw : ',' ∉ w) (hh : ',' ∉ h) :
    valid_operation_body (SCALE ++ ',' :: w ++ ',' :: h) =
      (valid_operation_value (some w) SCALE_MIN SCALE_MAX &&
        valid_operation_value (some h) SCALE_MIN SCALE_MAX) := by
  have hs : split_by_char (SCALE ++ ',' :: w ++ ',' :: h) ',' = [SCALE, w, h] := by
    rw [List.append_assoc, List.cons_append,
      split_by_char_field_cons SCALE _ ',' (by decide),
      split_by_char_field_cons w _ ',' hw, split_by_char_of_not_mem h ',' hh]
  rw [Bool.eq_iff_iff, valid_operation_body_eq_true_iff, hs]
  obtain ⟨h1, h2, h3, h4, h5, h6⟩ := names_distinct
  simp only [List.cons.injEq, h5, h6, false_and, exists_false, exists_const, false_or,
    true_and, and_true, Bool.and_eq_true]
  constructor
  · rintro ⟨w2, h2, ⟨rfl, rfl⟩, a, b⟩
    exact ⟨a, b⟩
  · rintro ⟨a, b⟩
    exact ⟨_, _, ⟨rfl, rfl⟩, a, b⟩

theorem wellFormedOp_accepted (segment : List Char) (h : WellFormedOp segment) :
    valid_operation_body segment = true ∧ '/' ∉ segment := by
  have hlo : LONG_MIN < ROTATE_MIN ∧ ROTATE_MAX < LONG_MAX ∧
      LONG_MIN < SCALE_MIN ∧ SCALE_MAX < LONG_MAX := by decide
  rcases h with ⟨n, hn, h1, h2, rfl⟩ | rfl | rfl | ⟨w, h, hw, hw1, hw2, hh, hh1, hh2, rfl⟩
  · obtain ⟨hc, hs⟩ := not_mem_of_isDecimal n hn
    refine ⟨?_, ?_⟩
    · have := valid_operation_body_rotate n hc
      rw [valid_operation_value_decimal n _ _ hn hlo.1 hlo.2.1] at this
      rw [show "rotate,".toList ++ n = ROTATE ++ ',' :: n from rfl, this]
      simp [ROTATE_MIN, ROTATE_MAX, h1, h2]
    · intro hm
      rcases List.mem_append.1 hm with hm | hm
      · revert hm; decide
      · exact hs hm
  · exact ⟨by decide, by decide⟩
  · exact ⟨by decide, by decide⟩
  · obtain ⟨hwc, hws⟩ := not_mem_of_isDecimal w hw
    obtain ⟨hhc, hhs⟩ := not_mem_of_isDecimal h hh
    refine ⟨?_, ?_⟩
    · have := valid_operation_body_scale w h hwc hhc
      rw [valid_operation_value_decimal w _ _ hw hlo.2.2.1 hlo.2.2.2,
        valid_operation_value_decimal h _ _ hh hlo.2.2.1 hlo.2.2.2] at this
      rw [show "scale,".toList ++ w ++ ',' :: h = SCALE ++ ',' :: w ++ ',' :: h from rfl, this]
      simp [SCALE_MIN, SCALE_MAX, hw1, hw2, hh1, hh2]
    · intro hm
      rcases List.mem_append.1 hm with hm | hm
      · rcases List.mem_append.1 hm with hm | hm
        · revert hm; decide
        · exact hws hm
      · rcases List.mem_cons.1 hm with hm | hm
        · revert hm; decide
        · exact hhs hm

/-! ## Lemmas on rejected and accepted segments -/

theorem valid_operation_false_of_segment (r : HttpRequest) (segment : List Char)
    (hseg : segment ∈ (r.address.splitOn '/').tail)
    (hb : valid_operation_body segment = false) : valid_operation r = false := by
  rw [valid_operation_eq_all, List.all_eq_false]
  exact ⟨segment, hseg, by simp [hb]⟩

/-- A `POST` whose target fails the grammar is answered 400. -/
theorem check_bad_request (r : HttpRequest) (file : List Char) (stats : Statistics)
    (hp : r.method = POST) (hv : valid_operation r = false) :
    (check_initial_validity r file stats).result = false ∧
    (check_initial_validity r file stats).sent = [invalid_operation_response] := by
  rw [check_post r file stats hp, if_pos hv]
  exact ⟨rfl, rfl⟩

theorem not_valid_operation_body_of_malformed (segment : List Char) (h : Malformed segment) :
    valid_operation_body segment = false := by
  cases hb : valid_operation_body segment with
  | false => rfl
  | true =>
    exfalso
    have hR : "rotate".toList = ROTATE := rfl
    have hF : "flip".toList = FLIP := rfl
    have hS : "scale".toList = SCALE := rfl
    have hH : "h".toList = HORIZONTAL := rfl
    have hV : "v".toList = VERTICAL := rfl
    obtain ⟨h1, h2, h3, h4, h5, h6⟩ := names_distinct
    unfold Malformed at h
    rw [hR, hF, hS, hH, hV, ← split_by_char_eq_splitOn] at h
    rcases (valid_operation_body_eq_true_iff segment).1 hb with
      ⟨a, hs, -⟩ | ⟨d, hs, hd⟩ | ⟨w, hh, hs, -, -⟩
    · rw [hs] at h
      rcases h with rfl | h | h | h | h
      · simp [split_by_char] at hs
      · simp at h
      · simp at h
      · simp [h2] at h
      · simp [h1] at h
    · rw [hs] at h
      rcases h with rfl | h | h | h | h
      · simp [split_by_char] at hs
      · simp at h
      · simp at h
      · simp [h3] at h
      · rcases hd with rfl | rfl <;> simp at h
    · rw [hs] at h
      rcases h with rfl | h | h | h | h
      · simp [split_by_char] at hs
      · simp at h
      · simp [h5, h6] at h
      · simp at h
      · simp [h6] at h

theorem invalid_operation_response_facts :
    invalid_operation_response.status = 400 ∧
    invalid_operation_response.statusExplanation = "Bad Request".toList ∧
    invalid_operation_response.sentBody = "Invalid image operation\n".toList := by decide

/-- When `strtol` stops at the end of a non-empty string, the string is a signed
decimal integer with optional leading white space. -/
theorem isSignedDecimal_of_strtol_end (f : List Char) (hne : f ≠ [])
    (hend : (strtol f).2 = []) : isSignedDecimal f = true := by
  unfold strtol at hend
  unfold isSignedDecimal
  simp only at hend
  generalize (if (f.dropWhile isspace).head? = some '-' ∨ (f.dropWhile isspace).head? = some '+'
    then (f.dropWhile isspace).tail else f.dropWhile isspace) = u at hend ⊢
  by_cases hds : u.takeWhile isdigit = []
  · rw [if_pos hds] at hend
    exact absurd hend hne
  · rw [if_neg hds] at hend
    have hall : ∀ c ∈ u, isdigit c = true := List.dropWhile_eq_nil_iff.1 hend
    rw [isDigits_iff]
    refine ⟨?_, hall⟩
    intro hu
    apply hds
    rw [hu]
    rfl

theorem valid_operation_value_some_true (f : List Char) (lo hi : Int)
    (h : valid_operation_value (some f) lo hi = true) :
    (strtol f).2 = [] ∧ lo ≤ (strtol f).1 ∧ (strtol f).1 ≤ hi := by
  simp only [valid_operation_value] at h
  by_cases hc : (strtol f).2 ≠ [] ∨ (strtol f).1 < lo ∨ (strtol f).1 > hi
  · simp [hc] at h
  · simp only [not_or, not_lt, ne_eq, not_not, gt_iff_lt] at hc
    exact hc

/-- A field accepted by `valid_operation_value` is converted by `convert_to_int`
without reaching `command_line_error`. -/
theorem convert_to_int_of_valid (f : List Char) (lo hi : Int)
    (h : valid_operation_value (some f) lo hi = true) :
    convert_to_int (some f) lo hi = .ok (strtol f).1 := by
  obtain ⟨h1, h2, h3⟩ := valid_operation_value_some_true f lo hi h
  have hc : ¬ ((strtol f).2 ≠ [] ∨ (strtol f).1 < lo ∨ (strtol f).1 > hi) := by
    simp only [not_or, not_lt, ne_eq, not_not, gt_iff_lt]
    exact ⟨h1, h2, h3⟩
  simp only [convert_to_int, if_neg hc]

/-- The value read from an accepted decimal integer is the integer it denotes. -/
theorem strtol_value_of_valid_decimal (f : List Char) (lo hi : Int)
    (h : valid_operation_value (some f) lo hi = true) (hd : isDecimal f = true)
    (hlo : LONG_MIN < lo) (hhi : hi < LONG_MAX) : (strtol f).1 = decimalValue f := by
  rw [valid_operation_value_decimal f lo hi hd hlo hhi, decide_eq_true_eq] at h
  rw [strtol_decimal f hd]
  show max LONG_MIN (min LONG_MAX (decimalValue f)) = decimalValue f
  rw [min_eq_right (by omega), max_eq_right (by omega)]

theorem get_operations_body_of_valid (segment : List Char)
    (h : valid_operation_body segment = true) :
    ∃ o, get_operations_body segment = .ok o ∧ OperationOf segment o ∧
      o.operation.isSome = true := by
  have hlo : LONG_MIN < ROTATE_MIN ∧ ROTATE_MAX < LONG_MAX ∧
      LONG_MIN < SCALE_MIN ∧ SCALE_MAX < LONG_MAX := by decide
  obtain ⟨h1, h2, h3, h4, h5, h6⟩ := names_distinct
  have hun := unsplit_split_by_char segment ','
  have hmem := not_mem_of_mem_split_by_char segment ','
  rcases (valid_operation_body_eq_true_iff segment).1 h with
    ⟨a, hs, ha⟩ | ⟨d, hs, hd⟩ | ⟨w, hh, hs, hw, hhv⟩
  · rw [hs] at hun hmem
    refine ⟨⟨some ROTATE, (strtol a).1, 0, none⟩, ?_, ?_, rfl⟩
    · simp only [get_operations_body, hs, List.headD_cons, if_true, List.getElem?_cons_succ,
        List.getElem?_cons_zero, convert_to_int_of_valid a _ _ ha]
    · refine Or.inl ⟨a, hun.symm, hmem a (by simp), rfl, ?_⟩
      intro hdec
      exact strtol_value_of_valid_decimal a _ _ ha hdec hlo.1 hlo.2.1
  · rw [hs] at hun hmem
    refine ⟨⟨some FLIP, 0, 0, some d⟩, ?_, ?_, rfl⟩
    · simp only [get_operations_body, hs, List.headD_cons, h4, if_false, if_true,
        List.getElem?_cons_succ, List.getElem?_cons_zero]
    · refine Or.inr (Or.inl ⟨d, ?_, hun.symm, rfl⟩)
      rcases hd with rfl | rfl
      · exact Or.inr rfl
      · exact Or.inl rfl
  · rw [hs] at hun hmem
    refine ⟨⟨some SCALE, (strtol w).1, (strtol hh).1, none⟩, ?_, ?_, rfl⟩
    · simp only [get_operations_body, hs, List.headD_cons, h5, h6, if_false, if_true,
        List.getElem?_cons_succ, List.getElem?_cons_zero, convert_to_int_of_valid w _ _ hw,
        convert_to_int_of_valid hh _ _ hhv]
    · refine Or.inr (Or.inr ⟨w, hh, ?_, hmem w (by simp), hmem hh (by simp), rfl, ?_, ?_⟩)
      · rw [← hun]; rfl
      · intro hdec
        exact strtol_value_of_valid_decimal w _ _ hw hdec hlo.2.2.1 hlo.2.2.2
      · intro hdec
        exact strtol_value_of_valid_decimal hh _ _ hhv hdec hlo.2.2.1 hlo.2.2.2

theorem get_operations_loop_of_valid (segs : List (List Char))
    (h : ∀ s ∈ segs, valid_operation_body s = true) :
    ∃ ops, get_operations_loop segs = .ok (ops ++ [⟨none, 0, 0, none⟩]) ∧
      List.Forall₂ OperationOf segs ops ∧ ∀ o ∈ ops, o.operation.isSome = true := by
  induction segs with
  | nil => exact ⟨[], rfl, List.Forall₂.nil, by simp⟩
  | cons s rest ih =>
    obtain ⟨o, ho, hof, hsome⟩ := get_operations_body_of_valid s (h s (by simp))
    obtain ⟨ops, hops, hall, hsomes⟩ := ih (fun t ht => h t (List.mem_cons_of_mem _ ht))
    refine ⟨o :: ops, ?_, List.Forall₂.cons hof hall, ?_⟩
    · simp only [get_operations_loop, ho, hops, List.cons_append]
    · intro x hx
      rcases List.mem_cons.1 hx with rfl | hx
      · exact hsome
      · exact hsomes x hx

theorem plan_append_terminator (ops : List Operation)
    (h : ∀ o ∈ ops, o.operation.isSome = true) :
    plan (ops ++ [⟨none, 0, 0, none⟩]) = ops := by
  induction ops with
  | nil => rfl
  | cons o rest ih =>
    have ho := h o (by simp)
    have := ih (fun x hx => h x (List.mem_cons_of_mem _ hx))
    unfold plan at this ⊢
    rw [List.cons_append, List.takeWhile_cons, if_pos ho, this]

theorem two_le_length_split_by_char (s : List Char) (c : Char) (h : c ∈ s) :
    2 ≤ (split_by_char s c).length := by
  obtain ⟨a, b, rfl⟩ := List.append_of_mem h
  rw [split_by_char_append_cons, List.length_append]
  have ha := List.length_pos.2 (split_by_char_ne_nil a c)
  have hb := List.length_pos.2 (split_by_char_ne_nil b c)
  omega

/-- When the target of a validated request contains a `/`, the plan
has at least one record. -/
theorem plan_nonempty_of_slash (r : HttpRequest) (hv : valid_operation r = true)
    (hs : '/' ∈ r.address) :
    ∃ ops, get_operations r = .ok ops ∧ 1 ≤ (plan ops).length := by
  have hlen := two_le_length_split_by_char r.address '/' hs
  have hall : ∀ s ∈ (split_by_char r.address '/').drop 1, valid_operation_body s = true := by
    have := hv
    rw [valid_operation, valid_operation_loop_eq_all, List.all_eq_true] at this
    exact this
  obtain ⟨ops, hops, hf, hsome⟩ := get_operations_loop_of_valid _ hall
  refine ⟨ops ++ [(⟨none, 0, 0, none⟩ : Operation)], hops, ?_⟩
  rw [plan_append_terminator ops hsome, ← hf.length_eq, List.length_drop]
  omega

/-! ## Lemmas on the plan records, the stages and the request handling -/

/-- The record built for an accepted segment satisfies its range invariant. -/
theorem get_operations_body_range (segment : List Char)
    (h : valid_operation_body segment = true) :
    ∃ o, get_operations_body segment = .ok o ∧ RangeInvariant o ∧
      o.operation.isSome = true := by
  obtain ⟨h1, h2, h3, h4, h5, h6⟩ := names_distinct
  rcases (valid_operation_body_eq_true_iff segment).1 h with
    ⟨a, hs, ha⟩ | ⟨d, hs, hd⟩ | ⟨w, hh, hs, hw, hhv⟩
  · refine ⟨⟨some ROTATE, (strtol a).1, 0, none⟩, ?_, ?_, rfl⟩
    · simp only [get_operations_body, hs, List.headD_cons, if_true, List.getElem?_cons_succ,
        List.getElem?_cons_zero, convert_to_int_of_valid a _ _ ha]
    · obtain ⟨-, hlo, hhi⟩ := valid_operation_value_some_true a _ _ ha
      exact Or.inl ⟨rfl, hlo, hhi⟩
  · refine ⟨⟨some FLIP, 0, 0, some d⟩, ?_, ?_, rfl⟩
    · simp only [get_operations_body, hs, List.headD_cons, h4, if_false, if_true,
        List.getElem?_cons_succ, List.getElem?_cons_zero]
    · refine Or.inr (Or.inl ⟨rfl, ?_⟩)
      rcases hd with rfl | rfl
      · exact Or.inr rfl
      · exact Or.inl rfl
  · refine ⟨⟨some SCALE, (strtol w).1, (strtol hh).1, none⟩, ?_, ?_, rfl⟩
    · simp only [get_operations_body, hs, List.headD_cons, h5, h6, if_false, if_true,
        List.getElem?_cons_succ, List.getElem?_cons_zero, convert_to_int_of_valid w _ _ hw,
        convert_to_int_of_valid hh _ _ hhv]
    · obtain ⟨-, hlo, hhi⟩ := valid_operation_value_some_true w _ _ hw
      obtain ⟨-, hlo2, hhi2⟩ := valid_operation_value_some_true hh _ _ hhv
      exact Or.inr (Or.inr ⟨rfl, hlo, hhi, hlo2, hhi2⟩)

theorem get_operations_loop_range (segs : List (List Char))
    (h : ∀ s ∈ segs, valid_operation_body s = true) :
    ∃ ops, get_operations_loop segs = .ok (ops ++ [⟨none, 0, 0, none⟩]) ∧
      ops.length = segs.length ∧ ∀ o ∈ ops, RangeInvariant o := by
  induction segs with
  | nil => exact ⟨[], rfl, rfl, by simp⟩
  | cons s rest ih =>
    obtain ⟨o, ho, hinv, -⟩ := get_operations_body_range s (h s (by simp))
    obtain ⟨ops, hops, hlen, hall⟩ := ih (fun t ht => h t (List.mem_cons_of_mem _ ht))
    refine ⟨o :: ops, ?_, by simp [hlen], ?_⟩
    · simp only [get_operations_loop, ho, hops, List.cons_append]
    · intro x hx
      rcases List.mem_cons.1 hx with rfl | hx
      · exact hinv
      · exact hall x hx

theorem isSome_of_rangeInvariant (o : Operation) (h : RangeInvariant o) :
    o.operation.isSome = true := by
  rcases h with ⟨h, -⟩ | ⟨h, -⟩ | ⟨h, -⟩ <;> simp [h]

/-- For a validated request the operation array is a plan of records that
satisfy the range invariant, followed by the terminating record. -/
theorem get_operations_of_valid (r : HttpRequest) (hv : valid_operation r = true) :
    ∃ ops, get_operations r = .ok (ops ++ [⟨none, 0, 0, none⟩]) ∧
      plan (ops ++ [⟨none, 0, 0, none⟩]) = ops ∧ planOf r = ops ∧
      ops.length = ((r.address.splitOn '/').tail).length ∧
      ∀ o ∈ ops, RangeInvariant o := by
  have hall : ∀ s ∈ (split_by_char r.address '/').drop 1, valid_operation_body s = true := by
    have := hv
    rw [valid_operation, valid_operation_loop_eq_all, List.all_eq_true] at this
    exact this
  obtain ⟨ops, hops, hlen, hinv⟩ := get_operations_loop_range _ hall
  have hplan := plan_append_terminator ops (fun o ho => isSome_of_rangeInvariant o (hinv o ho))
  have hget : get_operations r = .ok (ops ++ [⟨none, 0, 0, none⟩]) := hops
  refine ⟨ops, hget, hplan, ?_, ?_, hinv⟩
  · simp only [planOf, hget, hplan]
  · rw [hlen, split_by_char_eq_splitOn, List.drop_one]

theorem literal_names : "rotate".toList = ROTATE ∧ "flip".toList = FLIP ∧
    "scale".toList = SCALE ∧ "h".toList = HORIZONTAL ∧ "v".toList = VERTICAL ∧
    "GET".toList = GET ∧ "POST".toList = POST ∧ HORIZONTAL ≠ VERTICAL :=
  ⟨rfl, rfl, rfl, rfl, rfl, rfl, rfl, by decide⟩

/-- On a record that satisfies the range invariant, the loop body of
`process_operations` completes exactly when the stage has an output. -/
theorem process_operations_body_completed {Bitmap : Type} (codec : Codec Bitmap)
    (o : Operation) (name : List Char) (image b : Bitmap) (hname : o.operation = some name)
    (hinv : RangeInvariant o) (hout : stageOutput codec o image = some b) :
    process_operations_body codec o name image = .completed b := by
  obtain ⟨h1, h2, h3, h4, h5, h6⟩ := names_distinct
  obtain ⟨eR, eF, eS, eH, eV, -, -, hHV⟩ := literal_names
  unfold RangeInvariant at hinv
  unfold stageOutput at hout
  rw [eR, eF, eS, eH, eV] at hinv
  rw [eR, eF, eS, eH, eV] at hout
  rcases hinv with ⟨hn, -⟩ | ⟨hn, hd⟩ | ⟨hn, -⟩
  · rw [hn] at hname hout
    cases hname
    simp only [if_true] at hout
    simp [process_operations_body, hout]
  · rw [hn] at hname hout
    cases hname
    rcases hd with hd | hd
    · rw [hd] at hout
      simp only [Option.some.injEq, h4, h1.symm, hHV, if_false, if_true] at hout
      by_cases hf : (codec.FreeImage_FlipHorizontal image).1 = true
      · simp only [hf, if_true, Option.some.injEq] at hout
        simp [process_operations_body, h4, hd, hHV, hf, hout]
      · simp [hf] at hout
    · rw [hd] at hout
      simp only [Option.some.injEq, h4, if_false, if_true] at hout
      by_cases hf : (codec.FreeImage_FlipVertical image).1 = true
      · simp only [hf, if_true, Option.some.injEq] at hout
        simp [process_operations_body, h4, hd, hf, hout]
      · simp [hf] at hout
  · rw [hn] at hname hout
    cases hname
    simp only [Option.some.injEq, h5, h6, if_false, if_true] at hout
    simp [process_operations_body, h5, h6, hout]

theorem process_operations_body_failed {Bitmap : Type} (codec : Codec Bitmap)
    (o : Operation) (name : List Char) (image : Bitmap) (hname : o.operation = some name)
    (hinv : RangeInvariant o) (hout : stageOutput codec o image = none) :
    ∃ after, process_operations_body codec o name image = .failed after := by
  obtain ⟨h1, h2, h3, h4, h5, h6⟩ := names_distinct
  obtain ⟨eR, eF, eS, eH, eV, -, -, hHV⟩ := literal_names
  unfold RangeInvariant at hinv
  unfold stageOutput at hout
  rw [eR, eF, eS, eH, eV] at hinv
  rw [eR, eF, eS, eH, eV] at hout
  rcases hinv with ⟨hn, -⟩ | ⟨hn, hd⟩ | ⟨hn, -⟩
  · rw [hn] at hname hout
    cases hname
    simp only [if_true] at hout
    exact ⟨none, by simp [process_operations_body, hout]⟩
  · rw [hn] at hname hout
    cases hname
    rcases hd with hd | hd
    · rw [hd] at hout
      simp only [Option.some.injEq, h4, h1.symm, hHV, if_false, if_true] at hout
      by_cases hf : (codec.FreeImage_FlipHorizontal image).1 = true
      · simp [hf] at hout
      · exact ⟨some (codec.FreeImage_FlipHorizontal image).2,
          by simp [process_operations_body, h4, hd, hHV, hf]⟩
    · rw [hd] at hout
      simp only [Option.some.injEq, h4, if_false, if_true] at hout
      by_cases hf : (codec.FreeImage_FlipVertical image).1 = true
      · simp [hf] at hout
      · exact ⟨some (codec.FreeImage_FlipVertical image).2,
          by simp [process_operations_body, h4, hd, hf]⟩
  · rw [hn] at hname hout
    cases hname
    simp only [Option.some.injEq, h5, h6, if_false, if_true] at hout
    exact ⟨none, by simp [process_operations_body, h5, h6, hout]⟩

theorem iterate_incr_of_lt (k x : Nat) (h : x + k < 4294967296) :
    incr^[k] x = x + k := by
  induction k generalizing x with
  | zero => rfl
  | succ k ih =>
    rw [Function.iterate_succ_apply]
    have hx : incr x = x + 1 := by
      unfold incr
      exact Nat.mod_eq_of_lt (by omega)
    rw [hx, ih (x + 1) (by omega)]
    omega

theorem iterate_incr_mod (k x : Nat) (h : x < 4294967296) :
    incr^[k] x = (x + k) % 4294967296 := by
  induction k generalizing x with
  | zero => simp [Nat.mod_eq_of_lt h]
  | succ k ih =>
    rw [Function.iterate_succ_apply, ih (incr x) (by unfold incr; exact Nat.mod_lt _ (by decide))]
    unfold incr
    omega

theorem walkPlan_of_runStages {Bitmap : Type} (codec : Codec Bitmap) (ops : List Operation) :
    ∀ (image b : Bitmap), runStages codec ops image = some b →
      walkPlan codec ops image = (ops.length, .inr b) := by
  induction ops with
  | nil =>
    intro image b h
    simp only [runStages, Option.some.injEq] at h
    simp [walkPlan, h]
  | cons o rest ih =>
    intro image b h
    unfold runStages at h
    unfold walkPlan
    cases hs : stageOutput codec o image with
    | none => rw [hs] at h; simp at h
    | some next =>
      rw [hs] at h
      simp only at h ⊢
      rw [ih next b h]
      rfl

theorem walkPlan_first_failure {Bitmap : Type} (codec : Codec Bitmap)
    (pre : List Operation) (o : Operation) (post : List Operation) :
    ∀ (image b : Bitmap), runStages codec pre image = some b → stageOutput codec o b = none →
      walkPlan codec (pre ++ o :: post) image = (pre.length, .inl o) := by
  induction pre with
  | nil =>
    intro image b h hf
    simp only [runStages, Option.some.injEq] at h
    subst h
    simp [walkPlan, hf]
  | cons p rest ih =>
    intro image b h hf
    unfold runStages at h
    rw [List.cons_append]
    unfold walkPlan
    cases hs : stageOutput codec p image with
    | none => rw [hs] at h; simp at h
    | some next =>
      rw [hs] at h
      simp only at h ⊢
      rw [ih next b h hf]
      rfl

/-- A walk either completes every stage or stops at a first failing stage. -/
theorem walkPlan_cases {Bitmap : Type} (codec : Codec Bitmap) (ops : List Operation) :
    ∀ (image : Bitmap),
      (∃ b, runStages codec ops image = some b ∧
        walkPlan codec ops image = (ops.length, .inr b)) ∨
      (∃ pre o post b, ops = pre ++ o :: post ∧ runStages codec pre image = some b ∧
        stageOutput codec o b = none ∧ walkPlan codec ops image = (pre.length, .inl o)) := by
  induction ops with
  | nil => intro image; exact Or.inl ⟨image, rfl, rfl⟩
  | cons o rest ih =>
    intro image
    cases hs : stageOutput codec o image with
    | none =>
      exact Or.inr ⟨[], o, rest, image, rfl, rfl, hs, by simp [walkPlan, hs]⟩
    | some next =>
      rcases ih next with ⟨b, hb, hw⟩ | ⟨pre, f, post, b, he, hb, hf, hw⟩
      · exact Or.inl ⟨b, by simp [runStages, hs, hb], by simp [walkPlan, hs, hw]⟩
      · refine Or.inr ⟨o :: pre, f, post, b, by simp [he], by simp [runStages, hs, hb], hf, ?_⟩
        simp [walkPlan, hs, hw]

/-- `process_operations` on a plan of records that satisfy the range invariant,
followed by a terminating record, does what the walk of the plan says. -/
theorem process_operations_walk {Bitmap : Type} (codec : Codec Bitmap)
    (ops : List Operation) (t : Operation) (rest : List Operation) (ht : t.operation = none)
    (hinv : ∀ o ∈ ops, RangeInvariant o) :
    ∀ (image : Bitmap) (stats : Statistics),
      (∀ b, (walkPlan codec ops image).2 = .inr b →
        process_operations codec (ops ++ t :: rest) image stats =
          .ok ⟨(true, some b), [],
            { stats with operations := incr^[(walkPlan codec ops image).1] stats.operations }⟩) ∧
      (∀ o, (walkPlan codec ops image).2 = .inl o →
        ∃ after, process_operations codec (ops ++ t :: rest) image stats =
          .ok ⟨(false, after), [failed_operation_response o],
            { stats with operations := incr^[(walkPlan codec ops image).1] stats.operations }⟩) := by
  induction ops with
  | nil =>
    intro image stats
    refine ⟨?_, ?_⟩
    · intro b hb
      simp only [walkPlan, Sum.inr.injEq] at hb
      subst hb
      simp [process_operations, ht, walkPlan]
    · intro o ho
      simp [walkPlan] at ho
  | cons p ops ih =>
    intro image stats
    have hp := hinv p (by simp)
    have hrest : ∀ o ∈ ops, RangeInvariant o := fun o ho => hinv o (List.mem_cons_of_mem _ ho)
    obtain ⟨name, hname⟩ := Option.isSome_iff_exists.1 (isSome_of_rangeInvariant p hp)
    cases hs : stageOutput codec p image with
    | none =>
      obtain ⟨after, hafter⟩ := process_operations_body_failed codec p name image hname hp hs
      refine ⟨?_, ?_⟩
      · intro b hb
        simp [walkPlan, hs] at hb
      · intro o ho
        simp only [walkPlan, hs, Sum.inl.injEq] at ho
        subst ho
        refine ⟨after, ?_⟩
        simp [process_operations, hname, hafter, walkPlan, hs]
    | some next =>
      have hdone := process_operations_body_completed codec p name image next hname hp hs
      obtain ⟨ih1, ih2⟩ := ih hrest next { stats with operations := incr stats.operations }
      have hw1 : (walkPlan codec (p :: ops) image).1 = (walkPlan codec ops next).1 + 1 := by
        simp [walkPlan, hs]
      have hw2 : (walkPlan codec (p :: ops) image).2 = (walkPlan codec ops next).2 := by
        simp [walkPlan, hs]
      have hproc : process_operations codec (p :: ops ++ t :: rest) image stats =
          process_operations codec (ops ++ t :: rest) next
            { stats with operations := incr stats.operations } := by
        simp [process_operations, hname, hdone]
      rw [hw1, hw2, hproc, Function.iterate_succ_apply]
      exact ⟨ih1, ih2⟩

theorem response_for_def {Bitmap : Type} (codec : Codec Bitmap) (file : List Char)
    (r : HttpRequest) :
    response_for codec file r =
      if r.method ≠ GET ∧ r.method ≠ POST then invalid_method_response
      else if r.method = GET then
        if r.address = ['/'] then home_page_response file else invalid_get_response
      else if valid_operation r = false then invalid_operation_response
      else if r.len > 8388608 then invalid_size_response r
      else
        match codec.fi_load_image_from_buffer r.body r.len with
        | none => invalid_image_response
        | some image =>
          match (walkPlan codec (planOf r) image).2 with
          | .inl o => failed_operation_response o
          | .inr final =>
            success_response (codec.fi_save_png_image_to_buffer final)
              (codec.fi_save_png_image_to_buffer final).length := rfl

theorem stagesCompleted_def {Bitmap : Type} (codec : Codec Bitmap) (r : HttpRequest) :
    stagesCompleted codec r =
      if r.method = POST ∧ valid_operation r = true ∧ r.len ≤ 8388608 then
        match codec.fi_load_image_from_buffer r.body r.len with
        | none => 0
        | some image => (walkPlan codec (planOf r) image).1
      else 0 := rfl

/-- What handling one request does: exactly one response is sent, the one the
spec prescribes for the request, and the statistics change as stated. -/
theorem client_thread_body_eq {Bitmap : Type} (codec : Codec Bitmap) (file : List Char)
    (r : HttpRequest) (stats : Statistics) :
    ∃ e, client_thread_body codec file r stats = .ok e ∧
      e.sent = [response_for codec file r] ∧
      e.stats.connected = stats.connected ∧ e.stats.serviced = stats.serviced ∧
      e.stats.operations = incr^[stagesCompleted codec r] stats.operations ∧
      e.stats.success =
        (if (response_for codec file r).status = 200 then incr stats.success
          else stats.success) ∧
      e.stats.unSuccess =
        (if (response_for codec file r).status = 200 ∨ (response_for codec file r).status = 501
          then stats.unSuccess else incr stats.unSuccess) := by
  have hPG : ¬ POST = GET := POST_ne_GET
  have hGP : ¬ GET = POST := fun h => POST_ne_GET h.symm
  by_cases hg : r.method = GET
  · have hc := check_get r file stats hg
    have hst : stagesCompleted codec r = 0 := by
      rw [stagesCompleted_def]; simp [hg, hGP]
    by_cases ha : r.address = ['/']
    · rw [if_pos ha] at hc
      have hresp : response_for codec file r = home_page_response file := by
        rw [response_for_def]; simp [hg, hGP, ha]
      refine ⟨⟨(), [home_page_response file], { stats with success := incr stats.success }⟩,
        ?_, ?_, rfl, rfl, ?_, ?_, ?_⟩
      · simp [client_thread_body, hc]
      · rw [hresp]
      · rw [hst]; rfl
      · rw [hresp]; simp [home_page_response, OK]
      · rw [hresp]; simp [home_page_response, OK]
    · rw [if_neg ha] at hc
      have hresp : response_for codec file r = invalid_get_response := by
        rw [response_for_def]; simp [hg, hGP, ha]
      refine ⟨⟨(), [invalid_get_response], { stats with unSuccess := incr stats.unSuccess }⟩,
        ?_, ?_, rfl, rfl, ?_, ?_, ?_⟩
      · simp [client_thread_body, hc]
      · rw [hresp]
      · rw [hst]; rfl
      · rw [hresp]; simp [invalid_get_response, NOT_FOUND]
      · rw [hresp]; simp [invalid_get_response, NOT_FOUND]
  · by_cases hp : r.method = POST
    · have hc := check_post r file stats hp
      by_cases hv : valid_operation r = false
      · rw [if_pos hv] at hc
        have hst : stagesCompleted codec r = 0 := by rw [stagesCompleted_def]; simp [hv]
        have hresp : response_for codec file r = invalid_operation_response := by
          rw [response_for_def]; simp [hp, hPG, hv]
        refine ⟨⟨(), [invalid_operation_response],
          { stats with unSuccess := incr stats.unSuccess }⟩, ?_, ?_, rfl, rfl, ?_, ?_, ?_⟩
        · simp [client_thread_body, hc]
        · rw [hresp]
        · rw [hst]; rfl
        · rw [hresp]; simp [invalid_operation_response, BAD_REQUEST]
        · rw [hresp]; simp [invalid_operation_response, BAD_REQUEST]
      · rw [if_neg hv] at hc
        have hv2 : valid_operation r = true := by simpa using hv
        by_cases hl : r.len > EIGHT_MIB
        · rw [if_pos hl] at hc
          have hl2 : 8388608 < r.len := hl
          have hst : stagesCompleted codec r = 0 := by
            rw [stagesCompleted_def]; simp [hl2]
          have hresp : response_for codec file r = invalid_size_response r := by
            rw [response_for_def]; simp [hp, hPG, hv2, hl2]
          refine ⟨⟨(), [invalid_size_response r],
            { stats with unSuccess := incr stats.unSuccess }⟩, ?_, ?_, rfl, rfl, ?_, ?_, ?_⟩
          · simp [client_thread_body, hc]
          · rw [hresp]
          · rw [hst]; rfl
          · rw [hresp]; simp [invalid_size_response, PAYLOAD_TOO_LARGE]
          · rw [hresp]; simp [invalid_size_response, PAYLOAD_TOO_LARGE]
        · rw [if_neg hl] at hc
          have hl2 : ¬ 8388608 < r.len := hl
          have hl3 : r.len ≤ 8388608 := Nat.le_of_not_lt hl2
          obtain ⟨ops, hget, -, hplanOf, -, hinv⟩ := get_operations_of_valid r hv2
          cases hload : codec.fi_load_image_from_buffer r.body r.len with
          | none =>
            have hst : stagesCompleted codec r = 0 := by
              rw [stagesCompleted_def]; simp [hp, hv2, hl3, hload]
            have hresp : response_for codec file r = invalid_image_response := by
              rw [response_for_def]; simp [hp, hPG, hv2, hl2, hload]
            refine ⟨⟨(), [invalid_image_response],
              { stats with unSuccess := incr stats.unSuccess }⟩, ?_, ?_, rfl, rfl, ?_, ?_, ?_⟩
            · simp [client_thread_body, hc, hget, hload, invalid_image]
            · rw [hresp]
            · rw [hst]; rfl
            · rw [hresp]; simp [invalid_image_response, UNPROCESSABLE_CONTENT]
            · rw [hresp]; simp [invalid_image_response, UNPROCESSABLE_CONTENT]
          | some image =>
            have hst : stagesCompleted codec r = (walkPlan codec ops image).1 := by
              rw [stagesCompleted_def]; simp [hp, hv2, hl3, hload, hplanOf]
            obtain ⟨hw1, hw2⟩ := process_operations_walk codec ops ⟨none, 0, 0, none⟩ [] rfl
              hinv image stats
            cases hwalk : (walkPlan codec ops image).2 with
            | inl o =>
              obtain ⟨after, hproc⟩ := hw2 o hwalk
              have hresp : response_for codec file r = failed_operation_response o := by
                rw [response_for_def]; simp [hp, hPG, hv2, hl2, hload, hplanOf, hwalk]
              refine ⟨⟨(), [failed_operation_response o],
                { stats with operations := incr^[(walkPlan codec ops image).1] stats.operations }⟩,
                ?_, ?_, rfl, rfl, ?_, ?_, ?_⟩
              · simp [client_thread_body, hc, hget, hload, hproc]
              · rw [hresp]
              · rw [hst]
              · rw [hresp]; simp [failed_operation_response, FAILED_OPERATION]
              · rw [hresp]; simp [failed_operation_response, FAILED_OPERATION]
            | inr final =>
              have hproc := hw1 final hwalk
              have hresp : response_for codec file r =
                  success_response (codec.fi_save_png_image_to_buffer final)
                    (codec.fi_save_png_image_to_buffer final).length := by
                rw [response_for_def]; simp [hp, hPG, hv2, hl2, hload, hplanOf, hwalk]
              refine ⟨⟨(), [success_response (codec.fi_save_png_image_to_buffer final)
                  (codec.fi_save_png_image_to_buffer final).length],
                { stats with
                  operations := incr^[(walkPlan codec ops image).1] stats.operations
                  success := incr stats.success }⟩,
                ?_, ?_, rfl, rfl, ?_, ?_, ?_⟩
              · simp [client_thread_body, hc, hget, hload, hproc, process_success]
              · rw [hresp]
              · rw [hst]
              · rw [hresp]; simp [success_response, OK]
              · rw [hresp]; simp [success_response, OK]
    · have hc := check_invalid_method r file stats hg hp
      have hst : stagesCompleted codec r = 0 := by rw [stagesCompleted_def]; simp [hp]
      have hresp : response_for codec file r = invalid_method_response := by
        rw [response_for_def]; simp [hg, hp]
      refine ⟨⟨(), [invalid_method_response],
        { stats with unSuccess := incr stats.unSuccess }⟩, ?_, ?_, rfl, rfl, ?_, ?_, ?_⟩
      · simp [client_thread_body, hc]
      · rw [hresp]
      · rw [hst]; rfl
      · rw [hresp]; simp [invalid_method_response, METHOD_NOT_ALLOWED]
      · rw [hresp]; simp [invalid_method_response, METHOD_NOT_ALLOWED]

/-- The verdicts: the response prescribed for a request is one of the eight
responses of the server, under the conditions of its gate. -/
theorem response_for_cases {Bitmap : Type} (codec : Codec Bitmap) (file : List Char)
    (r : HttpRequest) :
    (r.method ≠ GET ∧ r.method ≠ POST ∧ response_for codec file r = invalid_method_response) ∨
    (r.method = GET ∧ r.address = ['/'] ∧ response_for codec file r = home_page_response file) ∨
    (r.method = GET ∧ r.address ≠ ['/'] ∧ response_for codec file r = invalid_get_response) ∨
    (r.method = POST ∧ valid_operation r = false ∧
      response_for codec file r = invalid_operation_response) ∨
    (r.method = POST ∧ valid_operation r = true ∧ r.len > 8388608 ∧
      response_for codec file r = invalid_size_response r) ∨
    (r.method = POST ∧ valid_operation r = true ∧ r.len ≤ 8388608 ∧
      codec.fi_load_image_from_buffer r.body r.len = none ∧
      response_for codec file r = invalid_image_response) ∨
    (r.method = POST ∧ valid_operation r = true ∧ r.len ≤ 8388608 ∧
      ∃ image o, codec.fi_load_image_from_buffer r.body r.len = some image ∧
        (walkPlan codec (planOf r) image).2 = .inl o ∧ o ∈ planOf r ∧ RangeInvariant o ∧
        response_for codec file r = failed_operation_response o) ∨
    (r.method = POST ∧ valid_operation r = true ∧ r.len ≤ 8388608 ∧
      ∃ image final, codec.fi_load_image_from_buffer r.body r.len = some image ∧
        (walkPlan codec (planOf r) image).2 = .inr final ∧
        response_for codec file r =
          success_response (codec.fi_save_png_image_to_buffer final)
            (codec.fi_save_png_image_to_buffer final).length) := by
  have hPG : ¬ POST = GET := POST_ne_GET
  have hGP : ¬ GET = POST := fun h => POST_ne_GET h.symm
  rw [response_for_def]
  by_cases hg : r.method = GET
  · by_cases ha : r.address = ['/']
    · exact Or.inr (Or.inl ⟨hg, ha, by simp [hg, hGP, ha]⟩)
    · exact Or.inr (Or.inr (Or.inl ⟨hg, ha, by simp [hg, hGP, ha]⟩))
  · by_cases hp : r.method = POST
    · by_cases hv : valid_operation r = false
      · exact Or.inr (Or.inr (Or.inr (Or.inl ⟨hp, hv, by simp [hp, hPG, hv]⟩)))
      · have hv2 : valid_operation r = true := by simpa using hv
        by_cases hl : 8388608 < r.len
        · exact Or.inr (Or.inr (Or.inr (Or.inr (Or.inl
            ⟨hp, hv2, hl, by simp [hp, hPG, hv2, hl]⟩))))
        · have hl3 : r.len ≤ 8388608 := Nat.le_of_not_lt hl
          obtain ⟨ops, -, -, hplanOf, -, hinv⟩ := get_operations_of_valid r hv2
          cases hload : codec.fi_load_image_from_buffer r.body r.len with
          | none =>
            exact Or.inr (Or.inr (Or.inr (Or.inr (Or.inr (Or.inl
              ⟨hp, hv2, hl3, rfl, by simp [hp, hPG, hv2, hl]⟩)))))
          | some image =>
            cases hwalk : (walkPlan codec (planOf r) image).2 with
            | inl o =>
              have hmem : o ∈ planOf r := by
                rcases walkPlan_cases codec (planOf r) image with
                  ⟨b, -, hw⟩ | ⟨pre, f, post, b, he, -, -, hw⟩
                · rw [hw] at hwalk; cases hwalk
                · rw [hw] at hwalk
                  cases hwalk
                  rw [he]
                  simp
              refine Or.inr (Or.inr (Or.inr (Or.inr (Or.inr (Or.inr (Or.inl
                ⟨hp, hv2, hl3, image, o, rfl, hwalk, hmem, ?_, ?_⟩))))))
              · rw [hplanOf] at hmem
                exact hinv o hmem
              · simp [hp, hPG, hv2, hl, hwalk]
            | inr final =>
              exact Or.inr (Or.inr (Or.inr (Or.inr (Or.inr (Or.inr (Or.inr
                ⟨hp, hv2, hl3, image, final, rfl, hwalk,
                  by simp [hp, hPG, hv2, hl, hwalk]⟩))))))
    · exact Or.inl ⟨hg, hp, by simp [hg, hp]⟩

/-! ## Lemmas on the response table -/

theorem client_thread_loop_cons {Bitmap : Type} (codec : Codec Bitmap) (file : List Char)
    (request : HttpRequest) (reads : List (Option HttpRequest)) (stats : Statistics) :
    client_thread_loop codec file (some request :: reads) stats =
      match client_thread_body codec file request stats with
      | .error e => .error e
      | .ok handled =>
        match client_thread_loop codec file reads handled.stats with
        | .error e => .error e
        | .ok later => .ok ⟨(), handled.sent ++ later.sent, later.stats⟩ := rfl

/-- The request loop on a run of requests followed by the end of the stream or
by a failing read: one response per request, in order, and the counters
`connected` and `serviced` are left alone. -/
theorem client_thread_loop_eq {Bitmap : Type} (codec : Codec Bitmap) (file : List Char)
    (rs : List HttpRequest) (stop : List (Option HttpRequest))
    (hstop : stop = [] ∨ ∃ more, stop = none :: more) :
    ∀ stats, ∃ e, client_thread_loop codec file (rs.map some ++ stop) stats = .ok e ∧
      e.sent = rs.map (response_for codec file) ∧
      e.stats.connected = stats.connected ∧ e.stats.serviced = stats.serviced := by
  induction rs with
  | nil =>
    intro stats
    rcases hstop with rfl | ⟨more, rfl⟩
    · exact ⟨⟨(), [], stats⟩, rfl, rfl, rfl, rfl⟩
    · exact ⟨⟨(), [], stats⟩, rfl, rfl, rfl, rfl⟩
  | cons r rest ih =>
    intro stats
    obtain ⟨e1, he1, hsent1, hc1, hs1, -⟩ := client_thread_body_eq codec file r stats
    obtain ⟨e2, he2, hsent2, hc2, hs2⟩ := ih e1.stats
    refine ⟨⟨(), e1.sent ++ e2.sent, e2.stats⟩, ?_, ?_, ?_, ?_⟩
    · rw [List.map_cons, List.cons_append, client_thread_loop_cons, he1]
      simp only [he2]
    · simp [hsent1, hsent2]
    · rw [hc2, hc1]
    · rw [hs2, hs1]

/-! ## Lemmas on stage failure -/

/-- `process_operations` walks a prefix of stages that all complete and goes on
with the bitmap they produce. -/
theorem process_operations_of_completed {Bitmap : Type} (codec : Codec Bitmap)
    (pre rest : List Operation) (hinv : ∀ o ∈ pre, RangeInvariant o) :
    ∀ (image b : Bitmap) (stats : Statistics), runStages codec pre image = some b →
      process_operations codec (pre ++ rest) image stats =
        process_operations codec rest b
          { stats with operations := incr^[pre.length] stats.operations } := by
  induction pre with
  | nil =>
    intro image b stats h
    simp only [runStages, Option.some.injEq] at h
    subst h
    rfl
  | cons p pre ih =>
    intro image b stats h
    have hp := hinv p (by simp)
    have hrest : ∀ o ∈ pre, RangeInvariant o := fun o ho => hinv o (List.mem_cons_of_mem _ ho)
    obtain ⟨name, hname⟩ := Option.isSome_iff_exists.1 (isSome_of_rangeInvariant p hp)
    unfold runStages at h
    cases hs : stageOutput codec p image with
    | none => rw [hs] at h; simp at h
    | some next =>
      rw [hs] at h
      have hdone := process_operations_body_completed codec p name image next hname hp hs
      have hproc : process_operations codec (p :: pre ++ rest) image stats =
          process_operations codec (pre ++ rest) next
            { stats with operations := incr stats.operations } := by
        simp [process_operations, hname, hdone]
      rw [hproc, ih hrest next b _ h, List.length_cons, Function.iterate_succ_apply]

/-- A request passes the validator exactly when it is a `POST` whose target
passes the grammar and whose body has at most 8388608 bytes. -/
theorem check_result_true_iff (r : HttpRequest) (file : List Char) (stats : Statistics) :
    (check_initial_validity r file stats).result = true ↔
      r.method = POST ∧ valid_operation r = true ∧ r.len ≤ 8388608 := by
  by_cases hg : r.method = GET
  · have hne : ¬ r.method = POST := by rw [hg]; exact fun h => POST_ne_GET h.symm
    rw [check_get r file stats hg]
    split <;> simp [hne]
  · by_cases hp : r.method = POST
    · rw [check_post r file stats hp]
      by_cases hv : valid_operation r = false
      · simp [hv]
      · have hv2 : valid_operation r = true := by simpa using hv
        rw [if_neg hv]
        by_cases hl : r.len > EIGHT_MIB
        · rw [if_pos hl]
          have : ¬ r.len ≤ 8388608 := Nat.not_le_of_gt hl
          simp [this]
        · rw [if_neg hl]
          have : r.len ≤ 8388608 := Nat.le_of_not_lt hl
          simp [hp, hv2, this]
    · rw [check_invalid_method r file stats hg hp]
      simp [hp]

/-- The body of the 501 response names the operation of the record. -/
theorem failed_operation_response_body (o : Operation) (h : RangeInvariant o) :
    ∃ name, o.operation = some name ∧
      (name = "rotate".toList ∨ name = "flip".toList ∨ name = "scale".toList) ∧
      (failed_operation_response o).sentBody =
        "Operation did not complete: ".toList ++ name ++ "\n".toList := by
  have key : ∀ name : List Char, (name = "rotate".toList ∨ name = "flip".toList ∨
      name = "scale".toList) → o.operation = some name →
      (failed_operation_response o).sentBody =
        "Operation did not complete: ".toList ++ name ++ "\n".toList := by
    intro name hname ho
    unfold HttpResponse.sentBody failed_operation_response
    simp only [ho, Option.getD_some]
    rcases hname with rfl | rfl | rfl <;> decide
  rcases h with ⟨ho, -⟩ | ⟨ho, -⟩ | ⟨ho, -⟩
  · exact ⟨_, ho, Or.inl rfl, key _ (Or.inl rfl) ho⟩
  · exact ⟨_, ho, Or.inr (Or.inl rfl), key _ (Or.inr (Or.inl rfl)) ho⟩
  · exact ⟨_, ho, Or.inr (Or.inr rfl), key _ (Or.inr (Or.inr rfl)) ho⟩

theorem stagesCompleted_of_rejected {Bitmap : Type} (codec : Codec Bitmap) (file : List Char)
    (r : HttpRequest) (stats : Statistics)
    (h : (check_initial_validity r file stats).result = false) :
    stagesCompleted codec r = 0 := by
  rw [stagesCompleted_def]
  have hn : ¬ (r.method = POST ∧ valid_operation r = true ∧ r.len ≤ 8388608) := by
    intro hc
    rw [(check_result_true_iff r file stats).2 hc] at h
    cases h
  rw [if_neg hn]

theorem stagesCompleted_of_validated {Bitmap : Type} (codec : Codec Bitmap) (file : List Char)
    (r : HttpRequest) (stats : Statistics)
    (h : (check_initial_validity r file stats).result = true) :
    stagesCompleted codec r =
      match codec.fi_load_image_from_buffer r.body r.len with
      | none => 0
      | some image => (walkPlan codec (planOf r) image).1 := by
  exact (stagesCompleted_def codec r).trans (if_pos ((check_result_true_iff r file stats).1 h))

/-! ## Lemmas on the worker life cycle -/

/-- The invariant of the worker life cycle. -/
theorem worker_step_invariant {Bitmap : Type} (codec : Codec Bitmap) (file : List Char)
    (w w' : Workers) (event : WorkerEvent) (hstep : worker_step codec file w event = some w')
    (h : w.released ≤ w.entered ∧
      w.stats.connected = (w.entered - w.released) % 4294967296 ∧
      w.stats.serviced = w.released % 4294967296) :
    w'.released ≤ w'.entered ∧
      w'.stats.connected = (w'.entered - w'.released) % 4294967296 ∧
      w'.stats.serviced = w'.released % 4294967296 := by
  obtain ⟨h1, h2, h3⟩ := h
  cases event with
  | enter =>
    simp only [worker_step, Option.some.injEq] at hstep
    subst hstep
    simp only [incr, h2]
    refine ⟨by omega, by omega, h3⟩
  | handle request =>
    simp only [worker_step] at hstep
    split at hstep
    · obtain ⟨e, he, -, hc, hs, -⟩ := client_thread_body_eq codec file request w.stats
      rw [he] at hstep
      simp only [Option.some.injEq] at hstep
      subst hstep
      exact ⟨h1, by rw [hc]; exact h2, by rw [hs]; exact h3⟩
    · cases hstep
  | release =>
    simp only [worker_step] at hstep
    split at hstep
    · rename_i hlt
      simp only [Option.some.injEq] at hstep
      subst hstep
      simp only [end_client_thread, incr, decr, h2, h3]
      refine ⟨by omega, by omega, by omega⟩
    · cases hstep

theorem worker_run_invariant {Bitmap : Type} (codec : Codec Bitmap) (file : List Char)
    (events : List WorkerEvent) :
    ∀ (w w' : Workers), worker_run codec file events w = some w' →
      (w.released ≤ w.entered ∧
        w.stats.connected = (w.entered - w.released) % 4294967296 ∧
        w.stats.serviced = w.released % 4294967296) →
      w'.released ≤ w'.entered ∧
        w'.stats.connected = (w'.entered - w'.released) % 4294967296 ∧
        w'.stats.serviced = w'.released % 4294967296 := by
  induction events with
  | nil =>
    intro w w' hrun h
    simp only [worker_run, Option.some.injEq] at hrun
    subst hrun
    exact h
  | cons event events ih =>
    intro w w' hrun h
    simp only [worker_run] at hrun
    cases hstep : worker_step codec file w event with
    | none => rw [hstep] at hrun; cases hrun
    | some w1 =>
      rw [hstep] at hrun
      exact ih w1 w' hrun (worker_step_invariant codec file w w1 event hstep h)

/-! ## Lemmas on the statistics report -/

theorem digitChar_isdigit : ∀ m, m < 10 → isdigit (Nat.digitChar m) = true := by decide

theorem toDigitsCore_isdigit (fuel : Nat) : ∀ (n : Nat) (ds : List Char),
    (∀ c ∈ ds, isdigit c = true) → ∀ c ∈ Nat.toDigitsCore 10 fuel n ds, isdigit c = true := by
  induction fuel with
  | zero => intro n ds h; simpa [Nat.toDigitsCore] using h
  | succ fuel ih =>
    intro n ds h
    have hd : isdigit (Nat.digitChar (n % 10)) = true :=
      digitChar_isdigit _ (Nat.mod_lt _ (by decide))
    have hcons : ∀ c ∈ Nat.digitChar (n % 10) :: ds, isdigit c = true := by
      intro c hc
      rcases List.mem_cons.1 hc with rfl | hc
      · exact hd
      · exact h c hc
    unfold Nat.toDigitsCore
    by_cases h0 : n / 10 = 0
    · simpa [h0] using hcons
    · simpa [h0] using ih (n / 10) _ hcons

/-- The decimal text of a number consists of decimal digits. -/
theorem toDigits_isdigit (n : Nat) : ∀ c ∈ Nat.toDigits 10 n, isdigit c = true :=
  toDigitsCore_isdigit _ _ _ (by simp)

theorem count_newline_toDigits (n : Nat) : (Nat.toDigits 10 n).count '\n' = 0 := by
  rw [List.count_eq_zero]
  intro h
  have := toDigits_isdigit n _ h
  revert this
  decide

/-- A report line: a label without newline, a decimal number, a newline. -/
theorem report_line (label : List Char) (n : Nat) (h : label.count '\n' = 0) :
    (label ++ fprintf_u n ++ "\n".toList).count '\n' = 1 ∧
    (label ++ fprintf_u n ++ "\n".toList).getLast? = some '\n' := by
  refine ⟨?_, ?_⟩
  · rw [List.count_append, List.count_append, h, fprintf_u, count_newline_toDigits]
    decide
  · simp

/-! ## Lemmas on the command line of the server -/

/-- `strtol` on a signed decimal integer with optional leading white space reads
it up to its end and returns the integer it denotes, clamped to a `long`. -/
theorem strtol_signed (s : List Char) (h : isSignedDecimal s = true) :
    strtol s = (max LONG_MIN (min LONG_MAX (signedDecimalValue s)), []) := by
  unfold isSignedDecimal at h
  unfold strtol signedDecimalValue
  simp only
  generalize s.dropWhile isspace = t at h ⊢
  obtain ⟨hne, hall⟩ := (isDigits_iff _).1 h
  have htake := List.takeWhile_eq_self_iff.2 hall
  have hdrop := List.dropWhile_eq_nil_iff.2 hall
  rw [htake, hdrop, if_neg hne]
  by_cases hm : t.head? = some '-'
  · simp [hm]
  · by_cases hp : t.head? = some '+'
    · simp [hm, hp]
    · simp [hm, hp]

theorem convert_to_int_some_ne_undefined (v : List Char) (lo hi : Int) :
    convert_to_int (some v) lo hi ≠ .error .undefinedBehaviour := by
  simp only [convert_to_int]
  split <;> simp

/-- A value `convert_to_int` accepts is empty or an integer within the bounds. -/
theorem integer_of_convert_to_int (v : List Char) (lo hi x : Int)
    (hlo : LONG_MIN < lo) (hhi : hi < LONG_MAX)
    (h : convert_to_int (some v) lo hi = .ok x) : v = [] ∨ IsIntegerIn v lo hi := by
  by_cases hv : v = []
  · exact Or.inl hv
  · right
    simp only [convert_to_int] at h
    split at h
    · cases h
    · rename_i hc
      simp only [not_or, not_lt, ne_eq, not_not, gt_iff_lt] at hc
      obtain ⟨hend, h1, h2⟩ := hc
      have hs := isSignedDecimal_of_strtol_end v hv hend
      rw [strtol_signed v hs] at h1 h2
      refine ⟨hs, ?_, ?_⟩
      · simp only at h1 h2
        rcases le_total (signedDecimalValue v) LONG_MAX with c1 | c1
        · rw [min_eq_right c1] at h1 h2
          rcases le_total LONG_MIN (signedDecimalValue v) with c2 | c2
          · rw [max_eq_right c2] at h1; exact h1
          · rw [max_eq_left c2] at h1; omega
        · rw [min_eq_left c1] at h1 h2
          have : LONG_MIN ≤ LONG_MAX := by decide
          rw [max_eq_right this] at h1 h2
          omega
      · simp only at h1 h2
        rcases le_total (signedDecimalValue v) LONG_MAX with c1 | c1
        · rw [min_eq_right c1] at h1 h2
          rcases le_total LONG_MIN (signedDecimalValue v) with c2 | c2
          · rw [max_eq_right c2] at h2; exact h2
          · rw [max_eq_left c2] at h2; omega
        · rw [min_eq_left c1] at h1 h2
          have : LONG_MIN ≤ LONG_MAX := by decide
          rw [max_eq_right this] at h1 h2
          omega

theorem option_names : ¬ PORT = [] ∧ ¬ CONNECTIONS = [] ∧ ¬ CONNECTIONS = PORT ∧
    ¬ PORT = CONNECTIONS := by decide

theorem command_line_arguments_loop_single (arg : List Char) (params : CommandParameters) :
    command_line_arguments_loop [arg] params = .error .usageExit := by
  simp only [command_line_arguments_loop, check_empty_string, check_boolean,
    check_out_of_bounds, List.length_nil, ge_iff_le, le_refl, if_true]
  obtain ⟨n1, n2, n3, n4⟩ := option_names
  by_cases ha : arg = []
  · simp [ha]
  · by_cases hp : arg = PORT
    · cases hg : params.portGiven <;> simp [ha, hp, hg, n1, n2, n3, n4]
    · by_cases hm : arg = CONNECTIONS
      · cases hg : params.maxGiven <;> simp [ha, hp, hm, hg, n1, n2, n3, n4]
      · simp [ha, hp, hm]

theorem command_line_arguments_loop_pair (arg value : List Char) (rest : List (List Char))
    (params : CommandParameters) :
    command_line_arguments_loop (arg :: value :: rest) params =
      if arg = [] then .error .usageExit
      else if arg = PORT then
        if params.portGiven = true then .error .usageExit
        else if value = [] then .error .usageExit
        else command_line_arguments_loop rest { params with port := value, portGiven := true }
      else if arg = CONNECTIONS then
        if params.maxGiven = true then .error .usageExit
        else if value = [] then .error .usageExit
        else
          match convert_to_int (some value) MIN_CONNECTIONS MAX_CONNECTIONS with
          | .error e => .error e
          | .ok max =>
            command_line_arguments_loop rest { params with max := max, maxGiven := true }
      else .error .usageExit := by
  rw [command_line_arguments_loop]
  simp only [check_empty_string, check_boolean, check_out_of_bounds, List.length_cons,
    ge_iff_le, Nat.le_zero_eq, Nat.add_one_ne_zero, if_false]
  obtain ⟨n1, n2, n3, n4⟩ := option_names
  by_cases ha : arg = []
  · simp [ha]
  · by_cases hp : arg = PORT
    · cases hg : params.portGiven
      · by_cases hv : value = [] <;> simp [ha, hp, hg, hv, n1, n2, n3, n4]
      · simp [ha, hp, hg, n1, n2, n3, n4]
    · by_cases hm : arg = CONNECTIONS
      · cases hg : params.maxGiven
        · by_cases hv : value = []
          · simp [ha, hp, hm, hg, hv, n1, n2, n3, n4]
          · subst hm
            simp only [n2, n3, hg, hv, if_false]
            rfl
        · simp [ha, hp, hm, hg, n1, n2, n3, n4]
      · simp [ha, hp, hm]

theorem list_pair_induction {α : Type} {P : List α → Prop} (h0 : P [])
    (h1 : ∀ a, P [a]) (h2 : ∀ a v rest, P rest → P (a :: v :: rest)) : ∀ l, P l := by
  have key : ∀ l, P l ∧ ∀ a, P (a :: l) := by
    intro l
    induction l with
    | nil => exact ⟨h0, h1⟩
    | cons x l ih => exact ⟨ih.2 x, fun a => h2 a x l ih.1⟩
  exact fun l => (key l).1

/-- The argument loop ends with a parameter record or with the usage error. -/
theorem command_line_arguments_loop_ne_undefined (args : List (List Char)) :
    ∀ params, command_line_arguments_loop args params ≠ .error .undefinedBehaviour := by
  induction args using list_pair_induction with
  | h0 => intro params; simp [command_line_arguments_loop]
  | h1 a => intro params; rw [command_line_arguments_loop_single]; simp
  | h2 a v rest ih =>
    intro params
    rw [command_line_arguments_loop_pair]
    split
    · simp
    · split
      · split
        · simp
        · split
          · simp
          · exact ih _
      · split
        · split
          · simp
          · split
            · simp
            · have hc := convert_to_int_some_ne_undefined v MIN_CONNECTIONS MAX_CONNECTIONS
              split
              · rename_i e he
                rw [he] at hc
                intro hu
                apply hc
                cases hu
                rfl
              · exact ih _
        · simp

/-- What the argument loop accepts is a good command line. -/
theorem goodArguments_of_ok (args : List (List Char)) :
    ∀ params p, command_line_arguments_loop args params = .ok p →
      GoodArguments args params := by
  obtain ⟨n1, n2, n3, n4⟩ := option_names
  induction args using list_pair_induction with
  | h0 =>
    intro params p _
    refine ⟨by simp, rfl, ?_, ?_, ?_, ?_⟩ <;> simp
  | h1 a =>
    intro params p h
    rw [command_line_arguments_loop_single] at h
    cases h
  | h2 a v rest ih =>
    intro params p h
    rw [command_line_arguments_loop_pair] at h
    by_cases ha : a = []
    · rw [if_pos ha] at h; cases h
    rw [if_neg ha] at h
    by_cases hp : a = PORT
    · rw [if_pos hp] at h
      by_cases hg : params.portGiven = true
      · rw [if_pos hg] at h; cases h
      rw [if_neg hg] at h
      by_cases hv : v = []
      · rw [if_pos hv] at h; cases h
      rw [if_neg hv] at h
      obtain ⟨g1, g2, g3, g4, g5, g6⟩ := ih _ p h
      have hg' : params.portGiven = false := by simpa using hg
      subst hp
      refine ⟨?_, ?_, ?_, ?_, ?_, ?_⟩
      · simp only [List.mem_cons, not_or]
        exact ⟨fun e => ha e.symm, fun e => hv e.symm, g1⟩
      · simp only [List.length_cons]; omega
      · intro i x hi hx
        match i, hi, hx with
        | 0, _, hx => simp at hx; exact Or.inl hx.symm
        | 1, hi, _ => omega
        | k + 2, hi, hx =>
          simp only [List.getElem?_cons_succ] at hx
          exact g3 k x (by omega) hx
      · intro i hi hx
        match i, hi, hx with
        | 0, _, _ =>
          refine ⟨hg', ?_⟩
          intro j hj hj2 hjx
          match j, hj, hj2, hjx with
          | 1, _, hj2, _ => omega
          | k + 2, _, hj2, hjx =>
            simp only [List.getElem?_cons_succ] at hjx
            have := (g4 k (by omega) hjx).1
            simp at this
        | 1, hi, _ => omega
        | k + 2, hi, hx =>
          simp only [List.getElem?_cons_succ] at hx
          have := (g4 k (by omega) hx).1
          simp at this
      · intro i hi hx
        match i, hi, hx with
        | 0, _, hx => simp [n4] at hx
        | 1, hi, _ => omega
        | k + 2, hi, hx =>
          simp only [List.getElem?_cons_succ] at hx
          obtain ⟨q1, q2⟩ := g5 k (by omega) hx
          refine ⟨q1, ?_⟩
          intro j hj hj2 hjx
          match j, hj, hj2, hjx with
          | 0, hj, _, _ => omega
          | 1, _, hj2, _ => omega
          | m + 2, hj, hj2, hjx =>
            simp only [List.getElem?_cons_succ] at hjx
            exact q2 m (by omega) (by omega) hjx
      · intro i x hi hx hx2
        match i, hi, hx, hx2 with
        | 0, _, hx, _ => simp [n4] at hx
        | 1, hi, _, _ => omega
        | k + 2, hi, hx, hx2 =>
          simp only [List.getElem?_cons_succ] at hx hx2
          exact g6 k x (by omega) hx hx2
    · rw [if_neg hp] at h
      by_cases hm : a = CONNECTIONS
      · rw [if_pos hm] at h
        by_cases hg : params.maxGiven = true
        · rw [if_pos hg] at h; cases h
        rw [if_neg hg] at h
        by_cases hv : v = []
        · rw [if_pos hv] at h; cases h
        rw [if_neg hv] at h
        cases hconv : convert_to_int (some v) MIN_CONNECTIONS MAX_CONNECTIONS with
        | error e => rw [hconv] at h; cases h
        | ok m =>
          rw [hconv] at h
          obtain ⟨g1, g2, g3, g4, g5, g6⟩ := ih _ p h
          have hg' : params.maxGiven = false := by simpa using hg
          have hint : IsIntegerIn v 0 10000 := by
            rcases integer_of_convert_to_int v MIN_CONNECTIONS MAX_CONNECTIONS m
              (by decide) (by decide) hconv with h0 | h0
            · exact absurd h0 hv
            · exact h0
          subst hm
          refine ⟨?_, ?_, ?_, ?_, ?_, ?_⟩
          · simp only [List.mem_cons, not_or]
            exact ⟨fun e => ha e.symm, fun e => hv e.symm, g1⟩
          · simp only [List.length_cons]; omega
          · intro i x hi hx
            match i, hi, hx with
            | 0, _, hx => simp at hx; exact Or.inr hx.symm
            | 1, hi, _ => omega
            | k + 2, hi, hx =>
              simp only [List.getElem?_cons_succ] at hx
              exact g3 k x (by omega) hx
          · intro i hi hx
            match i, hi, hx with
            | 0, _, hx => simp [n3] at hx
            | 1, hi, _ => omega
            | k + 2, hi, hx =>
              simp only [List.getElem?_cons_succ] at hx
              obtain ⟨q1, q2⟩ := g4 k (by omega) hx
              refine ⟨q1, ?_⟩
              intro j hj hj2 hjx
              match j, hj, hj2, hjx with
              | 0, hj, _, _ => omega
              | 1, _, hj2, _ => omega
              | m + 2, hj, hj2, hjx =>
                simp only [List.getElem?_cons_succ] at hjx
                exact q2 m (by omega) (by omega) hjx
          · intro i hi hx
            match i, hi, hx with
            | 0, _, _ =>
              refine ⟨hg', ?_⟩
              intro j hj hj2 hjx
              match j, hj, hj2, hjx with
              | 1, _, hj2, _ => omega
              | k + 2, _, hj2, hjx =>
                simp only [List.getElem?_cons_succ] at hjx
                have := (g5 k (by omega) hjx).1
                simp at this
            | 1, hi, _ => omega
            | k + 2, hi, hx =>
              simp only [List.getElem?_cons_succ] at hx
              have := (g5 k (by omega) hx).1
              simp at this
          · intro i x hi hx hx2
            match i, hi, hx, hx2 with
            | 0, _, _, hx2 =>
              simp at hx2
              rw [← hx2]
              exact hint
            | 1, hi, _, _ => omega
            | k + 2, hi, hx, hx2 =>
              simp only [List.getElem?_cons_succ] at hx hx2
              exact g6 k x (by omega) hx hx2
      · rw [if_neg hm] at h
        cases h

/-! ## Lemmas on the start of the server -/

theorem isDecimal_ne_nil (s : List Char) (h : isDecimal s = true) : s ≠ [] := by
  intro hs
  subst hs
  simp [isDecimal, isDigits] at h

theorem convert_to_int_decimal (s : List Char) (lo hi : Int) (h : isDecimal s = true)
    (hlo : LONG_MIN < lo) (hhi : hi < LONG_MAX) (h0 : lo ≤ decimalValue s)
    (h1 : decimalValue s ≤ hi) : convert_to_int (some s) lo hi = .ok (decimalValue s) := by
  have hv : valid_operation_value (some s) lo hi = true := by
    rw [valid_operation_value_decimal s lo hi h hlo hhi]
    exact decide_eq_true ⟨h0, h1⟩
  rw [convert_to_int_of_valid s lo hi hv, strtol_value_of_valid_decimal s lo hi hv h hlo hhi]

/-- The port check on a decimal integer: it passes exactly when the value is 0
or within `[1024, 65535]`. -/
theorem check_port_decimal (params : CommandParameters) (h : isDecimal params.port = true) :
    check_port params =
      if decimalValue params.port = 0 ∨
          (1024 ≤ decimalValue params.port ∧ decimalValue params.port ≤ 65535) then .ok ()
      else .error (connection_error params) := by
  unfold check_port
  simp only [strtol_decimal params.port h, PORT_MIN, PORT_MAX, LONG_MIN, LONG_MAX]
  by_cases hr : decimalValue params.port = 0 ∨
      (1024 ≤ decimalValue params.port ∧ decimalValue params.port ≤ 65535)
  · rw [if_pos hr, if_neg]
    intro hc
    omega
  · rw [if_neg hr, if_pos]
    omega
/-! ## Lemmas on the dispatcher -/

/-- What a worker step does to the numbers of workers that have entered and
released. -/
theorem worker_step_counts {Bitmap : Type} (codec : Codec Bitmap) (file : List Char)
    (w w' : Workers) (event : WorkerEvent) (hstep : worker_step codec file w event = some w') :
    (event = .enter → w'.entered = w.entered + 1 ∧ w'.released = w.released) ∧
    ((∃ request, event = .handle request) →
      w'.entered = w.entered ∧ w'.released = w.released) ∧
    (event = .release →
      w.released < w.entered ∧ w'.entered = w.entered ∧ w'.released = w.released + 1) := by
  cases event with
  | enter =>
    simp only [worker_step, Option.some.injEq] at hstep
    subst hstep
    simp
  | handle request =>
    simp only [worker_step] at hstep
    split at hstep
    · split at hstep
      · cases hstep
      · simp only [Option.some.injEq] at hstep
        subst hstep
        simp
    · cases hstep
  | release =>
    simp only [worker_step] at hstep
    split at hstep
    · rename_i hlt
      simp only [Option.some.injEq] at hstep
      subst hstep
      simp [hlt]
    · cases hstep

/-- Every step keeps the invariant of admission control. A step either is the
release of a worker, which posts exactly one token, or it releases no worker
and posts nothing. -/
theorem server_step_invariant {Bitmap : Type} (codec : Codec Bitmap) (file : List Char)
    (n : Nat) (s s' : Server) (event : ServerEvent)
    (hstep : server_step codec file s event = some s')
    (h : AdmissionInvariant n s) :
    AdmissionInvariant n s' ∧
    ((event = .worker .release ∧ s'.workers.released = s.workers.released + 1 ∧
        s'.semaphore = s.semaphore + 1) ∨
      (event ≠ .worker .release ∧ s'.workers.released = s.workers.released ∧
        s'.semaphore ≤ s.semaphore)) := by
  obtain ⟨hm, h1, h2, h3, h4, h5⟩ := h
  cases event with
  | acquire =>
    simp only [server_step, hm, if_true] at hstep
    split at hstep
    · rename_i hd
      split at hstep
      · cases hstep
      · rename_i hsem
        simp only [Option.some.injEq] at hstep
        subst hstep
        simp only [hd, if_true] at h3
        have h4' : s.accepted = s.spawned := by simpa [hd] using h4
        refine ⟨⟨rfl, h1, h2, ?_, ?_, h5⟩, Or.inr ⟨by simp, rfl, ?_⟩⟩
        · show s.semaphore - 1 + (if DispatcherAt.beforeAccept = .loopTop then 0 else 1)
            + s.spawned = n + s.workers.released
          simp only [reduceCtorEq, if_false]
          omega
        · show s.accepted = s.spawned + (if DispatcherAt.beforeAccept = .beforeSpawn ∨
            DispatcherAt.beforeAccept = .exited then 1 else 0)
          simp only [reduceCtorEq, or_self, if_false]
          omega
        · show s.semaphore - 1 ≤ s.semaphore
          omega
    · cases hstep
  | accept ok =>
    simp only [server_step] at hstep
    split at hstep
    · rename_i hd
      have h3' : s.semaphore + 1 + s.spawned = n + s.workers.released := by
        simpa [hd] using h3
      have h4' : s.accepted = s.spawned := by simpa [hd] using h4
      cases ok
      · simp only [Bool.false_eq_true, if_false, Option.some.injEq] at hstep
        subst hstep
        refine ⟨⟨hm, h1, h2, ?_, ?_, h5⟩, Or.inr ⟨by simp, rfl, le_refl _⟩⟩
        · show s.semaphore + (if DispatcherAt.exited = .loopTop then 0 else 1)
            + s.spawned = n + s.workers.released
          simp only [reduceCtorEq, if_false]
          exact h3'
        · show s.accepted + 1 = s.spawned + (if DispatcherAt.exited = .beforeSpawn ∨
            DispatcherAt.exited = .exited then 1 else 0)
          simp only [or_true, if_true]
          omega
      · simp only [if_true, Option.some.injEq] at hstep
        subst hstep
        refine ⟨⟨hm, h1, h2, ?_, ?_, h5⟩, Or.inr ⟨by simp, rfl, le_refl _⟩⟩
        · show s.semaphore + (if DispatcherAt.beforeSpawn = .loopTop then 0 else 1)
            + s.spawned = n + s.workers.released
          simp only [reduceCtorEq, if_false]
          exact h3'
        · show s.accepted + 1 = s.spawned + (if DispatcherAt.beforeSpawn = .beforeSpawn ∨
            DispatcherAt.beforeSpawn = .exited then 1 else 0)
          simp only [true_or, if_true]
          omega
    · cases hstep
  | spawn =>
    simp only [server_step] at hstep
    split at hstep
    · rename_i hd
      have h3' : s.semaphore + 1 + s.spawned = n + s.workers.released := by
        simpa [hd] using h3
      have h4' : s.accepted = s.spawned + 1 := by simpa [hd] using h4
      simp only [Option.some.injEq] at hstep
      subst hstep
      refine ⟨⟨hm, h1, Nat.le_succ_of_le h2, ?_, ?_, ?_⟩, Or.inr ⟨by simp, rfl, le_refl _⟩⟩
      · show s.semaphore + (if DispatcherAt.loopTop = .loopTop then 0 else 1)
          + (s.spawned + 1) = n + s.workers.released
        simp only [if_true]
        omega
      · show s.accepted = s.spawned + 1 + (if DispatcherAt.loopTop = .beforeSpawn ∨
          DispatcherAt.loopTop = .exited then 1 else 0)
        simp only [reduceCtorEq, or_self, if_false]
        omega
      · intro hz
        omega
    · cases hstep
  | worker wevent =>
    simp only [server_step] at hstep
    split at hstep
    · cases hstep
    · rename_i hd
      cases wevent with
      | enter =>
        simp only at hstep
        split at hstep
        · rename_i hlt
          cases hw : worker_step codec file s.workers .enter with
          | none => rw [hw] at hstep; cases hstep
          | some w =>
            rw [hw] at hstep
            simp only [Option.map_some', Option.some.injEq] at hstep
            subst hstep
            obtain ⟨hc, -, -⟩ := worker_step_counts codec file _ _ _ hw
            obtain ⟨he, hr⟩ := hc rfl
            refine ⟨⟨hm, ?_, ?_, ?_, h4, h5⟩, Or.inr ⟨by simp, hr, le_refl _⟩⟩
            · show w.released ≤ w.entered
              omega
            · show w.entered ≤ s.spawned
              omega
            · show s.semaphore + (if s.dispatcher = .loopTop then 0 else 1) + s.spawned
                = n + w.released
              rw [hr]
              exact h3
        · cases hstep
      | handle request =>
        simp only at hstep
        cases hw : worker_step codec file s.workers (.handle request) with
        | none => rw [hw] at hstep; cases hstep
        | some w =>
          rw [hw] at hstep
          simp only [Option.map_some', Option.some.injEq] at hstep
          subst hstep
          obtain ⟨-, hc, -⟩ := worker_step_counts codec file _ _ _ hw
          obtain ⟨he, hr⟩ := hc ⟨request, rfl⟩
          refine ⟨⟨hm, ?_, ?_, ?_, h4, h5⟩, Or.inr ⟨by simp, hr, le_refl _⟩⟩
          · show w.released ≤ w.entered
            omega
          · show w.entered ≤ s.spawned
            omega
          · show s.semaphore + (if s.dispatcher = .loopTop then 0 else 1) + s.spawned
              = n + w.released
            rw [hr]
            exact h3
      | release =>
        simp only at hstep
        cases hw : worker_step codec file s.workers .release with
        | none => rw [hw] at hstep; cases hstep
        | some w =>
          rw [hw] at hstep
          simp only [Option.map_some', Option.some.injEq] at hstep
          subst hstep
          obtain ⟨-, -, hc⟩ := worker_step_counts codec file _ _ _ hw
          obtain ⟨hlt, he, hr⟩ := hc rfl
          have hsem : (end_client_thread s.maxGiven s.workers.stats s.semaphore).2
              = s.semaphore + 1 := by
            simp only [end_client_thread, hm, if_true]
          refine ⟨⟨hm, ?_, ?_, ?_, h4, h5⟩, Or.inl ⟨rfl, hr, hsem⟩⟩
          · show w.released ≤ w.entered
            omega
          · show w.entered ≤ s.spawned
            omega
          · show (end_client_thread s.maxGiven s.workers.stats s.semaphore).2
                + (if s.dispatcher = .loopTop then 0 else 1) + s.spawned
              = n + w.released
            rw [hsem, hr]
            omega

theorem server_run_invariant {Bitmap : Type} (codec : Codec Bitmap) (file : List Char)
    (n : Nat) (events : List ServerEvent) :
    ∀ (s s' : Server), server_run codec file events s = some s' →
      AdmissionInvariant n s → AdmissionInvariant n s' := by
  induction events with
  | nil =>
    intro s s' hrun h
    simp only [server_run, Option.some.injEq] at hrun
    subst hrun
    exact h
  | cons event events ih =>
    intro s s' hrun h
    simp only [server_run] at hrun
    cases hstep : server_step codec file s event with
    | none => rw [hstep] at hrun; cases hrun
    | some s1 =>
      rw [hstep] at hrun
      exact ih s1 s' hrun (server_step_invariant codec file n s s1 event hstep h).1

/-- A worker that runs to its end posts the semaphore exactly once when a limit
was given, and leaves it alone otherwise. -/
theorem client_thread_semaphore {Bitmap : Type} (codec : Codec Bitmap) (file : List Char)
    (maxGiven : Bool) (reads : List (Option HttpRequest)) (stats : Statistics)
    (semaphore : Nat) (e : Effect Nat)
    (h : client_thread codec file maxGiven reads stats semaphore = .ok e) :
    e.result = if maxGiven then semaphore + 1 else semaphore := by
  unfold client_thread at h
  split at h
  · cases h
  · cases h
    rfl

/-! ## Lemmas on buffers -/

theorem strlen_nul_terminated (file : List Char) (hnul : ∀ c ∈ file, c.toNat ≠ 0) :
    strlen (file ++ [Char.ofNat 0]) = file.length := by
  unfold strlen
  induction file with
  | nil => decide
  | cons c cs ih =>
    have hc : c.toNat ≠ 0 := hnul c (by simp)
    have ih' := ih (fun d hd => hnul d (by simp [hd]))
    simp only [List.cons_append, List.takeWhile_cons, hc, ne_eq, not_false_eq_true,
      decide_True, if_true, List.length_cons, ih']

/-! ## Lemmas on the command line of the client -/

theorem client_option_names :
    Client.INPUT ≠ [] ∧ Client.OUTPUT ≠ [] ∧ Client.ROTATE ≠ [] ∧ Client.FLIP ≠ [] ∧
    Client.SCALE ≠ [] ∧
    Client.OUTPUT ≠ Client.INPUT ∧ Client.ROTATE ≠ Client.INPUT ∧ Client.FLIP ≠ Client.INPUT ∧
    Client.SCALE ≠ Client.INPUT ∧ Client.ROTATE ≠ Client.OUTPUT ∧
    Client.FLIP ≠ Client.OUTPUT ∧ Client.SCALE ≠ Client.OUTPUT ∧
    Client.FLIP ≠ Client.ROTATE ∧ Client.SCALE ≠ Client.ROTATE ∧
    Client.SCALE ≠ Client.FLIP := by decide

theorem client_input_check_nil (params : Client.CommandParameters) :
    Client.input_check params [] = .error Client.command_line_error := by
  cases h : params.inputFile <;>
    simp [Client.input_check, Client.check_boolean, Client.check_out_of_bounds, h, bind,
      Except.bind]

theorem client_input_check_cons (params : Client.CommandParameters) (value : List Char)
    (rest : List (List Char)) :
    Client.input_check params (value :: rest) =
      if params.inputFile = true ∨ value = [] then .error Client.command_line_error
      else .ok { params with inputName := some value, inputFile := true } := by
  cases h : params.inputFile <;> by_cases hv : value = [] <;>
    simp [Client.input_check, Client.check_boolean, Client.check_out_of_bounds,
      Client.set_string, h, hv, bind, Except.bind, pure, Except.pure]

theorem client_output_check_nil (params : Client.CommandParameters) :
    Client.output_check params [] = .error Client.command_line_error := by
  cases h : params.outputFile <;>
    simp [Client.output_check, Client.check_boolean, Client.check_out_of_bounds, h, bind,
      Except.bind]

theorem client_output_check_cons (params : Client.CommandParameters) (value : List Char)
    (rest : List (List Char)) :
    Client.output_check params (value :: rest) =
      if params.outputFile = true ∨ value = [] then .error Client.command_line_error
      else .ok { params with outputName := some value, outputFile := true } := by
  cases h : params.outputFile <;> by_cases hv : value = [] <;>
    simp [Client.output_check, Client.check_boolean, Client.check_out_of_bounds,
      Client.set_string, h, hv, bind, Except.bind, pure, Except.pure]

/-- The client's `convert_to_int` ends in the usage error or returns what
`strtol` read, which is then within the bounds and was the whole string. -/
theorem client_convert_to_int (s : List Char) (lo hi : Int) :
    Client.convert_to_int (some s) lo hi =
      if (strtol s).2 = [] ∧ lo ≤ (strtol s).1 ∧ (strtol s).1 ≤ hi then .ok (strtol s).1
      else .error Client.command_line_error := by
  simp only [Client.convert_to_int]
  by_cases h : (strtol s).2 = [] ∧ lo ≤ (strtol s).1 ∧ (strtol s).1 ≤ hi
  · rw [if_pos h, if_neg]
    intro hc
    rcases hc with hc | hc | hc
    · exact hc h.1
    · omega
    · omega
  · rw [if_neg h, if_pos]
    by_contra hc
    apply h
    simp only [not_or, not_lt, ne_eq, not_not, gt_iff_lt] at hc
    exact hc

theorem client_rotate_check_nil (params : Client.CommandParameters) (operationGiven : Bool) :
    Client.rotate_check params [] operationGiven = .error Client.command_line_error := by
  cases operationGiven <;>
    simp [Client.rotate_check, Client.check_boolean, Client.check_out_of_bounds, bind,
      Except.bind]

theorem client_rotate_check_cons (params : Client.CommandParameters) (value : List Char)
    (rest : List (List Char)) (operationGiven : Bool) :
    Client.rotate_check params (value :: rest) operationGiven =
      if operationGiven = false ∧ value ≠ [] ∧ (strtol value).2 = [] ∧
          Client.MIN_ROTATE ≤ (strtol value).1 ∧ (strtol value).1 ≤ Client.MAX_ROTATE then
        .ok { params with angle := (strtol value).1, rotate := true }
      else .error Client.command_line_error := by
  cases operationGiven
  · by_cases hv : value = []
    · simp [Client.rotate_check, Client.check_boolean, Client.check_out_of_bounds,
        Client.check_empty_string, hv, bind, Except.bind]
    · by_cases hc : (strtol value).2 = [] ∧ Client.MIN_ROTATE ≤ (strtol value).1 ∧
          (strtol value).1 ≤ Client.MAX_ROTATE
      · simp [Client.rotate_check, Client.check_boolean, Client.check_out_of_bounds,
          Client.check_empty_string, client_convert_to_int, hv, hc, bind, Except.bind, pure,
          Except.pure]
      · have hc' : ¬ (value ≠ [] ∧ (strtol value).2 = [] ∧
            Client.MIN_ROTATE ≤ (strtol value).1 ∧ (strtol value).1 ≤ Client.MAX_ROTATE) :=
          fun h => hc h.2
        simp [Client.rotate_check, Client.check_boolean, Client.check_out_of_bounds,
          Client.check_empty_string, client_convert_to_int, hv, hc, hc', bind, Except.bind]
  · simp [Client.rotate_check, Client.check_boolean, bind, Except.bind]

theorem client_flip_check_nil (params : Client.CommandParameters) (operationGiven : Bool) :
    Client.flip_check params [] operationGiven = .error Client.command_line_error := by
  cases operationGiven <;>
    simp [Client.flip_check, Client.check_boolean, Client.check_out_of_bounds, bind,
      Except.bind]

theorem client_flip_check_cons (params : Client.CommandParameters) (value : List Char)
    (rest : List (List Char)) (operationGiven : Bool) :
    Client.flip_check params (value :: rest) operationGiven =
      if operationGiven = false ∧ value = Client.HORIZONTAL_FLIP then
        .ok { params with direction := 'h', flip := true }
      else if operationGiven = false ∧ value = Client.VERTICAL_FLIP then
        .ok { params with direction := 'v', flip := true }
      else .error Client.command_line_error := by
  have hne : Client.HORIZONTAL_FLIP ≠ [] ∧ Client.VERTICAL_FLIP ≠ [] ∧
      Client.VERTICAL_FLIP ≠ Client.HORIZONTAL_FLIP := by decide
  obtain ⟨n1, n2, n3⟩ := hne
  cases operationGiven
  · by_cases hh : value = Client.HORIZONTAL_FLIP
    · subst hh
      simp [Client.flip_check, Client.check_boolean, Client.check_out_of_bounds,
        Client.check_empty_string, Client.check_direction, n1, bind, Except.bind, pure,
        Except.pure]
    · by_cases hv : value = Client.VERTICAL_FLIP
      · subst hv
        simp [Client.flip_check, Client.check_boolean, Client.check_out_of_bounds,
          Client.check_empty_string, Client.check_direction, n2, n3, bind, Except.bind, pure,
          Except.pure]
      · by_cases he : value = []
        · simp [Client.flip_check, Client.check_boolean, Client.check_out_of_bounds,
            Client.check_empty_string, he, bind, Except.bind, n1.symm, n2.symm]
        · simp [Client.flip_check, Client.check_boolean, Client.check_out_of_bounds,
            Client.check_empty_string, Client.check_direction, he, hh, hv, bind, Except.bind]
  · simp [Client.flip_check, Client.check_boolean, bind, Except.bind]

theorem client_scale_check_short (params : Client.CommandParameters) (rest : List (List Char))
    (operationGiven : Bool) (h : rest.length ≤ 1) :
    Client.scale_check params rest operationGiven = .error Client.command_line_error := by
  cases operationGiven <;>
    simp [Client.scale_check, Client.check_boolean, Client.check_out_of_bounds, h, bind,
      Except.bind]

theorem client_scale_check_cons (params : Client.CommandParameters) (w h : List Char)
    (rest : List (List Char)) (operationGiven : Bool) :
    Client.scale_check params (w :: h :: rest) operationGiven =
      if operationGiven = false ∧ w ≠ [] ∧ h ≠ [] ∧
          ((strtol w).2 = [] ∧ Client.MIN_SCALE ≤ (strtol w).1 ∧
            (strtol w).1 ≤ Client.MAX_SCALE) ∧
          ((strtol h).2 = [] ∧ Client.MIN_SCALE ≤ (strtol h).1 ∧
            (strtol h).1 ≤ Client.MAX_SCALE) then
        .ok { params with widthScale := (strtol w).1, heightScale := (strtol h).1, scale := true }
      else .error Client.command_line_error := by
  cases operationGiven
  · by_cases hw : w = []
    · simp [Client.scale_check, Client.check_boolean, Client.check_out_of_bounds,
        Client.check_empty_string, hw, bind, Except.bind]
    · by_cases hh : h = []
      · simp [Client.scale_check, Client.check_boolean, Client.check_out_of_bounds,
          Client.check_empty_string, hw, hh, bind, Except.bind]
      · by_cases cw : (strtol w).2 = [] ∧ Client.MIN_SCALE ≤ (strtol w).1 ∧
            (strtol w).1 ≤ Client.MAX_SCALE
        · by_cases ch : (strtol h).2 = [] ∧ Client.MIN_SCALE ≤ (strtol h).1 ∧
              (strtol h).1 ≤ Client.MAX_SCALE
          · simp [Client.scale_check, Client.check_boolean, Client.check_out_of_bounds,
              Client.check_empty_string, client_convert_to_int, hw, hh, cw, ch, bind,
              Except.bind, pure, Except.pure]
          · have ch' := ch
            simp only [not_and] at ch'
            simp [Client.scale_check, Client.check_boolean, Client.check_out_of_bounds,
              Client.check_empty_string, client_convert_to_int, hw, hh, cw, ch, bind,
              Except.bind]
        · simp [Client.scale_check, Client.check_boolean, Client.check_out_of_bounds,
            Client.check_empty_string, client_convert_to_int, hw, hh, cw, bind,
            Except.bind]
  · simp [Client.scale_check, Client.check_boolean, bind, Except.bind]
theorem client_loop_skip (arg : List Char) (rest : List (List Char)) (skip : Nat)
    (operationGiven : Bool) (params : Client.CommandParameters) :
    Client.command_line_arguments_loop (arg :: rest) (skip + 1) operationGiven params =
      Client.command_line_arguments_loop rest skip operationGiven params := rfl

theorem client_loop_body (arg : List Char) (rest : List (List Char))
    (operationGiven : Bool) (params : Client.CommandParameters) :
    Client.command_line_arguments_loop (arg :: rest) 0 operationGiven params =
      match Client.command_line_arguments_body arg rest operationGiven params with
      | .error e => .error e
      | .ok (skip, operationGiven', params') =>
        Client.command_line_arguments_loop rest skip operationGiven' params' := rfl

theorem client_isTransformation_names :
    Client.isTransformation Client.INPUT = false ∧
    Client.isTransformation Client.OUTPUT = false ∧
    Client.isTransformation Client.ROTATE = true ∧
    Client.isTransformation Client.FLIP = true ∧
    Client.isTransformation Client.SCALE = true ∧
    Client.INPUT ≠ "--scale".toList ∧ Client.OUTPUT ≠ "--scale".toList ∧
    Client.ROTATE ≠ "--scale".toList ∧ Client.FLIP ≠ "--scale".toList ∧
    Client.SCALE = "--scale".toList := by decide

/-- One iteration of the loop of the client's `command_line_arguments` ends in
the usage error, or it keeps the record `Parsed`, steps over two values after
`--scale` and over one after any other option, and takes a transformation
option only when none was given before. -/
theorem client_body_spec (arg : List Char) (rest : List (List Char)) (operationGiven : Bool)
    (params : Client.CommandParameters) (hp : Client.Parsed params)
    (hog : operationGiven = (params.rotate || params.scale || params.flip)) :
    Client.command_line_arguments_body arg rest operationGiven params
        = .error Client.command_line_error ∨
    ∃ skip operationGiven' p,
      Client.command_line_arguments_body arg rest operationGiven params
        = .ok (skip, operationGiven', p) ∧
      Client.Parsed p ∧ operationGiven' = (p.rotate || p.scale || p.flip) ∧
      p.portNo = params.portNo ∧
      skip = (if arg = "--scale".toList then 2 else 1) ∧
      (if Client.isTransformation arg = true then operationGiven = false ∧ operationGiven' = true
        else operationGiven' = operationGiven) := by
  obtain ⟨n1, n2, n3, n4, n5, n6, n7, n8, n9, n10, n11, n12, n13, n14, n15⟩ :=
    client_option_names
  obtain ⟨t1, t2, t3, t4, t5, s1, s2, s3, s4, s5⟩ := client_isTransformation_names
  obtain ⟨p1, p2, p3, p4⟩ := hp
  unfold Client.command_line_arguments_body
  by_cases h0 : arg = []
  · left
    simp [h0]
  by_cases hI : arg = Client.INPUT
  · subst hI
    simp only [n1, if_false, if_true]
    cases rest with
    | nil => left; simp [client_input_check_nil]
    | cons v rest' =>
      by_cases hc : params.inputFile = true ∨ v = []
      · left
        simp only [client_input_check_cons, if_pos hc]
      · right
        simp only [client_input_check_cons, if_neg hc]
        exact ⟨_, _, _, rfl, ⟨p1, p2, p3, p4⟩, hog, rfl, (if_neg s1).symm, by simp [t1]⟩
  by_cases hO : arg = Client.OUTPUT
  · subst hO
    simp only [n2, n6, if_false, if_true]
    cases rest with
    | nil => left; simp [client_output_check_nil]
    | cons v rest' =>
      by_cases hc : params.outputFile = true ∨ v = []
      · left
        simp only [client_output_check_cons, if_pos hc]
      · right
        simp only [client_output_check_cons, if_neg hc]
        exact ⟨_, _, _, rfl, ⟨p1, p2, p3, p4⟩, hog, rfl, (if_neg s2).symm, by simp [t2]⟩
  by_cases hR : arg = Client.ROTATE
  · subst hR
    simp only [n3, n7, n10, if_false, if_true]
    cases rest with
    | nil => left; simp [client_rotate_check_nil]
    | cons v rest' =>
      by_cases hc : operationGiven = false ∧ v ≠ [] ∧ (strtol v).2 = [] ∧
          Client.MIN_ROTATE ≤ (strtol v).1 ∧ (strtol v).1 ≤ Client.MAX_ROTATE
      · right
        simp only [client_rotate_check_cons, if_pos hc]
        obtain ⟨hf, -, -, hlo, hhi⟩ := hc
        subst hf
        have hflags : params.rotate = false ∧ params.scale = false ∧ params.flip = false := by
          cases hr : params.rotate <;> cases hs : params.scale <;> cases hfl : params.flip <;>
            simp [hr, hs, hfl] at hog ⊢
        obtain ⟨f1, f2, f3⟩ := hflags
        refine ⟨_, _, _, rfl, ⟨?_, ?_, ?_, p4⟩, by simp, rfl, (if_neg s3).symm, by simp [t3]⟩
        · intro _
          exact ⟨f2, f3, hlo, hhi⟩
        · intro h
          exact absurd (f2.symm.trans h) (by decide)
        · intro h
          exact absurd (f3.symm.trans h) (by decide)
      · left
        simp only [client_rotate_check_cons, if_neg hc]
  by_cases hF : arg = Client.FLIP
  · subst hF
    simp only [n4, n8, n11, n13, if_false, if_true]
    cases rest with
    | nil => left; simp [client_flip_check_nil]
    | cons v rest' =>
      have hflags : operationGiven = false →
          params.rotate = false ∧ params.scale = false ∧ params.flip = false := by
        intro hf
        subst hf
        cases hr : params.rotate <;> cases hs : params.scale <;> cases hfl : params.flip <;>
          simp [hr, hs, hfl] at hog ⊢
      by_cases hh : operationGiven = false ∧ v = Client.HORIZONTAL_FLIP
      · right
        simp only [client_flip_check_cons, if_pos hh]
        obtain ⟨f1, f2, f3⟩ := hflags hh.1
        refine ⟨_, _, _, rfl, ⟨?_, ?_, ?_, Or.inr (Or.inl rfl)⟩, by simp, rfl, (if_neg s4).symm,
          by simp [t4, hh.1]⟩
        · intro h
          exact absurd (f1.symm.trans h) (by decide)
        · intro h
          exact absurd (f2.symm.trans h) (by decide)
        · intro _
          exact ⟨f1, f2, Or.inl rfl⟩
      · by_cases hv : operationGiven = false ∧ v = Client.VERTICAL_FLIP
        · right
          simp only [client_flip_check_cons, if_neg hh, if_pos hv]
          obtain ⟨f1, f2, f3⟩ := hflags hv.1
          refine ⟨_, _, _, rfl, ⟨?_, ?_, ?_, Or.inr (Or.inr rfl)⟩, by simp, rfl, (if_neg s4).symm,
            by simp [t4, hv.1]⟩
          · intro h
            exact absurd (f1.symm.trans h) (by decide)
          · intro h
            exact absurd (f2.symm.trans h) (by decide)
          · intro _
            exact ⟨f1, f2, Or.inr rfl⟩
        · left
          simp only [client_flip_check_cons, if_neg hh, if_neg hv]
  by_cases hS : arg = Client.SCALE
  · subst hS
    simp only [n5, n9, n12, n14, n15, if_false, if_true]
    cases rest with
    | nil => left; simp [client_scale_check_short]
    | cons w rest1 =>
      cases rest1 with
      | nil => left; simp [client_scale_check_short]
      | cons h rest' =>
        by_cases hc : operationGiven = false ∧ w ≠ [] ∧ h ≠ [] ∧
            ((strtol w).2 = [] ∧ Client.MIN_SCALE ≤ (strtol w).1 ∧
              (strtol w).1 ≤ Client.MAX_SCALE) ∧
            ((strtol h).2 = [] ∧ Client.MIN_SCALE ≤ (strtol h).1 ∧
              (strtol h).1 ≤ Client.MAX_SCALE)
        · right
          simp only [client_scale_check_cons, if_pos hc]
          obtain ⟨hf, -, -, ⟨-, w1, w2⟩, ⟨-, h1, h2⟩⟩ := hc
          subst hf
          have hflags : params.rotate = false ∧ params.scale = false ∧
              params.flip = false := by
            cases hr : params.rotate <;> cases hs : params.scale <;>
              cases hfl : params.flip <;> simp [hr, hs, hfl] at hog ⊢
          obtain ⟨f1, f2, f3⟩ := hflags
          refine ⟨_, _, _, rfl, ⟨?_, ?_, ?_, p4⟩, by simp, rfl, (if_pos s5).symm, by simp [t5]⟩
          · intro h
            exact absurd (f1.symm.trans h) (by decide)
          · intro _
            exact ⟨f1, f3, w1, w2, h1, h2⟩
          · intro h
            exact absurd (f3.symm.trans h) (by decide)
        · left
          simp only [client_scale_check_cons, if_neg hc]
  · left
    simp [h0, hI, hO, hR, hF, hS]

/-- The loop of the client's `command_line_arguments` ends in the usage error, or
it returns a record that is `Parsed`, with the port it was given, and then at
most one transformation option stood in option position. -/
theorem client_loop_spec (args : List (List Char)) :
    ∀ (skip : Nat) (operationGiven : Bool) (params : Client.CommandParameters),
      Client.Parsed params →
      operationGiven = (params.rotate || params.scale || params.flip) →
      Client.command_line_arguments_loop args skip operationGiven params
          = .error Client.command_line_error ∨
      ∃ p, Client.command_line_arguments_loop args skip operationGiven params = .ok p ∧
        Client.Parsed p ∧ p.portNo = params.portNo ∧
        (Client.optionArguments skip args).countP Client.isTransformation
          + (if operationGiven = true then 1 else 0) ≤ 1 := by
  induction args with
  | nil =>
    intro skip operationGiven params hp hog
    right
    refine ⟨params, by cases skip <;> rfl, hp, rfl, ?_⟩
    cases operationGiven <;> cases skip <;> simp [Client.optionArguments]
  | cons arg rest ih =>
    intro skip operationGiven params hp hog
    cases skip with
    | succ k =>
      rw [client_loop_skip]
      rcases ih k operationGiven params hp hog with h | ⟨p, h, hpp, hport, hcount⟩
      · exact Or.inl h
      · exact Or.inr ⟨p, h, hpp, hport, by simpa [Client.optionArguments] using hcount⟩
    | zero =>
      rw [client_loop_body]
      rcases client_body_spec arg rest operationGiven params hp hog with
        h | ⟨skip, og', p', h, hpp, hog', hport, hskip, htrans⟩
      · left
        rw [h]
      · rw [h]
        simp only
        rcases ih skip og' p' hpp hog' with h2 | ⟨p, h2, hpp2, hport2, hcount⟩
        · exact Or.inl h2
        · refine Or.inr ⟨p, h2, hpp2, hport2.trans hport, ?_⟩
          subst hskip
          simp only [Client.optionArguments, List.countP_cons]
          by_cases ht : Client.isTransformation arg = true
          · rw [if_pos ht] at htrans
            obtain ⟨hf, ht'⟩ := htrans
            subst hf ht'
            simp only [ht, if_true] at hcount ⊢
            simpa using hcount
          · rw [if_neg ht] at htrans
            subst htrans
            simp only [ht, if_false] at hcount ⊢
            simpa using hcount

/-! ## Lemmas on the request the client builds -/

theorem sprintf_d_ne_nul (x : Int) : ∀ c ∈ Client.sprintf_d x, c.toNat ≠ 0 := by
  intro c hc
  unfold Client.sprintf_d at hc
  split at hc
  · rcases List.mem_cons.1 hc with h | h
    · subst h
      decide
    · exact toDigits_ne_nul _ c h
  · exact toDigits_ne_nul _ c hc

theorem requestTarget_ne_nul (p : Client.CommandParameters) (hp : Client.Parsed p) :
    ∀ c ∈ Client.requestTarget p, c.toNat ≠ 0 := by
  intro c hc
  unfold Client.requestTarget at hc
  have lit : ∀ c ∈ "/rotate,".toList ++ "/scale,".toList ++ "/flip,".toList ++ ",".toList
      ++ "/rotate,0".toList ++ " hv".toList, c.toNat ≠ 0 := by decide
  split at hc
  · rcases List.mem_append.1 hc with h | h
    · exact lit c (by simp only [List.mem_append]; tauto)
    · exact sprintf_d_ne_nul _ c h
  · split at hc
    · simp only [List.mem_append] at hc
      rcases hc with ((h | h) | h) | h
      · exact lit c (by simp only [List.mem_append]; tauto)
      · exact sprintf_d_ne_nul _ c h
      · exact lit c (by simp only [List.mem_append]; tauto)
      · exact sprintf_d_ne_nul _ c h
    · split at hc
      · rcases List.mem_append.1 hc with h | h
        · exact lit c (by simp only [List.mem_append]; tauto)
        · have hd := hp.2.2.2
          simp only [List.mem_singleton] at h
          subst h
          rcases hd with h | h | h <;> rw [h] <;> decide
      · exact lit c (by simp only [List.mem_append]; tauto)

theorem to_int_of_lt (x : Int) (h0 : 0 ≤ x) (h1 : x < 2147483648) : Client.to_int x = x := by
  unfold Client.to_int
  omega

theorem strcat_of_ne_nul (dst src : List Char) (hd : ∀ c ∈ dst, c.toNat ≠ 0)
    (hs : ∀ c ∈ src, c.toNat ≠ 0) : Client.strcat dst src = dst ++ src := by
  unfold Client.strcat
  rw [strlen_eq_length dst hd, strlen_eq_length src hs, List.take_length, List.take_length]

/-- The request line the client builds, as the spec words it. -/
theorem construct_http_request_type_eq (p : Client.CommandParameters) (hp : Client.Parsed p)
    (textSize : Int) :
    Client.construct_http_request_type p [] textSize =
      ("POST ".toList ++ Client.requestTarget p ++ " HTTP/1.1\r\n".toList,
        Client.to_int (textSize +
          (("POST ".toList ++ Client.requestTarget p ++ " HTTP/1.1\r\n".toList).length + 1))) := by
  have hline : (if p.rotate = true then
        "POST /rotate,".toList ++ Client.sprintf_d p.angle ++ " HTTP/1.1\r\n".toList
      else if p.scale = true then
        "POST /scale,".toList ++ Client.sprintf_d p.widthScale ++ ",".toList
          ++ Client.sprintf_d p.heightScale ++ " HTTP/1.1\r\n".toList
      else if p.flip = true then
        "POST /flip,".toList ++ [p.direction] ++ " HTTP/1.1\r\n".toList
      else "POST /rotate,".toList ++ Client.sprintf_d 0 ++ " HTTP/1.1\r\n".toList) =
      "POST ".toList ++ Client.requestTarget p ++ " HTTP/1.1\r\n".toList := by
    unfold Client.requestTarget
    have h0 : Client.sprintf_d 0 = "0".toList := by decide
    split
    · simp
    · split
      · simp
      · split
        · simp
        · rw [h0]
          rfl
  have hnul : ∀ c ∈ "POST ".toList ++ Client.requestTarget p ++ " HTTP/1.1\r\n".toList,
      c.toNat ≠ 0 := by
    intro c hc
    have lit : ∀ c ∈ "POST ".toList ++ " HTTP/1.1\r\n".toList, c.toNat ≠ 0 := by decide
    simp only [List.mem_append] at hc
    rcases hc with (h | h) | h
    · exact lit c (by simp only [List.mem_append]; tauto)
    · exact requestTarget_ne_nul p hp c h
    · exact lit c (by simp only [List.mem_append]; tauto)
  unfold Client.construct_http_request_type
  simp only [hline]
  rw [strcat_of_ne_nul [] _ (by simp) hnul]
  simp

/-- The request the client builds for a record the command line allows and an
image of fewer than `2 ^ 31` bytes in all: the bytes the spec words, and their
number as the size. -/
theorem construct_http_request_eq (p : Client.CommandParameters) (hp : Client.Parsed p)
    (B : List Char)
    (hfit : (Client.requestBytes (Client.requestTarget p) B).length < 2147483648) :
    Client.construct_http_request p ⟨B, B.length⟩ 0 =
      (Client.requestBytes (Client.requestTarget p) B,
        ((Client.requestBytes (Client.requestTarget p) B).length : Int)) := by
  have hlen : B.length % 18446744073709551616 = B.length := by
    apply Nat.mod_eq_of_lt
    simp only [Client.requestBytes, List.length_append] at hfit
    omega
  have hnul1 : ∀ c ∈ "POST ".toList ++ Client.requestTarget p ++ " HTTP/1.1\r\n".toList,
      c.toNat ≠ 0 := by
    intro c hc
    have lit : ∀ c ∈ "POST ".toList ++ " HTTP/1.1\r\n".toList, c.toNat ≠ 0 := by decide
    simp only [List.mem_append] at hc
    rcases hc with (h | h) | h
    · exact lit c (by simp only [List.mem_append]; tauto)
    · exact requestTarget_ne_nul p hp c h
    · exact lit c (by simp only [List.mem_append]; tauto)
  have hnul2 : ∀ c ∈ "Content-Length: ".toList ++ Nat.toDigits 10 B.length ++ "\r\n".toList,
      c.toNat ≠ 0 := by
    intro c hc
    have lit : ∀ c ∈ "Content-Length: ".toList ++ "\r\n".toList, c.toNat ≠ 0 := by decide
    simp only [List.mem_append] at hc
    rcases hc with (h | h) | h
    · exact lit c (by simp only [List.mem_append]; tauto)
    · exact toDigits_ne_nul _ c h
    · exact lit c (by simp only [List.mem_append]; tauto)
  have hnul3 : ∀ c ∈ "\r\n".toList, c.toNat ≠ 0 := by decide
  have hnul12 : ∀ c ∈ ("POST ".toList ++ Client.requestTarget p ++ " HTTP/1.1\r\n".toList)
      ++ ("Content-Length: ".toList ++ Nat.toDigits 10 B.length ++ "\r\n".toList),
      c.toNat ≠ 0 := by
    intro c hc
    rcases List.mem_append.1 hc with h | h
    · exact hnul1 c h
    · exact hnul2 c h
  have hnul123 : ∀ c ∈ (("POST ".toList ++ Client.requestTarget p ++ " HTTP/1.1\r\n".toList)
      ++ ("Content-Length: ".toList ++ Nat.toDigits 10 B.length ++ "\r\n".toList))
      ++ "\r\n".toList, c.toNat ≠ 0 := by
    intro c hc
    rcases List.mem_append.1 hc with h | h
    · exact hnul12 c h
    · exact hnul3 c h
  unfold Client.construct_http_request
  simp only [construct_http_request_type_eq p hp, Client.construct_http_headers,
    Client.construct_http_body, Client.sprintf_lu, hlen]
  rw [strcat_of_ne_nul _ _ hnul1 hnul2, strcat_of_ne_nul _ _ hnul12 hnul3,
    strlen_eq_length _ hnul123, List.take_length, List.take_length]
  have hbytes : (("POST ".toList ++ Client.requestTarget p ++ " HTTP/1.1\r\n".toList)
      ++ ("Content-Length: ".toList ++ Nat.toDigits 10 B.length ++ "\r\n".toList))
      ++ "\r\n".toList ++ B = Client.requestBytes (Client.requestTarget p) B := by
    simp [Client.requestBytes]
  rw [hbytes, Prod.mk.injEq]
  refine ⟨rfl, ?_⟩
  have hl : (Client.requestBytes (Client.requestTarget p) B).length =
      ("POST ".toList ++ Client.requestTarget p ++ " HTTP/1.1\r\n".toList).length
      + ("Content-Length: ".toList ++ Nat.toDigits 10 B.length ++ "\r\n".toList).length
      + 2 + B.length := by
    simp [Client.requestBytes]
    omega
  rw [hl] at hfit ⊢
  generalize ("POST ".toList ++ Client.requestTarget p ++ " HTTP/1.1\r\n".toList).length
    = a at hfit ⊢
  generalize ("Content-Length: ".toList ++ Nat.toDigits 10 B.length ++ "\r\n".toList).length
    = b at hfit ⊢
  rw [to_int_of_lt (0 + ((a : Int) + 1)) (by omega) (by omega)]
  rw [to_int_of_lt (0 + ((a : Int) + 1) + ((b : Int) + 1)) (by omega) (by omega)]
  rw [to_int_of_lt _ (by omega) (by omega)]
  push_cast
  omega

/-- The client's `command_line_arguments` on a command line that holds at least
the program name ends in the usage error, or it returns a record that is
`Parsed`, whose port is `argv[1]`, and then at most one transformation option
stood in option position after the port. -/
theorem client_parse_spec (argv : List (List Char)) (hne : argv ≠ []) :
    Client.command_line_arguments argv = .error Client.command_line_error ∨
    ∃ p, Client.command_line_arguments argv = .ok p ∧ Client.Parsed p ∧
      argv[1]? = some p.portNo ∧
      (Client.optionArguments 0 (argv.drop 2)).countP Client.isTransformation ≤ 1 := by
  cases argv with
  | nil => exact absurd rfl hne
  | cons prog rest =>
    cases rest with
    | nil => exact Or.inl rfl
    | cons port rest =>
      unfold Client.command_line_arguments
      simp only
      by_cases hport : port = Client.INPUT ∨ port = Client.OUTPUT ∨ port = Client.ROTATE ∨
          port = Client.FLIP ∨ port = Client.SCALE ∨ port = []
      · left
        simp only [Client.cmd_line_check_port, if_pos hport]
      · simp only [Client.cmd_line_check_port, if_neg hport]
        have hinit : Client.Parsed
            ⟨port, false, none, false, 0, false, 0, 0, false, ' ', false, none⟩ :=
          ⟨fun h => Bool.noConfusion h, fun h => Bool.noConfusion h,
            fun h => Bool.noConfusion h, Or.inl rfl⟩
        rcases client_loop_spec rest 0 false _ hinit rfl with h | ⟨p, h, hp, hpn, hcount⟩
        · exact Or.inl h
        · refine Or.inr ⟨p, h, hp, ?_, ?_⟩
          · simp only [List.getElem?_cons_succ, List.getElem?_cons_zero]
            rw [hpn]
          · simpa using hcount

/-! ## Lemmas on the agreement of client and server -/

theorem digitChar_value : ∀ m, m < 10 → (Nat.digitChar m).toNat - 48 = m := by decide

theorem foldl_toDigitsCore (fuel : Nat) : ∀ (n : Nat) (ds : List Char), n < fuel →
    List.foldl (fun acc c => 10 * acc + (c.toNat - 48)) 0 (Nat.toDigitsCore 10 fuel n ds) =
      List.foldl (fun acc (c : Char) => 10 * acc + (c.toNat - 48)) n ds := by
  induction fuel with
  | zero => intro n ds h; omega
  | succ fuel ih =>
    intro n ds h
    have hd : (Nat.digitChar (n % 10)).toNat - 48 = n % 10 :=
      digitChar_value _ (Nat.mod_lt _ (by decide))
    unfold Nat.toDigitsCore
    by_cases h0 : n / 10 = 0
    · have hn : n % 10 = n := by omega
      rw [hn] at hd
      simp only [h0, if_true, List.foldl_cons, hn, hd]
      simp
    · have hlt : n / 10 < fuel := by omega
      simp only [h0, if_false]
      rw [ih (n / 10) _ hlt]
      simp only [List.foldl_cons, hd]
      have : 10 * (n / 10) + n % 10 = n := by omega
      rw [this]

/-- Reading back the decimal text of a number gives the number. -/
theorem digitsValue_toDigits (n : Nat) : digitsValue (Nat.toDigits 10 n) = n := by
  unfold digitsValue Nat.toDigits
  rw [foldl_toDigitsCore (n + 1) n [] (by omega)]
  rfl

theorem toDigits_ne_nil (n : Nat) : Nat.toDigits 10 n ≠ [] := by
  unfold Nat.toDigits Nat.toDigitsCore
  by_cases h0 : n / 10 = 0
  · simp [h0]
  · simp only [h0, if_false]
    intro h
    have hlen := congrArg List.length h
    have := Nat.toDigitsCore_length 10 (by decide) n (n / 10) 0
    have hmem : Nat.digitChar (n % 10) ∈
        Nat.toDigitsCore 10 n (n / 10) [Nat.digitChar (n % 10)] := by
      have key : ∀ (fuel m : Nat) (ds : List Char) (c : Char), c ∈ ds →
          c ∈ Nat.toDigitsCore 10 fuel m ds := by
        intro fuel
        induction fuel with
        | zero => intro m ds c hc; simpa [Nat.toDigitsCore] using hc
        | succ fuel ih =>
          intro m ds c hc
          unfold Nat.toDigitsCore
          by_cases hm : m / 10 = 0
          · simp [hm, hc]
          · simp only [hm, if_false]
            exact ih _ _ c (List.mem_cons_of_mem _ hc)
      exact key _ _ _ _ (by simp)
    rw [h] at hmem
    cases hmem

theorem isDigits_toDigits (n : Nat) : isDigits (Nat.toDigits 10 n) = true :=
  (isDigits_iff _).2 ⟨toDigits_ne_nil n, toDigits_isdigit n⟩

/-- The text `%d` prints is a decimal integer, and it denotes the number that
was printed. -/
theorem sprintf_d_decimal (x : Int) :
    isDecimal (Client.sprintf_d x) = true ∧ decimalValue (Client.sprintf_d x) = x := by
  unfold Client.sprintf_d
  by_cases hx : x < 0
  · rw [if_pos hx]
    refine ⟨?_, ?_⟩
    · simp only [isDecimal, List.head?_cons, if_true, List.tail_cons]
      exact isDigits_toDigits _
    · simp only [decimalValue, List.head?_cons, if_true, List.tail_cons, digitsValue_toDigits]
      omega
  · rw [if_neg hx]
    have hhead : (Nat.toDigits 10 x.natAbs).head? ≠ some '-' := by
      intro h
      have hmem : '-' ∈ Nat.toDigits 10 x.natAbs := List.mem_of_mem_head? h
      have := toDigits_isdigit _ _ hmem
      revert this
      decide
    refine ⟨?_, ?_⟩
    · simp only [isDecimal, if_neg hhead]
      exact isDigits_toDigits _
    · simp only [decimalValue, if_neg hhead, digitsValue_toDigits]
      omega

theorem valid_operation_one_segment (method segment body : List Char) (len : Nat)
    (h : '/' ∉ segment) :
    valid_operation ⟨method, '/' :: segment, body, len⟩ = valid_operation_body segment := by
  simp only [valid_operation, split_by_char_cons_eq, split_by_char_of_not_mem segment '/' h,
    List.drop_succ_cons, List.drop_zero, valid_operation_loop]
  cases valid_operation_body segment <;> rfl

theorem get_operations_one_segment (method segment body : List Char) (len : Nat)
    (h : '/' ∉ segment) (o : Operation) (ho : get_operations_body segment = .ok o) :
    get_operations ⟨method, '/' :: segment, body, len⟩ = .ok [o, ⟨none, 0, 0, none⟩] := by
  simp only [get_operations, split_by_char_cons_eq, split_by_char_of_not_mem segment '/' h,
    List.drop_succ_cons, List.drop_zero, get_operations_loop, ho]

/-- The server on the segment `rotate,<a>` with the angle printed by `%d`. -/
theorem server_on_rotate (a : Int) (h0 : -359 ≤ a) (h1 : a ≤ 359) :
    '/' ∉ ROTATE ++ ',' :: Client.sprintf_d a ∧
    valid_operation_body (ROTATE ++ ',' :: Client.sprintf_d a) = true ∧
    get_operations_body (ROTATE ++ ',' :: Client.sprintf_d a) = .ok ⟨some ROTATE, a, 0, none⟩ := by
  obtain ⟨hd, hv⟩ := sprintf_d_decimal a
  obtain ⟨hc, hs⟩ := not_mem_of_isDecimal _ hd
  have hconv : convert_to_int (some (Client.sprintf_d a)) ROTATE_MIN ROTATE_MAX = .ok a := by
    have := convert_to_int_decimal (Client.sprintf_d a) ROTATE_MIN ROTATE_MAX hd
      (by decide) (by decide) (by rw [hv]; exact h0) (by rw [hv]; exact h1)
    rw [this, hv]
  have hsplit : split_by_char (ROTATE ++ ',' :: Client.sprintf_d a) ',' =
      [ROTATE, Client.sprintf_d a] := by
    rw [split_by_char_field_cons ROTATE _ ',' (by decide), split_by_char_of_not_mem _ ',' hc]
  refine ⟨?_, ?_, ?_⟩
  · intro hm
    rcases List.mem_append.1 hm with h | h
    · revert h
      decide
    · rcases List.mem_cons.1 h with h | h
      · revert h
        decide
      · exact hs h
  · rw [valid_operation_body_rotate _ hc, valid_operation_value_decimal _ _ _ hd (by decide)
      (by decide), hv]
    exact decide_eq_true ⟨h0, h1⟩
  · simp only [get_operations_body, hsplit, List.headD_cons, if_true,
      List.getElem?_cons_succ, List.getElem?_cons_zero, hconv]

/-- The server on the segment `scale,<w>,<h>` with both numbers printed by
`%d`. -/
theorem server_on_scale (w h : Int) (w0 : 1 ≤ w) (w1 : w ≤ 10000) (h0 : 1 ≤ h)
    (h1 : h ≤ 10000) :
    '/' ∉ SCALE ++ ',' :: Client.sprintf_d w ++ ',' :: Client.sprintf_d h ∧
    valid_operation_body (SCALE ++ ',' :: Client.sprintf_d w ++ ',' :: Client.sprintf_d h)
      = true ∧
    get_operations_body (SCALE ++ ',' :: Client.sprintf_d w ++ ',' :: Client.sprintf_d h)
      = .ok ⟨some SCALE, w, h, none⟩ := by
  obtain ⟨hdw, hvw⟩ := sprintf_d_decimal w
  obtain ⟨hcw, hsw⟩ := not_mem_of_isDecimal _ hdw
  obtain ⟨hdh, hvh⟩ := sprintf_d_decimal h
  obtain ⟨hch, hsh⟩ := not_mem_of_isDecimal _ hdh
  obtain ⟨-, -, -, -, d5, d6⟩ := names_distinct
  have hconvw : convert_to_int (some (Client.sprintf_d w)) SCALE_MIN SCALE_MAX = .ok w := by
    have := convert_to_int_decimal (Client.sprintf_d w) SCALE_MIN SCALE_MAX hdw
      (by decide) (by decide) (by rw [hvw]; exact w0) (by rw [hvw]; exact w1)
    rw [this, hvw]
  have hconvh : convert_to_int (some (Client.sprintf_d h)) SCALE_MIN SCALE_MAX = .ok h := by
    have := convert_to_int_decimal (Client.sprintf_d h) SCALE_MIN SCALE_MAX hdh
      (by decide) (by decide) (by rw [hvh]; exact h0) (by rw [hvh]; exact h1)
    rw [this, hvh]
  have hsplit : split_by_char
      (SCALE ++ ',' :: Client.sprintf_d w ++ ',' :: Client.sprintf_d h) ',' =
      [SCALE, Client.sprintf_d w, Client.sprintf_d h] := by
    rw [List.append_assoc, List.cons_append,
      split_by_char_field_cons SCALE _ ',' (by decide),
      split_by_char_field_cons _ _ ',' hcw, split_by_char_of_not_mem _ ',' hch]
  refine ⟨?_, ?_, ?_⟩
  · intro hm
    simp only [List.mem_append, List.mem_cons] at hm
    rcases hm with (hm | hm | hm) | hm | hm
    · revert hm
      decide
    · revert hm
      decide
    · exact hsw hm
    · revert hm
      decide
    · exact hsh hm
  · rw [valid_operation_body_scale _ _ hcw hch,
      valid_operation_value_decimal _ _ _ hdw (by decide) (by decide),
      valid_operation_value_decimal _ _ _ hdh (by decide) (by decide), hvw, hvh,
      decide_eq_true (show SCALE_MIN ≤ w ∧ w ≤ SCALE_MAX from ⟨w0, w1⟩),
      decide_eq_true (show SCALE_MIN ≤ h ∧ h ≤ SCALE_MAX from ⟨h0, h1⟩)]
    rfl
  · simp only [get_operations_body, hsplit, List.headD_cons, d5, d6, if_false, if_true,
      List.getElem?_cons_succ, List.getElem?_cons_zero, hconvw, hconvh]

theorem sprintf_d_no_space (x : Int) : ' ' ∉ Client.sprintf_d x := by
  have key : ∀ n, ' ' ∉ Nat.toDigits 10 n := by
    intro n hc
    have := toDigits_isdigit n _ hc
    revert this
    decide
  unfold Client.sprintf_d
  split
  · simp only [List.mem_cons, not_or]
    exact ⟨by decide, key _⟩
  · exact key _

/-- What the server makes of the target the client builds from a record the
command line allows: the target is a `/` and one segment, `valid_operation`
accepts it, and `get_operations` returns the one operation that was asked for,
followed by the terminating record. -/
theorem server_on_requestTarget (p : Client.CommandParameters) (hp : Client.Parsed p)
    (body : List Char) (len : Nat) :
    ' ' ∉ Client.requestTarget p ∧
    valid_operation ⟨POST, Client.requestTarget p, body, len⟩ = true ∧
    get_operations ⟨POST, Client.requestTarget p, body, len⟩ =
      .ok [if p.rotate = true then ⟨some ROTATE, p.angle, 0, none⟩
        else if p.scale = true then ⟨some SCALE, p.widthScale, p.heightScale, none⟩
        else if p.flip = true then ⟨some FLIP, 0, 0, some [p.direction]⟩
        else ⟨some ROTATE, 0, 0, none⟩, ⟨none, 0, 0, none⟩] := by
  obtain ⟨p1, p2, p3, p4⟩ := hp
  by_cases hr : p.rotate = true
  · obtain ⟨-, -, a0, a1⟩ := p1 hr
    obtain ⟨hs, hv, hg⟩ := server_on_rotate p.angle a0 a1
    have ht : Client.requestTarget p = '/' :: (ROTATE ++ ',' :: Client.sprintf_d p.angle) := by
      simp only [Client.requestTarget, hr, if_true]
      rfl
    rw [ht, if_pos hr]
    refine ⟨?_, ?_, get_operations_one_segment _ _ _ _ hs _ hg⟩
    · simp only [List.mem_cons, List.mem_append, not_or]
      exact ⟨by decide, by decide, by decide, sprintf_d_no_space _⟩
    · rw [valid_operation_one_segment _ _ _ _ hs, hv]
  · by_cases hsc : p.scale = true
    · obtain ⟨-, -, w0, w1, h0, h1⟩ := p2 hsc
      obtain ⟨hs, hv, hg⟩ := server_on_scale p.widthScale p.heightScale w0 w1 h0 h1
      have ht : Client.requestTarget p = '/' :: (SCALE ++ ',' :: Client.sprintf_d p.widthScale
          ++ ',' :: Client.sprintf_d p.heightScale) := by
        simp only [Client.requestTarget, hr, hsc, if_true, if_false]
        simp [SCALE]
      rw [ht, if_neg hr, if_pos hsc]
      refine ⟨?_, ?_, get_operations_one_segment _ _ _ _ hs _ hg⟩
      · simp only [List.mem_cons, List.mem_append, not_or]
        exact ⟨by decide, ⟨by decide, by decide, sprintf_d_no_space _⟩, by decide,
          sprintf_d_no_space _⟩
      · rw [valid_operation_one_segment _ _ _ _ hs, hv]
    · by_cases hf : p.flip = true
      · obtain ⟨-, -, hd⟩ := p3 hf
        have ht : Client.requestTarget p = '/' :: (FLIP ++ ',' :: [p.direction]) := by
          simp only [Client.requestTarget, hr, hsc, hf, if_true, if_false]
          rfl
        rw [ht, if_neg hr, if_neg hsc, if_pos hf]
        rcases hd with hd | hd <;> rw [hd] <;> exact ⟨by decide, rfl, rfl⟩
      · have ht : Client.requestTarget p = "/rotate,0".toList := by
          simp [Client.requestTarget, hr, hsc, hf]
        rw [ht, if_neg hr, if_neg hsc, if_neg hf]
        exact ⟨by decide, rfl, rfl⟩

theorem client_parsed_of_ok (argv : List (List Char)) (params : Client.CommandParameters)
    (h : Client.command_line_arguments argv = .ok params) : Client.Parsed params := by
  have hne : argv ≠ [] := by
    intro hn
    subst hn
    cases h
  rcases client_parse_spec argv hne with he | ⟨p, hp, hparsed, -, -⟩
  · rw [he] at h
    cases h
  · rw [hp] at h
    cases h
    exact hparsed

/-! ## Properties of the validator and of the plan builder -/

/-- C1: `check_initial_validity` decides in the order method, GET, operation
grammar, body size. A method that is neither `GET` nor `POST` gives 405
whatever the target and the body are; a `POST` whose target fails the grammar
gives 400 whatever the body length is; and a 413 is sent only for a `POST`
whose target passed the grammar. -/
theorem check_initial_validity_gate_order (r : HttpRequest) (file : List Char)
    (stats : Statistics) :
    (r.method ≠ GET → r.method ≠ POST →
      (check_initial_validity r file stats).result = false ∧
      (check_initial_validity r file stats).sent.map (fun x => x.status) = [405]) ∧
    (r.method = POST → valid_operation r = false →
      (check_initial_validity r file stats).result = false ∧
      (check_initial_validity r file stats).sent.map (fun x => x.status) = [400]) ∧
    ((∃ x ∈ (check_initial_validity r file stats).sent, x.status = 413) →
      r.method = POST ∧ valid_operation r = true) := by
  refine ⟨?_, ?_, ?_⟩
  · intro h1 h2
    rw [check_invalid_method r file stats h1 h2]
    exact ⟨rfl, rfl⟩
  · intro h1 h2
    rw [check_post r file stats h1, if_pos h2]
    exact ⟨rfl, rfl⟩
  · rintro ⟨x, hx, hs⟩
    by_cases hg : r.method = GET
    · rw [check_get r file stats hg] at hx
      split at hx
      · simp at hx; subst hx; simp [home_page_response, OK] at hs
      · simp at hx; subst hx; simp [invalid_get_response, NOT_FOUND] at hs
    · by_cases hp : r.method = POST
      · refine ⟨hp, ?_⟩
        rw [check_post r file stats hp] at hx
        cases hv : valid_operation r
        · simp [hv] at hx; subst hx; simp [invalid_operation_response, BAD_REQUEST] at hs
        · rfl
      · rw [check_invalid_method r file stats hg hp] at hx
        simp at hx; subst hx; simp [invalid_method_response, METHOD_NOT_ALLOWED] at hs

/-- A `PUT` with an invalid target and a 9 MiB body gets 405, a `POST` with an
invalid target and a 9 MiB body gets 400, and the 413 of a `POST` with a valid
target and a 9 MiB body comes with a target that passed the grammar. -/
theorem check_initial_validity_gate_order_witness :
    (check_initial_validity ⟨"PUT".toList, "/rotate,400".toList, [], 9437184⟩ []
        ⟨0, 0, 0, 0, 0⟩).sent.map (fun x => x.status) = [405] ∧
    (check_initial_validity ⟨POST, "/rotate,400".toList, [], 9437184⟩ []
        ⟨0, 0, 0, 0, 0⟩).sent.map (fun x => x.status) = [400] ∧
    valid_operation ⟨POST, "/rotate,0".toList, [], 9437184⟩ = true :=
  ⟨((check_initial_validity_gate_order ⟨"PUT".toList, "/rotate,400".toList, [], 9437184⟩ []
      ⟨0, 0, 0, 0, 0⟩).1 (by decide) (by decide)).2,
   ((check_initial_validity_gate_order ⟨POST, "/rotate,400".toList, [], 9437184⟩ []
      ⟨0, 0, 0, 0, 0⟩).2.1 rfl (by decide)).2,
   ((check_initial_validity_gate_order ⟨POST, "/rotate,0".toList, [], 9437184⟩ []
      ⟨0, 0, 0, 0, 0⟩).2.2 ⟨invalid_size_response ⟨POST, "/rotate,0".toList, [], 9437184⟩,
        by decide, by decide⟩).2⟩

/-- C2: a request whose method is not exactly `GET` and not exactly `POST` is
answered 405 Method Not Allowed with the body `Invalid method on request list\n`
and `unSuccess` is incremented, the other counters being untouched; a `GET` or
`POST` request is never answered 405. -/
theorem method_gate (r : HttpRequest) (file : List Char) (stats : Statistics) :
    (r.method ≠ GET → r.method ≠ POST →
      (check_initial_validity r file stats).result = false ∧
      (check_initial_validity r file stats).sent = [invalid_method_response] ∧
      (check_initial_validity r file stats).stats =
        { stats with unSuccess := (stats.unSuccess + 1) % 4294967296 }) ∧
    invalid_method_response.status = 405 ∧
    invalid_method_response.statusExplanation = "Method Not Allowed".toList ∧
    invalid_method_response.sentBody = "Invalid method on request list\n".toList ∧
    (r.method = GET ∨ r.method = POST →
      ∀ x ∈ (check_initial_validity r file stats).sent, x.status ≠ 405) := by
  refine ⟨?_, by decide, by decide, by decide, ?_⟩
  · intro h1 h2
    rw [check_invalid_method r file stats h1 h2]
    exact ⟨rfl, rfl, rfl⟩
  · rintro (hg | hp) x hx
    · rw [check_get r file stats hg] at hx
      split at hx
      · simp at hx; subst hx; simp [home_page_response, OK]
      · simp at hx; subst hx; simp [invalid_get_response, NOT_FOUND]
    · rw [check_post r file stats hp] at hx
      split at hx
      · simp at hx; subst hx; simp [invalid_operation_response, BAD_REQUEST]
      · split at hx
        · simp at hx; subst hx; simp [invalid_size_response, PAYLOAD_TOO_LARGE]
        · simp at hx

/-- The methods `PUT` and `get` (lower case) are answered 405, and a `GET` is
not. -/
theorem method_gate_witness :
    (check_initial_validity ⟨"PUT".toList, "/".toList, [], 0⟩ [] ⟨0, 0, 0, 7, 0⟩).sent
      = [invalid_method_response] ∧
    (check_initial_validity ⟨"PUT".toList, "/".toList, [], 0⟩ [] ⟨0, 0, 0, 7, 0⟩).stats
      = ⟨0, 0, 0, 8, 0⟩ ∧
    (check_initial_validity ⟨"get".toList, "/".toList, [], 0⟩ [] ⟨0, 0, 0, 7, 0⟩).sent
      = [invalid_method_response] ∧
    (∀ x ∈ (check_initial_validity ⟨"GET".toList, "/".toList, [], 0⟩ []
      ⟨0, 0, 0, 7, 0⟩).sent, x.status ≠ 405) :=
  ⟨((method_gate ⟨"PUT".toList, "/".toList, [], 0⟩ [] ⟨0, 0, 0, 7, 0⟩).1
      (by decide) (by decide)).2.1,
   ((method_gate ⟨"PUT".toList, "/".toList, [], 0⟩ [] ⟨0, 0, 0, 7, 0⟩).1
      (by decide) (by decide)).2.2,
   ((method_gate ⟨"get".toList, "/".toList, [], 0⟩ [] ⟨0, 0, 0, 7, 0⟩).1
      (by decide) (by decide)).2.1,
   (method_gate ⟨"GET".toList, "/".toList, [], 0⟩ [] ⟨0, 0, 0, 7, 0⟩).2.2.2.2 (Or.inl rfl)⟩

/-- C3: for a `GET` request, a target other than `/` is answered 404 Not Found
with the body `Invalid address in GET request\n`, and the target `/` is answered
200 OK with `Content-Type: text/html`. In both cases the validator returns
`false` (the worker goes on to the next request without building a plan or
touching the image), no 400 and no 413 is ever sent, the verdict does not
depend on the body or its length, and the `operations` counter is unchanged. -/
theorem get_branch (r : HttpRequest) (file : List Char) (stats : Statistics)
    (hg : r.method = GET) :
    (r.address ≠ ['/'] →
      (check_initial_validity r file stats).sent = [invalid_get_response] ∧
      (check_initial_validity r file stats).stats =
        { stats with unSuccess := (stats.unSuccess + 1) % 4294967296 }) ∧
    invalid_get_response.status = 404 ∧
    invalid_get_response.statusExplanation = "Not Found".toList ∧
    invalid_get_response.sentBody = "Invalid address in GET request\n".toList ∧
    (r.address = ['/'] →
      (check_initial_validity r file stats).sent = [home_page_response file] ∧
      (check_initial_validity r file stats).stats =
        { stats with success := (stats.success + 1) % 4294967296 }) ∧
    (home_page_response file).status = 200 ∧
    (home_page_response file).statusExplanation = "OK".toList ∧
    (home_page_response file).headers.head? =
      some ⟨"Content-Type".toList, "text/html".toList⟩ ∧
    (check_initial_validity r file stats).result = false ∧
    (∀ x ∈ (check_initial_validity r file stats).sent, x.status ≠ 400 ∧ x.status ≠ 413) ∧
    (check_initial_validity r file stats).stats.operations = stats.operations ∧
    (∀ (body : List Char) (len : Nat),
      (check_initial_validity { r with body := body, len := len } file stats).sent =
        (check_initial_validity r file stats).sent) := by
  have hmain := check_get r file stats hg
  refine ⟨?_, by decide, by decide, by decide, ?_, rfl, rfl, rfl, ?_, ?_, ?_, ?_⟩
  · intro ha
    rw [hmain, if_neg ha]
    exact ⟨rfl, rfl⟩
  · intro ha
    rw [hmain, if_pos ha]
    exact ⟨rfl, rfl⟩
  · rw [hmain]; split <;> rfl
  · intro x hx
    rw [hmain] at hx
    split at hx
    · simp at hx; subst hx; simp [home_page_response, OK]
    · simp at hx; subst hx; simp [invalid_get_response, NOT_FOUND]
  · rw [hmain]; split <;> rfl
  · intro body len
    rw [hmain, check_get { r with body := body, len := len } file stats hg]

/-- A `GET /rotate,400` with a 9 MiB body is answered 404 (not 400, not 413),
and a `GET /` with a 9 MiB body is answered with the home page. -/
theorem get_branch_witness :
    (check_initial_validity ⟨GET, "/rotate,400".toList, [], 9437184⟩ "<html>".toList
      ⟨1, 0, 0, 0, 0⟩).sent = [invalid_get_response] ∧
    (check_initial_validity ⟨GET, "/".toList, [], 9437184⟩ "<html>".toList
      ⟨1, 0, 0, 0, 0⟩).sent = [home_page_response "<html>".toList] :=
  ⟨((get_branch ⟨GET, "/rotate,400".toList, [], 9437184⟩ "<html>".toList ⟨1, 0, 0, 0, 0⟩
      rfl).1 (by decide)).1,
   ((get_branch ⟨GET, "/".toList, [], 9437184⟩ "<html>".toList ⟨1, 0, 0, 0, 0⟩
      rfl).2.2.2.2.1 rfl).1⟩

/-- C4: `valid_operation` accepts every well-formed target: for every `N ≥ 1`
and every target `/op1/.../opN` in which each `op` is `rotate,n` with `n` a
decimal integer in `[-359, 359]`, `flip,h`, `flip,v`, or `scale,w,h` with `w`
and `h` decimal integers in `[1, 10000]`, `valid_operation` returns `true`. -/
theorem valid_operation_accepts_well_formed (method body : List Char) (len : Nat)
    (op : List Char) (ops : List (List Char)) (h : ∀ s ∈ op :: ops, WellFormedOp s) :
    valid_operation ⟨method, joinTarget (op :: ops), body, len⟩ = true := by
  have hsplit : split_by_char (joinTarget (op :: ops)) '/' = [] :: op :: ops := by
    have := split_by_char_append_joinTarget [] (op :: ops) (by simp)
      (fun s hs => (wellFormedOp_accepted s (h s hs)).2)
    simpa using this
  unfold valid_operation
  simp only [hsplit, List.drop_one, List.tail_cons]
  rw [valid_operation_loop_eq_all, List.all_eq_true]
  intro s hs
  exact (wellFormedOp_accepted s (h s hs)).1

/-- The boundary values `rotate,-359`, `rotate,359`, `scale,1,1` and
`scale,10000,10000` are accepted. -/
theorem valid_operation_accepts_well_formed_witness :
    valid_operation ⟨POST,
      "/rotate,-359/rotate,359/scale,1,1/scale,10000,10000/flip,h/flip,v".toList, [], 0⟩ = true :=
  valid_operation_accepts_well_formed POST [] 0 "rotate,-359".toList
    ["rotate,359".toList, "scale,1,1".toList, "scale,10000,10000".toList, "flip,h".toList,
      "flip,v".toList]
    (by
      intro s hs
      simp only [List.mem_cons, List.mem_singleton, List.not_mem_nil, or_false] at hs
      rcases hs with rfl | rfl | rfl | rfl | rfl | rfl
      · exact Or.inl ⟨"-359".toList, by decide, by decide, by decide, rfl⟩
      · exact Or.inl ⟨"359".toList, by decide, by decide, by decide, rfl⟩
      · exact Or.inr (Or.inr (Or.inr ⟨"1".toList, "1".toList, by decide, by decide, by decide,
          by decide, by decide, by decide, rfl⟩))
      · exact Or.inr (Or.inr (Or.inr ⟨"10000".toList, "10000".toList, by decide, by decide,
          by decide, by decide, by decide, by decide, rfl⟩))
      · exact Or.inr (Or.inl rfl)
      · exact Or.inr (Or.inr (Or.inl rfl)))

/-- C5: a structurally malformed segment anywhere after the first `/` makes
`valid_operation` return `false`, whatever the other segments are, and a `POST`
with such a target is answered 400 Bad Request with the body
`Invalid image operation\n`. A segment is malformed when it is empty (a
trailing or doubled slash), or its first comma-field is none of `rotate`,
`flip`, `scale`, or it is a `rotate` or `flip` segment without exactly two
comma-fields, or a `scale` segment without exactly three, or a `flip` segment
whose second field is neither `h` nor `v`. -/
theorem valid_operation_rejects_malformed (r : HttpRequest) (segment : List Char)
    (hseg : segment ∈ (r.address.splitOn '/').tail) (hbad : Malformed segment) :
    valid_operation r = false ∧
    (r.method = POST → ∀ (file : List Char) (stats : Statistics),
      (check_initial_validity r file stats).result = false ∧
      (check_initial_validity r file stats).sent = [invalid_operation_response]) ∧
    invalid_operation_response.status = 400 ∧
    invalid_operation_response.statusExplanation = "Bad Request".toList ∧
    invalid_operation_response.sentBody = "Invalid image operation\n".toList := by
  have hv : valid_operation r = false :=
    valid_operation_false_of_segment r segment hseg
      (not_valid_operation_body_of_malformed segment hbad)
  exact ⟨hv, fun hp file stats => check_bad_request r file stats hp hv,
    invalid_operation_response_facts⟩

/-- A trailing slash, a doubled slash, an unknown name, a missing field, an
extra field and a wrong flip direction are each rejected after a valid first
segment. -/
theorem valid_operation_rejects_malformed_witness :
    valid_operation ⟨POST, "/rotate,90/".toList, [], 0⟩ = false ∧
    valid_operation ⟨POST, "/rotate,90//flip,h".toList, [], 0⟩ = false ∧
    valid_operation ⟨POST, "/rotate,90/blur,3".toList, [], 0⟩ = false ∧
    valid_operation ⟨POST, "/rotate,90/rotate".toList, [], 0⟩ = false ∧
    valid_operation ⟨POST, "/rotate,90/flip,h,v".toList, [], 0⟩ = false ∧
    valid_operation ⟨POST, "/rotate,90/scale,1".toList, [], 0⟩ = false ∧
    valid_operation ⟨POST, "/rotate,90/scale,1,2,3".toList, [], 0⟩ = false ∧
    valid_operation ⟨POST, "/rotate,90/flip,x".toList, [], 0⟩ = false :=
  ⟨(valid_operation_rejects_malformed ⟨POST, "/rotate,90/".toList, [], 0⟩ []
      (by decide) (Or.inl rfl)).1,
   (valid_operation_rejects_malformed ⟨POST, "/rotate,90//flip,h".toList, [], 0⟩ []
      (by decide) (Or.inl rfl)).1,
   (valid_operation_rejects_malformed ⟨POST, "/rotate,90/blur,3".toList, [], 0⟩
      "blur,3".toList (by decide) (Or.inr (Or.inl (by decide)))).1,
   (valid_operation_rejects_malformed ⟨POST, "/rotate,90/rotate".toList, [], 0⟩
      "rotate".toList (by decide) (Or.inr (Or.inr (Or.inl (by decide))))).1,
   (valid_operation_rejects_malformed ⟨POST, "/rotate,90/flip,h,v".toList, [], 0⟩
      "flip,h,v".toList (by decide) (Or.inr (Or.inr (Or.inl (by decide))))).1,
   (valid_operation_rejects_malformed ⟨POST, "/rotate,90/scale,1".toList, [], 0⟩
      "scale,1".toList (by decide) (Or.inr (Or.inr (Or.inr (Or.inl (by decide)))))).1,
   (valid_operation_rejects_malformed ⟨POST, "/rotate,90/scale,1,2,3".toList, [], 0⟩
      "scale,1,2,3".toList (by decide) (Or.inr (Or.inr (Or.inr (Or.inl (by decide)))))).1,
   (valid_operation_rejects_malformed ⟨POST, "/rotate,90/flip,x".toList, [], 0⟩
      "flip,x".toList (by decide) (Or.inr (Or.inr (Or.inr (Or.inr (by decide)))))).1⟩

/-- The empty rotate field: `strtol` converts nothing, leaves `endPtr` at the
terminating NUL of the empty string and returns `0`, so `/rotate,` passes
`valid_operation` and the plan holds a rotation by `0`. -/
theorem empty_rotate_field_accepted :
    valid_operation ⟨POST, "/rotate,".toList, [], 0⟩ = true ∧
    get_operations ⟨POST, "/rotate,".toList, [], 0⟩ =
      .ok [⟨some ROTATE, 0, 0, none⟩, ⟨none, 0, 0, none⟩] := by
  exact ⟨by decide, rfl⟩

/-- C8 fails on the code: a `POST` whose target has no `/` (`rotate,0`, or the
empty target) passes all four gates of `check_initial_validity`, and
`get_operations` returns only the terminating record, a plan of length 0. -/
theorem empty_plan_reaches_pipeline :
    (check_initial_validity ⟨POST, "rotate,0".toList, [], 0⟩ [] ⟨0, 0, 0, 0, 0⟩).result = true ∧
    get_operations ⟨POST, "rotate,0".toList, [], 0⟩ = .ok [⟨none, 0, 0, none⟩] ∧
    (plan [⟨none, 0, 0, none⟩]).length = 0 ∧
    (check_initial_validity ⟨POST, [], [], 0⟩ [] ⟨0, 0, 0, 0, 0⟩).result = true ∧
    get_operations ⟨POST, [], [], 0⟩ = .ok [⟨none, 0, 0, none⟩] := by
  exact ⟨by decide, rfl, rfl, by decide, rfl⟩

/-- C9: for a `POST` whose target passes the operation grammar, a 413 Payload
Too Large is sent exactly when the body is longer than 8388608 bytes; its body
is `Image is too large: <len> bytes\n` with `<len>` the decimal body length
(for every length below `2 ^ 63`, the lengths a buffer in memory can have); a
body of at most 8388608 bytes, the empty one included, passes the gate. -/
theorem body_size_gate (r : HttpRequest) (file : List Char) (stats : Statistics)
    (hm : r.method = POST) (hv : valid_operation r = true) :
    ((∃ x ∈ (check_initial_validity r file stats).sent, x.status = 413) ↔ r.len > 8388608) ∧
    (r.len > 8388608 →
      (check_initial_validity r file stats).result = false ∧
      (check_initial_validity r file stats).sent = [invalid_size_response r]) ∧
    (invalid_size_response r).status = 413 ∧
    (invalid_size_response r).statusExplanation = "Payload Too Large".toList ∧
    (r.len < 9223372036854775808 →
      (invalid_size_response r).sentBody =
        "Image is too large: ".toList ++ Nat.toDigits 10 r.len ++ " bytes\n".toList) ∧
    (r.len ≤ 8388608 →
      (check_initial_validity r file stats).result = true ∧
      (check_initial_validity r file stats).sent = []) := by
  have hmain := check_post r file stats hm
  have hv2 : ¬ valid_operation r = false := by simp [hv]
  rw [if_neg hv2] at hmain
  refine ⟨?_, ?_, rfl, rfl, invalid_size_sentBody r, ?_⟩
  · rw [hmain]
    by_cases hl : r.len > EIGHT_MIB
    · rw [if_pos hl]
      simp only [EIGHT_MIB] at hl
      simp [invalid_size_response, PAYLOAD_TOO_LARGE, hl]
    · rw [if_neg hl]
      simp only [EIGHT_MIB] at hl
      simp [hl]
  · intro hl
    rw [hmain, if_pos (by simpa [EIGHT_MIB] using hl)]
    exact ⟨rfl, rfl⟩
  · intro hl
    rw [hmain, if_neg (by simpa [EIGHT_MIB] using hl)]
    exact ⟨rfl, rfl⟩

/-- A 9 MiB body on `POST /rotate,0` is answered with
`Image is too large: 9437184 bytes\n`; bodies of 8388608 and of 0 bytes pass,
and a body of 8388609 bytes does not. -/
theorem body_size_gate_witness :
    (invalid_size_response ⟨POST, "/rotate,0".toList, [], 9437184⟩).sentBody =
      "Image is too large: 9437184 bytes\n".toList ∧
    (check_initial_validity ⟨POST, "/rotate,0".toList, [], 9437184⟩ [] ⟨0, 0, 0, 0, 0⟩).sent =
      [invalid_size_response ⟨POST, "/rotate,0".toList, [], 9437184⟩] ∧
    (check_initial_validity ⟨POST, "/rotate,0".toList, [], 8388608⟩ [] ⟨0, 0, 0, 0, 0⟩).result
      = true ∧
    (check_initial_validity ⟨POST, "/rotate,0".toList, [], 0⟩ [] ⟨0, 0, 0, 0, 0⟩).result
      = true ∧
    (∃ x ∈ (check_initial_validity ⟨POST, "/rotate,0".toList, [], 8388609⟩ []
      ⟨0, 0, 0, 0, 0⟩).sent, x.status = 413) :=
  ⟨(body_size_gate ⟨POST, "/rotate,0".toList, [], 9437184⟩ [] ⟨0, 0, 0, 0, 0⟩ rfl
      (by decide)).2.2.2.2.1 (by decide),
   ((body_size_gate ⟨POST, "/rotate,0".toList, [], 9437184⟩ [] ⟨0, 0, 0, 0, 0⟩ rfl
      (by decide)).2.1 (by decide)).2,
   ((body_size_gate ⟨POST, "/rotate,0".toList, [], 8388608⟩ [] ⟨0, 0, 0, 0, 0⟩ rfl
      (by decide)).2.2.2.2.2 (by decide)).1,
   ((body_size_gate ⟨POST, "/rotate,0".toList, [], 0⟩ [] ⟨0, 0, 0, 0, 0⟩ rfl
      (by decide)).2.2.2.2.2 (by decide)).1,
   (body_size_gate ⟨POST, "/rotate,0".toList, [], 8388609⟩ [] ⟨0, 0, 0, 0, 0⟩ rfl
      (by decide)).1.2 (by decide)⟩

/-- C10: for every target accepted by `valid_operation`, `get_operations`
returns (without reaching `command_line_error`) a plan followed by the
terminating record; the plan has exactly one record per `/`-separated segment
after the first, in the order of the target, and the record of a segment has
the name of the segment and carries the parsed angle (`rotate`), the direction
string `h` or `v` (`flip`), or the parsed width and height (`scale`), every
other field being `0` or `NULL`. -/
theorem get_operations_plan (r : HttpRequest) (hv : valid_operation r = true) :
    ∃ ops, get_operations r = .ok (ops ++ [⟨none, 0, 0, none⟩]) ∧
      plan (ops ++ [⟨none, 0, 0, none⟩]) = ops ∧
      ops.length = ((r.address.splitOn '/').tail).length ∧
      List.Forall₂ OperationOf (r.address.splitOn '/').tail ops := by
  rw [valid_operation_eq_all, List.all_eq_true] at hv
  obtain ⟨ops, hops, hall, hsome⟩ := get_operations_loop_of_valid _ hv
  refine ⟨ops, ?_, plan_append_terminator ops hsome, hall.length_eq.symm, hall⟩
  rw [← hops]
  simp [get_operations, split_by_char_eq_splitOn]

/-- The plan of `/scale,1,10000/flip,h/rotate,-359`. -/
theorem get_operations_plan_witness :
    (∃ ops, get_operations ⟨POST, "/scale,1,10000/flip,h/rotate,-359".toList, [], 0⟩ =
        .ok (ops ++ [⟨none, 0, 0, none⟩]) ∧
      plan (ops ++ [⟨none, 0, 0, none⟩]) = ops ∧
      ops.length = (("/scale,1,10000/flip,h/rotate,-359".toList.splitOn '/').tail).length ∧
      List.Forall₂ OperationOf ("/scale,1,10000/flip,h/rotate,-359".toList.splitOn '/').tail
        ops) ∧
    get_operations ⟨POST, "/scale,1,10000/flip,h/rotate,-359".toList, [], 0⟩ =
      .ok [⟨some "scale".toList, 1, 10000, none⟩, ⟨some "flip".toList, 0, 0, some "h".toList⟩,
        ⟨some "rotate".toList, -359, 0, none⟩, ⟨none, 0, 0, none⟩] :=
  ⟨get_operations_plan ⟨POST, "/scale,1,10000/flip,h/rotate,-359".toList, [], 0⟩ (by decide),
   rfl⟩

/-! ## Properties of the pipeline, the worker, the report and the command line -/

/-- C11: for every target accepted by `valid_operation`, `get_operations` does
not end in `command_line_error` (usage message, exit status 15) but returns
its array, and every record of the plan satisfies its range invariant: a
rotate angle in `[-359, 359]`, a scale width and height in `[1, 10000]`, a flip
direction `h` or `v`. -/
theorem get_operations_within_range (r : HttpRequest) (hv : valid_operation r = true) :
    get_operations r ≠ .error .usageExit ∧
    ∃ ops, get_operations r = .ok ops ∧ ∀ o ∈ plan ops, RangeInvariant o := by
  obtain ⟨ops, hget, hplan, -, -, hinv⟩ := get_operations_of_valid r hv
  refine ⟨?_, ops ++ [⟨none, 0, 0, none⟩], hget, ?_⟩
  · rw [hget]
    intro h
    cases h
  · rw [hplan]
    exact hinv

/-- The boundary values, and the empty rotate field, which is read as the angle
0. -/
theorem get_operations_within_range_witness :
    (get_operations ⟨POST, "/rotate,-359/rotate,359/scale,1,10000/flip,v".toList, [], 0⟩
        ≠ .error .usageExit ∧
      ∃ ops, get_operations ⟨POST, "/rotate,-359/rotate,359/scale,1,10000/flip,v".toList, [], 0⟩
          = .ok ops ∧ ∀ o ∈ plan ops, RangeInvariant o) ∧
    (get_operations ⟨POST, "/rotate,".toList, [], 0⟩ ≠ .error .usageExit ∧
      ∃ ops, get_operations ⟨POST, "/rotate,".toList, [], 0⟩ = .ok ops ∧
        ∀ o ∈ plan ops, RangeInvariant o) :=
  ⟨get_operations_within_range
      ⟨POST, "/rotate,-359/rotate,359/scale,1,10000/flip,v".toList, [], 0⟩ (by decide),
   get_operations_within_range ⟨POST, "/rotate,".toList, [], 0⟩ (by decide)⟩

/-- C13: for every `POST` request and every outcome of decoding and of the
stages, the worker answers with exactly one response; that response carries
`Content-Type: image/png` if and only if its status is 200, and when its status
is not 200 it is 400, 413, 422 or 501 and the response carries `text/plain`. -/
theorem post_content_type {Bitmap : Type} (codec : Codec Bitmap) (file : List Char)
    (r : HttpRequest) (stats : Statistics) (hp : r.method = POST) :
    ∃ e x, client_thread_body codec file r stats = .ok e ∧ e.sent = [x] ∧
      (x.contentType = some "image/png".toList ↔ x.status = 200) ∧
      (x.status ≠ 200 → x.contentType = some "text/plain".toList ∧
        (x.status = 400 ∨ x.status = 413 ∨ x.status = 422 ∨ x.status = 501)) := by
  obtain ⟨e, he, hsent, -⟩ := client_thread_body_eq codec file r stats
  refine ⟨e, response_for codec file r, he, hsent, ?_⟩
  have hg : r.method ≠ GET := by rw [hp]; exact POST_ne_GET
  rcases response_for_cases codec file r with
    ⟨-, h, -⟩ | ⟨h, -⟩ | ⟨h, -⟩ | ⟨-, -, h⟩ | ⟨-, -, -, h⟩ | ⟨-, -, -, -, h⟩ |
    ⟨-, -, -, image, o, -, -, -, -, h⟩ | ⟨-, -, -, image, final, -, -, h⟩
  · exact absurd hp h
  · exact absurd h hg
  · exact absurd h hg
  · rw [h]; decide
  · rw [h]
    refine ⟨?_, ?_⟩
    · constructor
      · intro hc
        revert hc
        simp [HttpResponse.contentType, invalid_size_response, make_headers]
      · intro hs
        revert hs
        simp [invalid_size_response, PAYLOAD_TOO_LARGE]
    · intro _
      refine ⟨?_, Or.inr (Or.inl rfl)⟩
      simp [HttpResponse.contentType, invalid_size_response, make_headers]
  · rw [h]; decide
  · rw [h]
    refine ⟨?_, ?_⟩
    · constructor
      · intro hc
        revert hc
        simp [HttpResponse.contentType, failed_operation_response, make_headers]
      · intro hs
        revert hs
        simp [failed_operation_response, FAILED_OPERATION]
    · intro _
      refine ⟨?_, Or.inr (Or.inr (Or.inr rfl))⟩
      simp [HttpResponse.contentType, failed_operation_response, make_headers]
  · rw [h]
    refine ⟨?_, ?_⟩
    · constructor
      · intro _; rfl
      · intro _
        simp [HttpResponse.contentType, success_response, make_headers]
    · intro hs
      exact absurd rfl hs

/-- The five outcomes of a `POST`, as the worker sends them: 200 with
`image/png` when the flip succeeds, and with `text/plain` 501 when the flip
fails, 400 for a bad target, 413 for a body of 9 MiB and 422 for a body that
does not decode. -/
theorem post_content_type_witness :
    (∃ e x, client_thread_body (exampleCodec false false) "<html>".toList
        ⟨POST, "/flip,h".toList, "img".toList, 3⟩ ⟨1, 0, 0, 0, 0⟩ = .ok e ∧ e.sent = [x] ∧
      (x.contentType = some "image/png".toList ↔ x.status = 200) ∧
      (x.status ≠ 200 → x.contentType = some "text/plain".toList ∧
        (x.status = 400 ∨ x.status = 413 ∨ x.status = 422 ∨ x.status = 501))) ∧
    (∃ e, client_thread_body (exampleCodec false false) "<html>".toList
        ⟨POST, "/flip,h".toList, "img".toList, 3⟩ ⟨1, 0, 0, 0, 0⟩ = .ok e ∧
      e.sent.map (fun x => (x.status, x.contentType)) =
        [(200, some "image/png".toList)]) ∧
    (∃ e, client_thread_body (exampleCodec false true) "<html>".toList
        ⟨POST, "/flip,h".toList, "img".toList, 3⟩ ⟨1, 0, 0, 0, 0⟩ = .ok e ∧
      e.sent.map (fun x => (x.status, x.contentType)) =
        [(501, some "text/plain".toList)]) ∧
    (∃ e, client_thread_body (exampleCodec false false) "<html>".toList
        ⟨POST, "/flip,x".toList, "img".toList, 3⟩ ⟨1, 0, 0, 0, 0⟩ = .ok e ∧
      e.sent.map (fun x => (x.status, x.contentType)) =
        [(400, some "text/plain".toList)]) ∧
    (∃ e, client_thread_body (exampleCodec false false) "<html>".toList
        ⟨POST, "/flip,h".toList, "img".toList, 9437184⟩ ⟨1, 0, 0, 0, 0⟩ = .ok e ∧
      e.sent.map (fun x => (x.status, x.contentType)) =
        [(413, some "text/plain".toList)]) ∧
    (∃ e, client_thread_body (exampleCodec false false) "<html>".toList
        ⟨POST, "/flip,h".toList, [], 0⟩ ⟨1, 0, 0, 0, 0⟩ = .ok e ∧
      e.sent.map (fun x => (x.status, x.contentType)) =
        [(422, some "text/plain".toList)]) :=
  ⟨post_content_type (exampleCodec false false) "<html>".toList
      ⟨POST, "/flip,h".toList, "img".toList, 3⟩ ⟨1, 0, 0, 0, 0⟩ rfl,
   ⟨_, rfl, by decide⟩, ⟨_, rfl, by decide⟩, ⟨_, rfl, by decide⟩, ⟨_, rfl, by decide⟩,
   ⟨_, rfl, by decide⟩⟩

/-- C14: for every sequence of `n` requests read on one connection, followed by
a read that fails (or by the end of the stream), the worker loop of
`client_thread` emits exactly `n` responses, the `i`-th one being the response
for the `i`-th request (the one response that handling this request sends,
whatever the statistics are at that point); a failing read ends the loop
without a response, and nothing after it is read. -/
theorem worker_loop_responses {Bitmap : Type} (codec : Codec Bitmap) (file : List Char)
    (rs : List HttpRequest) (more : List (Option HttpRequest)) (stats : Statistics)
    (maxGiven : Bool) (semaphore : Nat) :
    (∃ e, client_thread_loop codec file (rs.map some ++ none :: more) stats = .ok e ∧
      e.sent.length = rs.length ∧ e.sent = rs.map (response_for codec file)) ∧
    (∃ e, client_thread_loop codec file (rs.map some) stats = .ok e ∧
      e.sent.length = rs.length ∧ e.sent = rs.map (response_for codec file)) ∧
    (∃ e, client_thread codec file maxGiven (rs.map some ++ none :: more) stats semaphore
        = .ok e ∧
      e.sent.length = rs.length ∧ e.sent = rs.map (response_for codec file)) ∧
    (∀ r s, ∃ e, client_thread_body codec file r s = .ok e ∧
      e.sent = [response_for codec file r]) ∧
    (∃ e, client_thread_loop codec file (none :: more) stats = .ok e ∧ e.sent = []) := by
  refine ⟨?_, ?_, ?_, ?_, ⟨⟨(), [], stats⟩, rfl, rfl⟩⟩
  · obtain ⟨e, he, hsent, -⟩ :=
      client_thread_loop_eq codec file rs (none :: more) (Or.inr ⟨more, rfl⟩) stats
    exact ⟨e, he, by simp [hsent], hsent⟩
  · obtain ⟨e, he, hsent, -⟩ := client_thread_loop_eq codec file rs [] (Or.inl rfl) stats
    rw [List.append_nil] at he
    exact ⟨e, he, by simp [hsent], hsent⟩
  · obtain ⟨e, he, hsent, -⟩ :=
      client_thread_loop_eq codec file rs (none :: more) (Or.inr ⟨more, rfl⟩)
        { stats with connected := incr stats.connected }
    refine ⟨⟨(end_client_thread maxGiven e.stats semaphore).2, e.sent,
      (end_client_thread maxGiven e.stats semaphore).1⟩, ?_, by simp [hsent], hsent⟩
    simp only [client_thread, he]
  · intro r s
    obtain ⟨e, he, hsent, -⟩ := client_thread_body_eq codec file r s
    exact ⟨e, he, hsent⟩

/-- A connection with the requests `PUT /`, `GET /`, `GET /foo`,
`POST /rotate,400`, a 9 MiB `POST`, a `POST` with an empty body, a `POST` whose
flip fails and a `POST` that succeeds, then a failing read and one more
request: eight responses, in this order, and none for what follows the failing
read. -/
theorem worker_loop_responses_witness :
    ∃ e, client_thread_loop (exampleCodec false true) "<html>".toList
        ([some ⟨"PUT".toList, "/".toList, [], 0⟩,
          some ⟨GET, "/".toList, [], 0⟩,
          some ⟨GET, "/foo".toList, [], 0⟩,
          some ⟨POST, "/rotate,400".toList, "img".toList, 3⟩,
          some ⟨POST, "/rotate,0".toList, [], 9437184⟩,
          some ⟨POST, "/rotate,0".toList, [], 0⟩,
          some ⟨POST, "/flip,v/flip,h".toList, "img".toList, 3⟩,
          some ⟨POST, "/scale,200,50".toList, "img".toList, 3⟩,
          none,
          some ⟨GET, "/".toList, [], 0⟩]) ⟨1, 0, 0, 0, 0⟩ = .ok e ∧
      e.sent.map (fun x => x.status) = [405, 200, 404, 400, 413, 422, 501, 200] := by
  obtain ⟨e, he, -, hsent⟩ := (worker_loop_responses (exampleCodec false true) "<html>".toList
    [⟨"PUT".toList, "/".toList, [], 0⟩,
     ⟨GET, "/".toList, [], 0⟩,
     ⟨GET, "/foo".toList, [], 0⟩,
     ⟨POST, "/rotate,400".toList, "img".toList, 3⟩,
     ⟨POST, "/rotate,0".toList, [], 9437184⟩,
     ⟨POST, "/rotate,0".toList, [], 0⟩,
     ⟨POST, "/flip,v/flip,h".toList, "img".toList, 3⟩,
     ⟨POST, "/scale,200,50".toList, "img".toList, 3⟩]
    [some ⟨GET, "/".toList, [], 0⟩] ⟨1, 0, 0, 0, 0⟩ false 0).1
  refine ⟨e, he, ?_⟩
  rw [hsent]
  decide

/-- C15 fails on the code: a `POST /rotate,90` whose rotation returns a null
bitmap is answered 501, and neither `success` nor `unSuccess` changes, so the
sum `success + unSuccess` stays where it was although a response was sent. -/
theorem stage_failure_not_counted :
    ∃ e, client_thread_body (exampleCodec true false) "<html>".toList
        ⟨POST, "/rotate,90".toList, "img".toList, 3⟩ ⟨1, 0, 5, 2, 0⟩ = .ok e ∧
      e.sent.map (fun x => x.status) = [501] ∧
      e.stats.success = 5 ∧ e.stats.unSuccess = 2 ∧
      e.stats.success + e.stats.unSuccess = 5 + 2 :=
  ⟨_, rfl, by decide, by decide, by decide, by decide⟩

/-- Whatever the codec does, a request answered 501 changes neither `success`
nor `unSuccess`; a request answered with any other status increments exactly
one of the two, so that their sum grows by one as long as neither counter is at
its maximum. -/
theorem response_counted_unless_stage_failure {Bitmap : Type} (codec : Codec Bitmap)
    (file : List Char) (r : HttpRequest) (stats : Statistics) :
    ∃ e, client_thread_body codec file r stats = .ok e ∧
      e.sent = [response_for codec file r] ∧
      ((response_for codec file r).status = 501 →
        e.stats.success = stats.success ∧ e.stats.unSuccess = stats.unSuccess) ∧
      ((response_for codec file r).status ≠ 501 →
        stats.success < 4294967295 → stats.unSuccess < 4294967295 →
        e.stats.success + e.stats.unSuccess = stats.success + stats.unSuccess + 1) := by
  obtain ⟨e, he, hsent, -, -, -, hs, hu⟩ := client_thread_body_eq codec file r stats
  refine ⟨e, he, hsent, ?_, ?_⟩
  · intro h
    rw [hs, hu, h]
    simp
  · intro h h1 h2
    have i1 : incr stats.success = stats.success + 1 := by
      unfold incr; exact Nat.mod_eq_of_lt (by omega)
    have i2 : incr stats.unSuccess = stats.unSuccess + 1 := by
      unfold incr; exact Nat.mod_eq_of_lt (by omega)
    rw [hs, hu]
    by_cases h200 : (response_for codec file r).status = 200
    · simp [h200, i1]; omega
    · simp [h200, h, i2]; omega

/-- C16: the `operations` counter grows by the number of stages completed for
the request: it is unchanged when the request is rejected at validation or the
body does not decode, it is incremented once per record of the plan when every
stage succeeds, and `k` times when stage `k + 1` is the first to fail (the `k`
earlier increments stay, the failing stage is not counted). The counter is an
`unsigned int`: `k` increments add `k` as long as the sum stays below
`2 ^ 32`. -/
theorem operations_counter {Bitmap : Type} (codec : Codec Bitmap) (file : List Char)
    (r : HttpRequest) (stats : Statistics) :
    ((check_initial_validity r file stats).result = false →
      ∃ e, client_thread_body codec file r stats = .ok e ∧
        e.stats.operations = stats.operations) ∧
    ((check_initial_validity r file stats).result = true →
      codec.fi_load_image_from_buffer r.body r.len = none →
      ∃ e, client_thread_body codec file r stats = .ok e ∧
        e.stats.operations = stats.operations) ∧
    (∀ image b, (check_initial_validity r file stats).result = true →
      codec.fi_load_image_from_buffer r.body r.len = some image →
      runStages codec (planOf r) image = some b →
      ∃ e, client_thread_body codec file r stats = .ok e ∧
        e.stats.operations = incr^[(planOf r).length] stats.operations ∧
        (planOf r).length = ((r.address.splitOn '/').tail).length) ∧
    (∀ image pre o post b, (check_initial_validity r file stats).result = true →
      codec.fi_load_image_from_buffer r.body r.len = some image →
      planOf r = pre ++ o :: post →
      runStages codec pre image = some b → stageOutput codec o b = none →
      ∃ e, client_thread_body codec file r stats = .ok e ∧
        e.stats.operations = incr^[pre.length] stats.operations) ∧
    (∀ k, stats.operations + k < 4294967296 →
      incr^[k] stats.operations = stats.operations + k) := by
  obtain ⟨e, he, -, -, -, hops, -⟩ := client_thread_body_eq codec file r stats
  refine ⟨?_, ?_, ?_, ?_, fun k hk => iterate_incr_of_lt k _ hk⟩
  · intro h
    refine ⟨e, he, ?_⟩
    rw [hops, stagesCompleted_of_rejected codec file r stats h]
    rfl
  · intro h hload
    refine ⟨e, he, ?_⟩
    rw [hops, stagesCompleted_of_validated codec file r stats h, hload]
    rfl
  · intro image b h hload hrun
    obtain ⟨-, hv, -⟩ := (check_result_true_iff r file stats).1 h
    obtain ⟨ops, -, -, hplanOf, hlen, -⟩ := get_operations_of_valid r hv
    refine ⟨e, he, ?_, by rw [hplanOf, hlen]⟩
    rw [hops, stagesCompleted_of_validated codec file r stats h, hload]
    simp only [walkPlan_of_runStages codec (planOf r) image b hrun]
  · intro image pre o post b h hload hplan hrun hfail
    refine ⟨e, he, ?_⟩
    rw [hops, stagesCompleted_of_validated codec file r stats h, hload]
    simp only [hplan, walkPlan_first_failure codec pre o post image b hrun hfail]

/-- `POST /scale,1,1/flip,v/rotate,90` with an image: the counter goes from 7 to
10 when every stage succeeds, and from 7 to 9 when the rotation fails; it stays
at 7 for a target that is rejected and for a body that does not decode. -/
theorem operations_counter_witness :
    (∃ e, client_thread_body (exampleCodec false false) "<html>".toList
        ⟨POST, "/scale,1,1/flip,v/rotate,90".toList, "img".toList, 3⟩ ⟨1, 0, 0, 0, 7⟩ = .ok e ∧
      e.stats.operations =
        incr^[(planOf ⟨POST, "/scale,1,1/flip,v/rotate,90".toList, "img".toList, 3⟩).length] 7 ∧
      (planOf ⟨POST, "/scale,1,1/flip,v/rotate,90".toList, "img".toList, 3⟩).length =
        (("/scale,1,1/flip,v/rotate,90".toList.splitOn '/').tail).length) ∧
    incr^[3] 7 = 10 ∧
    (∃ e, client_thread_body (exampleCodec true false) "<html>".toList
        ⟨POST, "/scale,1,1/flip,v/rotate,90".toList, "img".toList, 3⟩ ⟨1, 0, 0, 0, 7⟩ = .ok e ∧
      e.stats.operations = incr^[2] 7) ∧
    (∃ e, client_thread_body (exampleCodec false false) "<html>".toList
        ⟨POST, "/rotate,400".toList, "img".toList, 3⟩ ⟨1, 0, 0, 0, 7⟩ = .ok e ∧
      e.stats.operations = 7) ∧
    (∃ e, client_thread_body (exampleCodec false false) "<html>".toList
        ⟨POST, "/rotate,90".toList, [], 0⟩ ⟨1, 0, 0, 0, 7⟩ = .ok e ∧
      e.stats.operations = 7) :=
  ⟨(operations_counter (exampleCodec false false) "<html>".toList
      ⟨POST, "/scale,1,1/flip,v/rotate,90".toList, "img".toList, 3⟩ ⟨1, 0, 0, 0, 7⟩).2.2.1
      (100, 50) (1, 1) (by decide) rfl (by decide),
   (operations_counter (exampleCodec false false) "<html>".toList
      ⟨POST, "/scale,1,1/flip,v/rotate,90".toList, "img".toList, 3⟩ ⟨1, 0, 0, 0, 7⟩).2.2.2.2
      3 (by decide),
   (operations_counter (exampleCodec true false) "<html>".toList
      ⟨POST, "/scale,1,1/flip,v/rotate,90".toList, "img".toList, 3⟩ ⟨1, 0, 0, 0, 7⟩).2.2.2.1
      (100, 50) [⟨some "scale".toList, 1, 1, none⟩, ⟨some "flip".toList, 0, 0, some "v".toList⟩]
      ⟨some "rotate".toList, 90, 0, none⟩ [] (1, 1) (by decide) rfl (by decide) (by decide)
      (by decide),
   (operations_counter (exampleCodec false false) "<html>".toList
      ⟨POST, "/rotate,400".toList, "img".toList, 3⟩ ⟨1, 0, 0, 0, 7⟩).1 (by decide),
   (operations_counter (exampleCodec false false) "<html>".toList
      ⟨POST, "/rotate,90".toList, [], 0⟩ ⟨1, 0, 0, 0, 7⟩).2.1 (by decide) rfl⟩

/-- C17: `process_operations` walks the plan from left to right, each stage
being fed the bitmap of the one before. At the first stage that fails (a null
bitmap from rotate or rescale, a flip that reports failure) it sends exactly
one response, 501 Not Implemented with the body
`Operation did not complete: <op>\n`, `<op>` being the name (rotate, flip or
scale) of the failing operation, and returns `false`, whatever follows the
failing record in the array; the stages before it are counted. The request is
answered with this response alone, so no 200 is sent for it. -/
theorem stage_failure_response {Bitmap : Type} (codec : Codec Bitmap)
    (pre : List Operation) (o : Operation) (image b : Bitmap) (stats : Statistics)
    (hinv : ∀ p ∈ pre ++ [o], RangeInvariant p)
    (hpre : runStages codec pre image = some b) (hfail : stageOutput codec o b = none) :
    (∃ after, ∀ rest, process_operations codec (pre ++ o :: rest) image stats =
      .ok ⟨(false, after), [failed_operation_response o],
        { stats with operations := incr^[pre.length] stats.operations }⟩) ∧
    (failed_operation_response o).status = 501 ∧
    (failed_operation_response o).statusExplanation = "Not Implemented".toList ∧
    (∃ name, o.operation = some name ∧
      (name = "rotate".toList ∨ name = "flip".toList ∨ name = "scale".toList) ∧
      (failed_operation_response o).sentBody =
        "Operation did not complete: ".toList ++ name ++ "\n".toList) ∧
    (∀ (file : List Char) (r : HttpRequest) (post : List Operation),
      (check_initial_validity r file stats).result = true →
      codec.fi_load_image_from_buffer r.body r.len = some image →
      planOf r = pre ++ o :: post →
      ∃ e, client_thread_body codec file r stats = .ok e ∧
        e.sent = [failed_operation_response o] ∧ ∀ x ∈ e.sent, x.status ≠ 200) := by
  have hpreinv : ∀ p ∈ pre, RangeInvariant p := fun p hp => hinv p (by simp [hp])
  have ho : RangeInvariant o := hinv o (by simp)
  obtain ⟨name, hname⟩ := Option.isSome_iff_exists.1 (isSome_of_rangeInvariant o ho)
  obtain ⟨after, hafter⟩ := process_operations_body_failed codec o name b hname ho hfail
  refine ⟨⟨after, ?_⟩, rfl, rfl, failed_operation_response_body o ho, ?_⟩
  · intro rest
    rw [process_operations_of_completed codec pre (o :: rest) hpreinv image b stats hpre]
    simp [process_operations, hname, hafter]
  · intro file r post hvalid hload hplan
    obtain ⟨e, he, hsent, -⟩ := client_thread_body_eq codec file r stats
    have hwalk := walkPlan_first_failure codec pre o post image b hpre hfail
    obtain ⟨hp, hv, hlen⟩ := (check_result_true_iff r file stats).1 hvalid
    have hresp : response_for codec file r = failed_operation_response o := by
      rw [response_for_def]
      have hg : ¬ r.method = GET := by rw [hp]; exact POST_ne_GET
      have hl : ¬ r.len > 8388608 := Nat.not_lt_of_le hlen
      simp [hp, hg, hv, hl, hload, hplan, hwalk, POST_ne_GET]
    refine ⟨e, he, by rw [hsent, hresp], ?_⟩
    intro x hx
    rw [hsent, hresp, List.mem_singleton] at hx
    subst hx
    simp [failed_operation_response, FAILED_OPERATION]

/-- The plan of `/scale,1,1/flip,v/flip,h/rotate,90` on a codec whose horizontal
flip fails: the third stage fails on the 1 by 1 bitmap of the second, the
response names `flip`, and what follows the failing record does not matter. -/
theorem stage_failure_response_witness :
    (∃ after, ∀ rest, process_operations (exampleCodec false true)
        ([⟨some "scale".toList, 1, 1, none⟩, ⟨some "flip".toList, 0, 0, some "v".toList⟩]
          ++ ⟨some "flip".toList, 0, 0, some "h".toList⟩ :: rest) (100, 50) ⟨1, 0, 0, 0, 0⟩ =
      .ok ⟨(false, after), [failed_operation_response ⟨some "flip".toList, 0, 0, some "h".toList⟩],
        { (⟨1, 0, 0, 0, 0⟩ : Statistics) with operations := incr^[2] 0 }⟩) ∧
    (failed_operation_response ⟨some "flip".toList, 0, 0, some "h".toList⟩).sentBody =
      "Operation did not complete: flip\n".toList :=
  ⟨(stage_failure_response (exampleCodec false true)
      [⟨some "scale".toList, 1, 1, none⟩, ⟨some "flip".toList, 0, 0, some "v".toList⟩]
      ⟨some "flip".toList, 0, 0, some "h".toList⟩ (100, 50) (1, 1) ⟨1, 0, 0, 0, 0⟩
      (by
        intro p hp
        simp only [List.cons_append, List.nil_append, List.mem_cons, List.mem_singleton,
          List.not_mem_nil, or_false] at hp
        rcases hp with rfl | rfl | rfl
        · exact Or.inr (Or.inr ⟨rfl, by decide, by decide, by decide, by decide⟩)
        · exact Or.inr (Or.inl ⟨rfl, Or.inr rfl⟩)
        · exact Or.inr (Or.inl ⟨rfl, Or.inl rfl⟩))
      (by decide) (by decide)).1,
   by decide⟩

/-- C18: in every state of the worker life cycle reached from the start of the
server by steps `enter` (a worker enters `client_thread`), `handle` (a worker
handles a request) and `release` (a worker runs `end_client_thread`),
`connected` is the number of workers that have entered and not yet released
and `serviced` the number of workers that have released; a release adds one to
`serviced`, handling a request changes neither counter, and no step decreases
`serviced`. The counters are `unsigned int`: the equalities hold modulo
`2 ^ 32`, and as written while fewer than `2 ^ 32` workers have entered. -/
theorem worker_life_cycle {Bitmap : Type} (codec : Codec Bitmap) (file : List Char)
    (events : List WorkerEvent) (w : Workers)
    (hrun : worker_run codec file events Workers.initial = some w) :
    w.released ≤ w.entered ∧
    w.stats.connected = (w.entered - w.released) % 4294967296 ∧
    w.stats.serviced = w.released % 4294967296 ∧
    (w.entered < 4294967296 →
      w.stats.connected = w.entered - w.released ∧ w.stats.serviced = w.released) ∧
    (∀ w', worker_step codec file w .release = some w' →
      w'.released = w.released + 1 ∧
      w'.stats.serviced = (w.stats.serviced + 1) % 4294967296 ∧
      (w.entered < 4294967296 → w'.stats.serviced = w.stats.serviced + 1)) ∧
    (∀ request w', worker_step codec file w (.handle request) = some w' →
      w'.stats.connected = w.stats.connected ∧ w'.stats.serviced = w.stats.serviced ∧
      w'.entered = w.entered ∧ w'.released = w.released) ∧
    (∀ event w', worker_step codec file w event = some w' → w.entered < 4294967296 →
      w.stats.serviced ≤ w'.stats.serviced) := by
  have hinit : Workers.initial.released ≤ Workers.initial.entered ∧
      Workers.initial.stats.connected =
        (Workers.initial.entered - Workers.initial.released) % 4294967296 ∧
      Workers.initial.stats.serviced = Workers.initial.released % 4294967296 := by
    decide
  obtain ⟨h1, h2, h3⟩ := worker_run_invariant codec file events _ w hrun hinit
  have hrelease : ∀ w', worker_step codec file w .release = some w' →
      w'.released = w.released + 1 ∧
      w'.stats.serviced = (w.stats.serviced + 1) % 4294967296 ∧
      (w.entered < 4294967296 → w'.stats.serviced = w.stats.serviced + 1) := by
    intro w' hstep
    simp only [worker_step] at hstep
    split at hstep
    · rename_i hlt
      simp only [Option.some.injEq] at hstep
      subst hstep
      refine ⟨rfl, rfl, fun hb => ?_⟩
      show incr w.stats.serviced = w.stats.serviced + 1
      rw [h3]
      unfold incr
      omega
    · cases hstep
  have hhandle : ∀ request w', worker_step codec file w (.handle request) = some w' →
      w'.stats.connected = w.stats.connected ∧ w'.stats.serviced = w.stats.serviced ∧
      w'.entered = w.entered ∧ w'.released = w.released := by
    intro request w' hstep
    simp only [worker_step] at hstep
    split at hstep
    · obtain ⟨e, he, -, hc, hs, -⟩ := client_thread_body_eq codec file request w.stats
      rw [he] at hstep
      simp only [Option.some.injEq] at hstep
      subst hstep
      exact ⟨hc, hs, rfl, rfl⟩
    · cases hstep
  refine ⟨h1, h2, h3, ?_, hrelease, hhandle, ?_⟩
  · intro hb
    rw [h2, h3]
    exact ⟨Nat.mod_eq_of_lt (by omega), Nat.mod_eq_of_lt (by omega)⟩
  · intro event w' hstep hb
    cases event with
    | enter =>
      simp only [worker_step, Option.some.injEq] at hstep
      subst hstep
      exact le_refl _
    | handle request => rw [(hhandle request w' hstep).2.1]
    | release =>
      rw [((hrelease w' hstep).2.2 hb)]
      omega

/-- Two workers enter, one handles a request and releases: one worker is
connected and one has been serviced. -/
theorem worker_life_cycle_witness :
    ∃ w, worker_run (exampleCodec false false) "<html>".toList
        [.enter, .enter, .handle ⟨GET, "/".toList, [], 0⟩, .release] Workers.initial = some w ∧
      w.stats.connected = 1 ∧ w.stats.serviced = 1 ∧ w.entered - w.released = 1 ∧
      w.released = 1 := by
  refine ⟨_, rfl, ?_⟩
  have h := worker_life_cycle (exampleCodec false false) "<html>".toList
    [.enter, .enter, .handle ⟨GET, "/".toList, [], 0⟩, .release] _ rfl
  exact ⟨(h.2.2.2.1 (by decide)).1, (h.2.2.2.1 (by decide)).2, by decide, by decide⟩

/-- C19: `sighup_statistics` emits exactly five lines, in the order connected,
serviced, successful, unsuccessful, operations, each made of its label, the
counter in unsigned decimal and a newline, and it leaves the five counters as
they are. A counter of the record is an `unsigned int`, below `2 ^ 32`. -/
theorem sighup_statistics_report (stats : Statistics) :
    (sighup_statistics stats).2 = stats ∧
    (sighup_statistics stats).1.length = 5 ∧
    (∀ line ∈ (sighup_statistics stats).1,
      line.count '\n' = 1 ∧ line.getLast? = some '\n') ∧
    (stats.connected < 4294967296 → stats.serviced < 4294967296 →
      stats.success < 4294967296 → stats.unSuccess < 4294967296 →
      stats.operations < 4294967296 →
      (sighup_statistics stats).1 =
        ["Connected clients: ".toList ++ Nat.toDigits 10 stats.connected ++ "\n".toList,
         "Serviced clients: ".toList ++ Nat.toDigits 10 stats.serviced ++ "\n".toList,
         "Successfully processed HTTP requests: ".toList ++ Nat.toDigits 10 stats.success
           ++ "\n".toList,
         "Unsuccessful HTTP requests: ".toList ++ Nat.toDigits 10 stats.unSuccess
           ++ "\n".toList,
         "Operations on images completed: ".toList ++ Nat.toDigits 10 stats.operations
           ++ "\n".toList]) := by
  refine ⟨rfl, rfl, ?_, ?_⟩
  · intro line hline
    simp only [sighup_statistics, List.mem_cons, List.mem_singleton, List.not_mem_nil,
      or_false] at hline
    rcases hline with rfl | rfl | rfl | rfl | rfl
    · exact report_line _ _ (by decide)
    · exact report_line _ _ (by decide)
    · exact report_line _ _ (by decide)
    · exact report_line _ _ (by decide)
    · exact report_line _ _ (by decide)
  · intro h1 h2 h3 h4 h5
    simp only [sighup_statistics, fprintf_u, Nat.mod_eq_of_lt h1, Nat.mod_eq_of_lt h2,
      Nat.mod_eq_of_lt h3, Nat.mod_eq_of_lt h4, Nat.mod_eq_of_lt h5]

/-- The report of the scenario of the spec: no client connected, three
serviced, two successful requests, one unsuccessful, one operation. -/
theorem sighup_statistics_report_witness :
    (sighup_statistics ⟨0, 3, 2, 1, 1⟩).1 =
      ["Connected clients: 0\n".toList,
       "Serviced clients: 3\n".toList,
       "Successfully processed HTTP requests: 2\n".toList,
       "Unsuccessful HTTP requests: 1\n".toList,
       "Operations on images completed: 1\n".toList] ∧
    (sighup_statistics ⟨0, 3, 2, 1, 1⟩).2 = ⟨0, 3, 2, 1, 1⟩ :=
  ⟨(sighup_statistics_report ⟨0, 3, 2, 1, 1⟩).2.2.2 (by decide) (by decide) (by decide)
      (by decide) (by decide),
   (sighup_statistics_report ⟨0, 3, 2, 1, 1⟩).1⟩

/-- C20, as stated, fails: in `--port --port` the text `--port` appears twice and
is the last argument with no value after it, and in `--port --max` the text
`--max` is the last argument with no value after it, yet both command lines are
accepted, the second text being taken as the port; and the values `+5` and
` 7` (with a leading blank) after `--max` are no decimal integers, yet they are
accepted as 5 and 7, since `strtol` reads them so. -/
theorem option_text_as_value_accepted :
    ["--port".toList, "--port".toList].count "--port".toList = 2 ∧
    ["--port".toList, "--port".toList].getLast? = some "--port".toList ∧
    command_line_arguments ["uqimageproc".toList, "--port".toList, "--port".toList] =
      .ok ⟨"--port".toList, true, 0, false⟩ ∧
    ["--port".toList, "--max".toList].getLast? = some "--max".toList ∧
    command_line_arguments ["uqimageproc".toList, "--port".toList, "--max".toList] =
      .ok ⟨"--max".toList, true, 0, false⟩ ∧
    isDecimal "+5".toList = false ∧
    command_line_arguments ["uqimageproc".toList, "--max".toList, "+5".toList] =
      .ok ⟨"0".toList, false, 5, true⟩ ∧
    isDecimal " 7".toList = false ∧
    command_line_arguments ["uqimageproc".toList, "--max".toList, " 7".toList] =
      .ok ⟨"0".toList, false, 7, true⟩ :=
  ⟨by decide, by decide, rfl, by decide, rfl, by decide, rfl, by decide, rfl⟩

/-- C20, amended: `command_line_arguments` of the server ends with the usage
message and exit status 15 for every argument vector in which some argument is
the empty string, or an argument in option position is neither `--port` nor
`--max`, or `--port` stands in option position twice, or `--max` stands in
option position twice, or the last argument is `--port` or `--max` in option
position, with no value after it, or the value after a `--max` in option
position is not an integer in `[0, 10000]` as `strtol` reads one (optional
white space, an optional sign, digits). Every option takes one value, so the
option positions are the even positions after the program name, and a text
`--port` or `--max` in value position is a value. -/
theorem command_line_rejected (program : List Char) (args : List (List Char))
    (h : BadCommandLine args) :
    command_line_arguments (program :: args) = .error .usageExit ∧
    command_line_error =
      ("Usage: uqimageproc [--port port] [--max connections]\n".toList, 15) := by
  refine ⟨?_, rfl⟩
  have e1 : "--port".toList = PORT := rfl
  have e2 : "--max".toList = CONNECTIONS := rfl
  unfold BadCommandLine at h
  rw [e1, e2] at h
  show command_line_arguments_loop args ⟨"0".toList, false, 0, false⟩ = _
  cases hres : command_line_arguments_loop args ⟨"0".toList, false, 0, false⟩ with
  | error e =>
    cases e with
    | usageExit => rfl
    | undefinedBehaviour =>
      exact absurd hres (command_line_arguments_loop_ne_undefined args _)
  | ok p =>
    exfalso
    obtain ⟨g1, g2, g3, g4, g5, g6⟩ := goodArguments_of_ok args _ p hres
    rcases h with h | ⟨i, a, hi, ha, hp, hm⟩ | ⟨i, j, hij, hi, hj, hxi, hxj⟩ |
      ⟨i, j, hij, hi, hj, hxi, hxj⟩ | ⟨i, hi, hlen, -⟩ | ⟨i, v, hi, hx, hv, hbad⟩
    · exact g1 h
    · rcases g3 i a hi ha with h | h
      · exact hp h
      · exact hm h
    · exact (g4 i hi hxi).2 j hij hj hxj
    · exact (g5 i hi hxi).2 j hij hj hxj
    · omega
    · exact hbad (g6 i v hi hx hv)

/-- An empty value, an unknown option, `--port` twice, `--max` twice, an option
without value, and the values `-1`, `10001` and `12x` after `--max`. -/
theorem command_line_rejected_witness :
    command_line_arguments ["uqimageproc".toList, "--port".toList, []] = .error .usageExit ∧
    command_line_arguments ["uqimageproc".toList, "--verbose".toList] = .error .usageExit ∧
    command_line_arguments ["uqimageproc".toList, "--port".toList, "2000".toList,
      "--port".toList, "3000".toList] = .error .usageExit ∧
    command_line_arguments ["uqimageproc".toList, "--max".toList, "1".toList,
      "--port".toList, "3000".toList, "--max".toList, "2".toList] = .error .usageExit ∧
    command_line_arguments ["uqimageproc".toList, "--max".toList, "5".toList,
      "--port".toList] = .error .usageExit ∧
    command_line_arguments ["uqimageproc".toList, "--max".toList, "-1".toList]
      = .error .usageExit ∧
    command_line_arguments ["uqimageproc".toList, "--max".toList, "10001".toList]
      = .error .usageExit ∧
    command_line_arguments ["uqimageproc".toList, "--port".toList, "2000".toList,
      "--max".toList, "12x".toList] = .error .usageExit :=
  ⟨(command_line_rejected "uqimageproc".toList ["--port".toList, []]
      (Or.inl (by decide))).1,
   (command_line_rejected "uqimageproc".toList ["--verbose".toList]
      (Or.inr (Or.inl ⟨0, "--verbose".toList, rfl, rfl, by decide, by decide⟩))).1,
   (command_line_rejected "uqimageproc".toList
      ["--port".toList, "2000".toList, "--port".toList, "3000".toList]
      (Or.inr (Or.inr (Or.inl ⟨0, 2, by decide, rfl, rfl, rfl, rfl⟩)))).1,
   (command_line_rejected "uqimageproc".toList
      ["--max".toList, "1".toList, "--port".toList, "3000".toList, "--max".toList, "2".toList]
      (Or.inr (Or.inr (Or.inr (Or.inl ⟨0, 4, by decide, rfl, rfl, rfl, rfl⟩))))).1,
   (command_line_rejected "uqimageproc".toList
      ["--max".toList, "5".toList, "--port".toList]
      (Or.inr (Or.inr (Or.inr (Or.inr (Or.inl ⟨2, rfl, rfl, Or.inl rfl⟩)))))).1,
   (command_line_rejected "uqimageproc".toList ["--max".toList, "-1".toList]
      (Or.inr (Or.inr (Or.inr (Or.inr (Or.inr
        ⟨0, "-1".toList, rfl, rfl, rfl, by unfold IsIntegerIn; decide⟩)))))).1,
   (command_line_rejected "uqimageproc".toList ["--max".toList, "10001".toList]
      (Or.inr (Or.inr (Or.inr (Or.inr (Or.inr
        ⟨0, "10001".toList, rfl, rfl, rfl, by unfold IsIntegerIn; decide⟩)))))).1,
   (command_line_rejected "uqimageproc".toList
      ["--port".toList, "2000".toList, "--max".toList, "12x".toList]
      (Or.inr (Or.inr (Or.inr (Or.inr (Or.inr
        ⟨2, "12x".toList, rfl, rfl, rfl, by unfold IsIntegerIn; decide⟩)))))).1⟩

/-! ## Properties of the start of the server, the dispatcher and the client -/

/-- C21: `command_line_arguments` of the server accepts the two option pairs in
either order and applies the defaults. For every non-empty `p` and every
decimal `n` in `[0, 10000]` the argument lists `[]`, `[--port p]`, `[--max n]`,
`[--port p --max n]` and `[--max n --port p]` are accepted; the port is `p` when
`--port` is given and `"0"` otherwise, `max` is `n` with `maxGiven` set when
`--max` is given and `maxGiven` is not set otherwise; the two orders give the
same record. -/
theorem command_line_accepts_pairs (prog p n : List Char) (hp : p ≠ [])
    (hn : isDecimal n = true) (h0 : 0 ≤ decimalValue n) (h1 : decimalValue n ≤ 10000) :
    command_line_arguments [prog] = .ok ⟨"0".toList, false, 0, false⟩ ∧
    command_line_arguments [prog, "--port".toList, p] = .ok ⟨p, true, 0, false⟩ ∧
    command_line_arguments [prog, "--max".toList, n] =
      .ok ⟨"0".toList, false, decimalValue n, true⟩ ∧
    command_line_arguments [prog, "--port".toList, p, "--max".toList, n] =
      .ok ⟨p, true, decimalValue n, true⟩ ∧
    command_line_arguments [prog, "--max".toList, n, "--port".toList, p] =
      .ok ⟨p, true, decimalValue n, true⟩ ∧
    command_line_arguments [prog, "--port".toList, p, "--max".toList, n] =
      command_line_arguments [prog, "--max".toList, n, "--port".toList, p] := by
  obtain ⟨n1, n2, n3, n4⟩ := option_names
  have hne : n ≠ [] := isDecimal_ne_nil n hn
  have hc : convert_to_int (some n) MIN_CONNECTIONS MAX_CONNECTIONS = .ok (decimalValue n) :=
    convert_to_int_decimal n _ _ hn (by decide) (by decide) h0 h1
  have e1 : command_line_arguments [prog] = .ok ⟨"0".toList, false, 0, false⟩ := rfl
  have e2 : command_line_arguments [prog, "--port".toList, p] = .ok ⟨p, true, 0, false⟩ := by
    show command_line_arguments_loop [PORT, p] _ = _
    rw [command_line_arguments_loop_pair]
    simp [n1, hp, command_line_arguments_loop]
  have e3 : command_line_arguments [prog, "--max".toList, n] =
      .ok ⟨"0".toList, false, decimalValue n, true⟩ := by
    show command_line_arguments_loop [CONNECTIONS, n] _ = _
    rw [command_line_arguments_loop_pair]
    simp [n2, n3, hne, hc, command_line_arguments_loop]
  have e4 : command_line_arguments [prog, "--port".toList, p, "--max".toList, n] =
      .ok ⟨p, true, decimalValue n, true⟩ := by
    show command_line_arguments_loop [PORT, p, CONNECTIONS, n] _ = _
    rw [command_line_arguments_loop_pair]
    simp only [n1, hp, if_false, if_true, Bool.false_eq_true]
    rw [command_line_arguments_loop_pair]
    simp [n2, n3, hne, hc, command_line_arguments_loop]
  have e5 : command_line_arguments [prog, "--max".toList, n, "--port".toList, p] =
      .ok ⟨p, true, decimalValue n, true⟩ := by
    show command_line_arguments_loop [CONNECTIONS, n, PORT, p] _ = _
    rw [command_line_arguments_loop_pair]
    simp only [n2, n3, hne, hc, if_false, if_true, Bool.false_eq_true]
    rw [command_line_arguments_loop_pair]
    simp [n1, hp, command_line_arguments_loop]
  exact ⟨e1, e2, e3, e4, e5, e4.trans e5.symm⟩

/-- The pairs `--port 2310` and `--max 25`, alone and in both orders. -/
theorem command_line_accepts_pairs_witness :
    command_line_arguments ["uqimageproc".toList] = .ok ⟨"0".toList, false, 0, false⟩ ∧
    command_line_arguments ["uqimageproc".toList, "--port".toList, "2310".toList] =
      .ok ⟨"2310".toList, true, 0, false⟩ ∧
    command_line_arguments ["uqimageproc".toList, "--max".toList, "25".toList] =
      .ok ⟨"0".toList, false, 25, true⟩ ∧
    command_line_arguments
        ["uqimageproc".toList, "--port".toList, "2310".toList, "--max".toList, "25".toList] =
      .ok ⟨"2310".toList, true, 25, true⟩ ∧
    command_line_arguments
        ["uqimageproc".toList, "--max".toList, "25".toList, "--port".toList, "2310".toList] =
      .ok ⟨"2310".toList, true, 25, true⟩ := by
  have h := command_line_accepts_pairs "uqimageproc".toList "2310".toList "25".toList
    (by decide) (by decide) (by decide) (by decide)
  have hv : decimalValue "25".toList = 25 := by decide
  rw [hv] at h
  exact ⟨h.1, h.2.1, h.2.2.1, h.2.2.2.1, h.2.2.2.2.1⟩

/-- C22, as stated, fails: `--port 80` ends the process with the message of
`connection_error` and exit status 3, not with the usage message and exit
status 15; and the port check lets `abc` and `1024xyz` through, so that the
start goes on to `open_listen`. -/
theorem port_check_exits_with_listen_error :
    main_startup ["uqimageproc".toList, "--port".toList, "80".toList] (fun _ => some 3) =
      .exited "uqimageproc: cannot listen on port \"80\"\n".toList 3 ∧
    main_startup ["uqimageproc".toList, "--port".toList, "80".toList] (fun _ => some 3) ≠
      .exited command_line_error.1 15 ∧
    check_port ⟨"abc".toList, true, 0, false⟩ = .ok () ∧
    check_port ⟨"1024xyz".toList, true, 0, false⟩ = .ok () ∧
    main_startup ["uqimageproc".toList, "--port".toList, "abc".toList] (fun _ => some 3) =
      .listening ⟨"abc".toList, true, 0, false⟩ 3 := by
  refine ⟨by decide, by decide, rfl, rfl, by decide⟩

/-- C22, amended: every `--port p` whose value `p` is a decimal integer other
than 0 and outside `[1024, 65535]` makes the server fail in `check_port`, with
the message `uqimageproc: cannot listen on port "p"` and exit status 3,
whatever the socket layer would do (no socket is opened before); the port check
lets through every decimal integer that is 0 or within `[1024, 65535]`, and the
start then goes on to `open_listen`. -/
theorem port_check_on_decimal (argv : List (List Char)) (params : CommandParameters)
    (sockets : CommandParameters → Option Nat)
    (hparse : command_line_arguments argv = .ok params)
    (hd : isDecimal params.port = true) :
    (¬ (decimalValue params.port = 0 ∨
        (1024 ≤ decimalValue params.port ∧ decimalValue params.port ≤ 65535)) →
      check_port params = .error (connection_error params) ∧
      main_startup argv sockets =
        .exited ("uqimageproc: cannot listen on port \"".toList ++ params.port
          ++ "\"\n".toList) 3) ∧
    ((decimalValue params.port = 0 ∨
        (1024 ≤ decimalValue params.port ∧ decimalValue params.port ≤ 65535)) →
      check_port params = .ok () ∧
      main_startup argv sockets =
        match open_listen sockets params with
        | .error e => .exited e.1 e.2
        | .ok fdServer => .listening params fdServer) := by
  have hc := check_port_decimal params hd
  constructor
  · intro hr
    rw [if_neg hr] at hc
    refine ⟨hc, ?_⟩
    simp only [main_startup, hparse, hc]
    rfl
  · intro hr
    rw [if_pos hr] at hc
    refine ⟨hc, ?_⟩
    simp only [main_startup, hparse, hc]

/-- The ports 80, 1023, 65536 and -5 end the start with the listen error, whether
or not a socket could be opened; the ports 0, 1024 and 65535 pass the check. -/
theorem port_check_on_decimal_witness :
    (∀ sockets, main_startup ["uqimageproc".toList, "--port".toList, "80".toList] sockets =
      .exited "uqimageproc: cannot listen on port \"80\"\n".toList 3) ∧
    (∀ sockets, main_startup ["uqimageproc".toList, "--port".toList, "1023".toList] sockets =
      .exited "uqimageproc: cannot listen on port \"1023\"\n".toList 3) ∧
    (∀ sockets, main_startup ["uqimageproc".toList, "--port".toList, "65536".toList] sockets =
      .exited "uqimageproc: cannot listen on port \"65536\"\n".toList 3) ∧
    (∀ sockets, main_startup ["uqimageproc".toList, "--port".toList, "-5".toList] sockets =
      .exited "uqimageproc: cannot listen on port \"-5\"\n".toList 3) ∧
    check_port ⟨"0".toList, true, 0, false⟩ = .ok () ∧
    check_port ⟨"1024".toList, true, 0, false⟩ = .ok () ∧
    check_port ⟨"65535".toList, true, 0, false⟩ = .ok () :=
  ⟨fun sockets => ((port_check_on_decimal ["uqimageproc".toList, "--port".toList, "80".toList]
      ⟨"80".toList, true, 0, false⟩ sockets rfl (by decide)).1 (by decide)).2,
   fun sockets => ((port_check_on_decimal ["uqimageproc".toList, "--port".toList, "1023".toList]
      ⟨"1023".toList, true, 0, false⟩ sockets rfl (by decide)).1 (by decide)).2,
   fun sockets => ((port_check_on_decimal ["uqimageproc".toList, "--port".toList, "65536".toList]
      ⟨"65536".toList, true, 0, false⟩ sockets rfl (by decide)).1 (by decide)).2,
   fun sockets => ((port_check_on_decimal ["uqimageproc".toList, "--port".toList, "-5".toList]
      ⟨"-5".toList, true, 0, false⟩ sockets rfl (by decide)).1 (by decide)).2,
   ((port_check_on_decimal ["uqimageproc".toList, "--port".toList, "0".toList]
      ⟨"0".toList, true, 0, false⟩ (fun _ => none) rfl (by decide)).2 (by decide)).1,
   ((port_check_on_decimal ["uqimageproc".toList, "--port".toList, "1024".toList]
      ⟨"1024".toList, true, 0, false⟩ (fun _ => none) rfl (by decide)).2 (by decide)).1,
   ((port_check_on_decimal ["uqimageproc".toList, "--port".toList, "65535".toList]
      ⟨"65535".toList, true, 0, false⟩ (fun _ => none) rfl (by decide)).2 (by decide)).1⟩

/-- C23 fails on the code: when the server answers 404 with an empty body,
`process_http_response` returns without writing anything, and `main` goes on to
`return 0`, so the client exits with status 0 and not with status 4; nothing was
written to standard output. The call `exit(BAD_HTTP_RESPONSE)` stands inside
the test `if (len)`. -/
theorem empty_error_body_exits_zero :
    Client.process_http_response (some (404, [], 0)) true = .ok [] ∧
    Client.main ["uqimageclient".toList, "2310".toList]
      ⟨"img".toList, fun _ => none, fun _ => true, fun _ => true,
        fun _ => some (404, [], 0), true⟩ =
      ⟨[.connect "2310".toList, .readInput,
          .send "POST /rotate,0 HTTP/1.1\r\nContent-Length: 3\r\n\r\nimg".toList,
          .readResponse],
        [], [], some 0⟩ :=
  ⟨rfl, by decide⟩

/-- What `process_http_response` does with a response that was read: with status
200 the first `len` bytes of the body go to standard output (or the write error
ends the process with status 5); with another status and `len` not 0 the
process ends with status 4; with another status and `len` 0 the call returns and
nothing is written. -/
theorem process_http_response_cases (status : Int) (bodyText : List Char) (len : Nat)
    (writes : Bool) :
    (status = 200 → writes = true →
      Client.process_http_response (some (status, bodyText, len)) writes
        = .ok (bodyText.take len)) ∧
    (status = 200 → writes = false →
      Client.process_http_response (some (status, bodyText, len)) writes
        = .error (.exit "uqimageclient: unable to write output\n".toList 5)) ∧
    (status ≠ 200 → len ≠ 0 →
      ∃ printed, Client.process_http_response (some (status, bodyText, len)) writes
        = .error (.exit printed 4)) ∧
    (status ≠ 200 → len = 0 →
      Client.process_http_response (some (status, bodyText, len)) writes = .ok []) := by
  refine ⟨?_, ?_, ?_, ?_⟩
  · intro hs hw
    simp [Client.process_http_response, Client.HTTP_OK, hs, hw]
  · intro hs hw
    simp [Client.process_http_response, Client.HTTP_OK, hs, hw, Client.WRITE_FAIL]
  · intro hs hl
    have h1 : ¬ status = Client.HTTP_OK := hs
    refine ⟨if Client.to_int len < 0 then bodyText.take (strlen bodyText)
      else (bodyText.take (Client.to_int len).toNat).take
        (strlen (bodyText.take (Client.to_int len).toNat)), ?_⟩
    simp only [Client.process_http_response]
    rw [if_neg h1, if_pos hl]
    rfl
  · intro hs hl
    simp [Client.process_http_response, Client.HTTP_OK, hs, hl]

/-- C24: request construction in the client. For every record that
`command_line_arguments` returns and every non-empty input `B`, short enough for
the size of the request to fit an `int`, `construct_image_data` returns `B` with
its length and `construct_http_request` returns exactly the bytes
`POST <target> HTTP/1.1\r\n`, `Content-Length: <|B|>\r\n`, `\r\n`, `B`, with
`Content-Length` as the only header, and reports their number as the size, so
that `send` is handed exactly these bytes, also when `B` holds zero bytes. The
target is `/rotate,<angle>` for `--rotate`, `/scale,<w>,<h>` for `--scale`,
`/flip,<d>` for `--flip`, and `/rotate,0` when no transformation was asked
for. -/
theorem request_construction (argv : List (List Char)) (params : Client.CommandParameters)
    (B : List Char) (hparse : Client.command_line_arguments argv = .ok params) (hB : B ≠ [])
    (hfit : (Client.requestBytes (Client.requestTarget params) B).length < 2147483648) :
    Client.construct_image_data B = .ok ⟨B, B.length⟩ ∧
    Client.construct_http_request params ⟨B, B.length⟩ 0 =
      ("POST ".toList ++ Client.requestTarget params ++ " HTTP/1.1\r\n".toList
        ++ "Content-Length: ".toList ++ Nat.toDigits 10 B.length ++ "\r\n".toList
        ++ "\r\n".toList ++ B,
       ((Client.requestBytes (Client.requestTarget params) B).length : Int)) ∧
    (Client.construct_http_request params ⟨B, B.length⟩ 0).1.take
        (Client.construct_http_request params ⟨B, B.length⟩ 0).2.toNat =
      Client.requestBytes (Client.requestTarget params) B ∧
    (params.rotate = true →
      Client.requestTarget params = "/rotate,".toList ++ Client.sprintf_d params.angle) ∧
    (params.scale = true →
      Client.requestTarget params = "/scale,".toList ++ Client.sprintf_d params.widthScale
        ++ ",".toList ++ Client.sprintf_d params.heightScale) ∧
    (params.flip = true →
      Client.requestTarget params = "/flip,".toList ++ [params.direction]) ∧
    (params.rotate = false → params.scale = false → params.flip = false →
      Client.requestTarget params = "/rotate,0".toList) := by
  have hp := client_parsed_of_ok argv params hparse
  have hreq := construct_http_request_eq params hp B hfit
  have hlen : B.length % 18446744073709551616 = B.length := by
    apply Nat.mod_eq_of_lt
    simp only [Client.requestBytes, List.length_append] at hfit
    omega
  have hpos : B.length ≠ 0 := fun h => hB (List.length_eq_zero.1 h)
  obtain ⟨p1, p2, p3, -⟩ := hp
  refine ⟨?_, hreq, ?_, ?_, ?_, ?_, ?_⟩
  · simp [Client.construct_image_data, hlen, hpos]
  · rw [hreq]
    simp
  · intro h
    simp [Client.requestTarget, h]
  · intro h
    simp [Client.requestTarget, h, (p2 h).1]
  · intro h
    simp [Client.requestTarget, h, (p3 h).1, (p3 h).2.1]
  · intro h1 h2 h3
    simp [Client.requestTarget, h1, h2, h3]

/-- The request for `--scale 200 50` and an input of three bytes, the second of
which is a zero byte: 53 bytes in all. -/
theorem request_construction_witness :
    Client.construct_http_request
        ⟨"2310".toList, false, none, false, 0, true, 200, 50, false, ' ', false, none⟩
        ⟨['P', Char.ofNat 0, 'G'], 3⟩ 0 =
      ("POST /scale,200,50 HTTP/1.1\r\nContent-Length: 3\r\n\r\n".toList
        ++ ['P', Char.ofNat 0, 'G'], 53) :=
  (request_construction
    ["uqimageclient".toList, "2310".toList, "--scale".toList, "200".toList, "50".toList]
    ⟨"2310".toList, false, none, false, 0, true, 200, 50, false, ' ', false, none⟩
    ['P', Char.ofNat 0, 'G'] rfl (by decide) (by decide)).2.1

/-- C25: the client accepts at most one transformation option. Every command
line with two or more of `--rotate`, `--scale`, `--flip` in option position
after the port (two different ones, or the same one twice) ends with the usage
message and exit status 7; and in every record the parser returns at most one of
the flags `rotate`, `scale`, `flip` is set. -/
theorem at_most_one_transformation (argv : List (List Char)) :
    (2 ≤ (Client.optionArguments 0 (argv.drop 2)).countP Client.isTransformation →
      Client.command_line_arguments argv =
        .error (.exit ("Usage: uqimageclient portno [--input infile] [--rotate angle | "
          ++ "--scale width height | --flip direction] [--output outputfilename]\n").toList
          7)) ∧
    (∀ params, Client.command_line_arguments argv = .ok params →
      ¬ (params.rotate = true ∧ params.scale = true) ∧
      ¬ (params.rotate = true ∧ params.flip = true) ∧
      ¬ (params.scale = true ∧ params.flip = true)) := by
  have husage : Client.command_line_error =
      .exit ("Usage: uqimageclient portno [--input infile] [--rotate angle | "
        ++ "--scale width height | --flip direction] [--output outputfilename]\n").toList
        7 := by decide
  constructor
  · intro h2
    have hne : argv ≠ [] := by
      intro h
      subst h
      simp [Client.optionArguments] at h2
    rcases client_parse_spec argv hne with h | ⟨p, -, -, -, hcount⟩
    · rw [h, husage]
    · omega
  · intro params hparse
    have hne : argv ≠ [] := by
      intro h
      subst h
      cases hparse
    rcases client_parse_spec argv hne with h | ⟨p, h, ⟨p1, p2, p3, -⟩, -, -⟩
    · rw [h] at hparse
      cases hparse
    · rw [h] at hparse
      cases hparse
      refine ⟨?_, ?_, ?_⟩
      · rintro ⟨hr, hs⟩
        exact absurd ((p1 hr).1.symm.trans hs) (by decide)
      · rintro ⟨hr, hf⟩
        exact absurd ((p1 hr).2.1.symm.trans hf) (by decide)
      · rintro ⟨hs, hf⟩
        exact absurd ((p2 hs).2.1.symm.trans hf) (by decide)

/-- Two different transformations, the same one twice, and three of them end
with the usage message and status 7; a transformation name that stands as the
value of `--input` is not in option position and does not count. -/
theorem at_most_one_transformation_witness :
    Client.command_line_arguments ["uqimageclient".toList, "2310".toList,
      "--rotate".toList, "90".toList, "--flip".toList, "h".toList] =
      .error Client.command_line_error ∧
    Client.command_line_arguments ["uqimageclient".toList, "2310".toList,
      "--scale".toList, "2".toList, "3".toList, "--scale".toList, "2".toList, "3".toList] =
      .error Client.command_line_error ∧
    Client.command_line_arguments ["uqimageclient".toList, "2310".toList,
      "--flip".toList, "v".toList, "--input".toList, "in.png".toList,
      "--rotate".toList, "0".toList] =
      .error Client.command_line_error ∧
    Client.command_line_arguments ["uqimageclient".toList, "2310".toList,
      "--input".toList, "--rotate".toList, "--flip".toList, "v".toList] =
      .ok ⟨"2310".toList, true, some "--rotate".toList, false, 0, false, 0, 0, true, 'v',
        false, none⟩ :=
  ⟨(at_most_one_transformation _).1 (by decide),
   (at_most_one_transformation _).1 (by decide),
   (at_most_one_transformation _).1 (by decide), rfl⟩

/-- C26, as stated, fails: with an input of zero bytes and no server to be
reached on the port, the client ends with the connection error and exit status
19, not 17, and the input was never read; when the server can be reached, the
connection is made before the input is read. -/
theorem empty_input_after_connect :
    Client.main ["uqimageclient".toList, "2310".toList]
      ⟨[], fun _ => none, fun _ => true, fun _ => false, fun _ => none, true⟩ =
      ⟨[.connect "2310".toList], [],
        "uqimageclient: unable to connect to port \"2310\"\n".toList, some 19⟩ ∧
    Client.main ["uqimageclient".toList, "2310".toList]
      ⟨[], fun _ => none, fun _ => true, fun _ => true, fun _ => none, true⟩ =
      ⟨[.connect "2310".toList, .readInput], [],
        "uqimageclient: no data in input image\n".toList, some 17⟩ :=
  ⟨by decide, by decide⟩

/-- C26, amended: when the client's input (the `--input` file or standard
input, once the files of the command line are open) has zero bytes and the
connection to the server succeeds, the client emits the empty-image error and
exits with status 17 without sending anything to the server. The connection is
made before the input is read: when no server can be reached on the port the
outcome is the connection error and exit status 19, and the input is not
read. -/
theorem empty_input_exit (argv : List (List Char)) (params : Client.CommandParameters)
    (world : Client.World) (calls : List Client.Call)
    (hparse : Client.command_line_arguments argv = .ok params)
    (hinput : Client.redirection params world = (calls, .ok [])) :
    (world.connects params.portNo = true →
      Client.main argv world =
        ⟨calls ++ [.connect params.portNo, .readInput], [],
          "uqimageclient: no data in input image\n".toList, some 17⟩) ∧
    (world.connects params.portNo = false →
      Client.main argv world =
        ⟨calls ++ [.connect params.portNo], [],
          "uqimageclient: unable to connect to port \"".toList ++ params.portNo
            ++ "\"\n".toList, some 19⟩) := by
  constructor
  · intro hc
    simp [Client.main, hparse, Client.connect_to_server, hinput, hc,
      Client.construct_image_data, Client.no_data_error, Client.Run.ofFault,
      Client.EMPTY_IMAGE]
  · intro hc
    simp [Client.main, hparse, Client.connect_to_server, hinput, hc,
      Client.failed_connection, Client.Run.ofFault, Client.FAILED_PORT]

/-- An empty input file `in.png` and an output file, with and without a server on
port 2310. -/
theorem empty_input_exit_witness :
    Client.main ["uqimageclient".toList, "2310".toList, "--input".toList, "in.png".toList,
        "--output".toList, "out.png".toList]
      ⟨"x".toList, fun _ => some [], fun _ => true, fun _ => true, fun _ => none, true⟩ =
      ⟨[.openInput "in.png".toList, .openOutput "out.png".toList, .connect "2310".toList,
          .readInput], [],
        "uqimageclient: no data in input image\n".toList, some 17⟩ ∧
    Client.main ["uqimageclient".toList, "2310".toList, "--input".toList, "in.png".toList,
        "--output".toList, "out.png".toList]
      ⟨"x".toList, fun _ => some [], fun _ => true, fun _ => false, fun _ => none, true⟩ =
      ⟨[.openInput "in.png".toList, .openOutput "out.png".toList, .connect "2310".toList],
        [], "uqimageclient: unable to connect to port \"2310\"\n".toList, some 19⟩ :=
  ⟨(empty_input_exit
      ["uqimageclient".toList, "2310".toList, "--input".toList, "in.png".toList,
        "--output".toList, "out.png".toList]
      ⟨"2310".toList, true, some "in.png".toList, false, 0, false, 0, 0, false, ' ', true,
        some "out.png".toList⟩
      ⟨"x".toList, fun _ => some [], fun _ => true, fun _ => true, fun _ => none, true⟩
      [.openInput "in.png".toList, .openOutput "out.png".toList] rfl rfl).1 rfl,
   (empty_input_exit
      ["uqimageclient".toList, "2310".toList, "--input".toList, "in.png".toList,
        "--output".toList, "out.png".toList]
      ⟨"2310".toList, true, some "in.png".toList, false, 0, false, 0, 0, false, ' ', true,
        some "out.png".toList⟩
      ⟨"x".toList, fun _ => some [], fun _ => true, fun _ => false, fun _ => none, true⟩
      [.openInput "in.png".toList, .openOutput "out.png".toList] rfl rfl).2 rfl⟩

/-- C27: admission control as an invariant of the steps of the dispatcher
(`sem_wait`, then `accept`, then `create_client_thread`) and of the workers
(`end_client_thread` posts the semaphore). When `--max n` is given, in every
state reached from the start of `process_connections` the workers created and
not yet released are at most `n`; together with the tokens in the semaphore and
the one the dispatcher holds they are exactly `n`. A step either is the release
of a worker, which posts exactly one token, or it releases no worker and posts
none; and a worker that runs `client_thread` to its end has posted exactly one
token. With `n = 0` no connection is ever accepted: the dispatcher stays before
`sem_wait` and no `accept` step can be taken. -/
theorem admission_control {Bitmap : Type} (codec : Codec Bitmap) (file : List Char)
    (params : CommandParameters) (n : Nat) (events : List ServerEvent) (s : Server)
    (hgiven : params.maxGiven = true) (hn : params.max = (n : Int)) (hrange : n ≤ 10000)
    (hrun : server_run codec file events (Server.initial params) = some s) :
    s.spawned - s.workers.released ≤ n ∧
    s.workers.released ≤ s.spawned ∧
    s.semaphore + (if s.dispatcher = .loopTop then 0 else 1)
      + (s.spawned - s.workers.released) = n ∧
    (∀ event s', server_step codec file s event = some s' →
      (event = .worker .release ∧ s'.workers.released = s.workers.released + 1 ∧
        s'.semaphore = s.semaphore + 1) ∨
      (event ≠ .worker .release ∧ s'.workers.released = s.workers.released ∧
        s'.semaphore ≤ s.semaphore)) ∧
    (∀ reads stats semaphore e,
      client_thread codec file params.maxGiven reads stats semaphore = .ok e →
      e.result = semaphore + 1) ∧
    (n = 0 → s.accepted = 0 ∧ s.spawned = 0 ∧ s.dispatcher = .loopTop ∧
      ∀ ok, server_step codec file s (.accept ok) = none) := by
  have hinit : AdmissionInvariant n (Server.initial params) := by
    refine ⟨hgiven, le_refl _, le_refl _, ?_, ?_, fun _ => rfl⟩
    · show (if params.maxGiven = true then (params.max % 4294967296).toNat else 0)
          + (if DispatcherAt.loopTop = .loopTop then 0 else 1) + 0 = n + 0
      rw [if_pos hgiven, hn]
      simp only [if_true]
      omega
    · show 0 = 0 + (if DispatcherAt.loopTop = .beforeSpawn ∨
          DispatcherAt.loopTop = .exited then 1 else 0)
      simp
  have hinv := server_run_invariant codec file n events _ s hrun hinit
  obtain ⟨h0, h1, h2, h3, h4, h5⟩ := hinv
  clear hinit hrun
  refine ⟨by omega, by omega, by omega, ?_, ?_, ?_⟩
  · intro event s' hstep
    exact (server_step_invariant codec file n s s' event hstep ⟨h0, h1, h2, h3, h4, h5⟩).2
  · intro reads stats semaphore e he
    rw [client_thread_semaphore codec file _ reads stats semaphore e he, if_pos hgiven]
  · intro hz
    have hs : s.spawned = 0 := h5 hz
    subst hz
    have hd : s.dispatcher = .loopTop := by
      by_contra hne
      rw [if_neg hne] at h3
      omega
    refine ⟨?_, hs, hd, ?_⟩
    · rw [h4, hs, hd]
      simp
    · intro ok
      simp [server_step, hd]

/-- With `--max 2`: after two connections have been accepted and their workers
created, two workers are live, the semaphore is at 0 and `sem_wait` blocks; once
a worker has released, the dispatcher can go on. With `--max 0` the first
`sem_wait` blocks. -/
theorem admission_control_witness :
    server_run (exampleCodec false false) [] [.acquire, .accept true, .spawn, .worker .enter,
        .acquire, .accept true, .spawn] (Server.initial ⟨"0".toList, false, 2, true⟩) =
      some ⟨true, 0, .loopTop, 2, 2, ⟨⟨1, 0, 0, 0, 0⟩, 1, 0⟩⟩ ∧
    2 - 0 ≤ 2 ∧
    server_step (exampleCodec false false) []
      ⟨true, 0, .loopTop, 2, 2, ⟨⟨1, 0, 0, 0, 0⟩, 1, 0⟩⟩ .acquire = none ∧
    (server_step (exampleCodec false false) []
      ⟨true, 0, .loopTop, 2, 2, ⟨⟨1, 0, 0, 0, 0⟩, 1, 0⟩⟩ (.worker .release)).map
        (fun s => (s.semaphore, s.workers.released)) = some (1, 1) ∧
    server_step (exampleCodec false false) [] (Server.initial ⟨"0".toList, false, 0, true⟩)
      .acquire = none :=
  ⟨rfl,
   (admission_control (exampleCodec false false) [] ⟨"0".toList, false, 2, true⟩ 2
      [.acquire, .accept true, .spawn, .worker .enter, .acquire, .accept true, .spawn]
      ⟨true, 0, .loopTop, 2, 2, ⟨⟨1, 0, 0, 0, 0⟩, 1, 0⟩⟩ rfl rfl (by decide) rfl).1,
   rfl, rfl, rfl⟩

/-- C28 fails on the code: when the home page file holds the three bytes `a`,
NUL, `b`, the 200 response to `GET /` carries the single byte `a` as its body
and `1` as its `Content-Length`, not the three bytes of the file:
`home_page_response` measures the buffer with `strlen`, which stops at the
first NUL. -/
theorem home_page_cut_at_nul :
    (check_initial_validity ⟨GET, ['/'], [], 0⟩ ['a', Char.ofNat 0, 'b']
        ⟨0, 0, 0, 0, 0⟩).sent.map (fun x => (x.status, x.sentBody, x.headers)) =
      [(200, ['a'], [⟨"Content-Type".toList, "text/html".toList⟩,
        ⟨"Content-Length".toList, "1".toList⟩])] ∧
    (home_page_response ['a', Char.ofNat 0, 'b']).sentBody ≠ ['a', Char.ofNat 0, 'b'] ∧
    (home_page_response ['a', Char.ofNat 0, 'b']).bodySize ≠ ['a', Char.ofNat 0, 'b'].length :=
  ⟨by decide, by decide, by decide⟩

/-- For a home page file without a NUL byte (and shorter than `2 ^ 63` bytes) the
body of the 200 response to `GET /` is the file, byte for byte, and the
`Content-Length` is its length. -/
theorem home_page_raw_without_nul (file : List Char) (stats : Statistics)
    (hnul : ∀ c ∈ file, c.toNat ≠ 0) (hlen : file.length < 2 ^ 63) :
    (check_initial_validity ⟨GET, ['/'], [], 0⟩ file stats).sent = [home_page_response file] ∧
    (home_page_response file).status = 200 ∧
    (home_page_response file).sentBody = file ∧
    (home_page_response file).headers =
      [⟨"Content-Type".toList, "text/html".toList⟩,
       ⟨"Content-Length".toList, Nat.toDigits 10 file.length⟩] := by
  have hs : strlen (file ++ [Char.ofNat 0]) = file.length := strlen_nul_terminated file hnul
  refine ⟨by simp [check_initial_validity, valid_method, valid_get, GET], rfl, ?_, ?_⟩
  · simp [HttpResponse.sentBody, home_page_response, hs]
  · simp only [home_page_response, make_headers, hs]
    rw [snprintf_ld_of_lt file.length hlen]

/-- C29 fails on the code: the target `x/rotate,0` does not begin with `/`, its
text before the first `/` is the non-empty `x`, and yet `valid_operation`
accepts it; the `POST` passes the four gates, the rotation is carried out and
the answer is 200, not 400. The loop of `valid_operation` starts at
`operations[1]` and never looks at `operations[0]`. -/
theorem unslashed_target_accepted :
    "x/rotate,0".toList.head? ≠ some '/' ∧
    ("x/rotate,0".toList.splitOn '/').head? = some "x".toList ∧
    valid_operation ⟨POST, "x/rotate,0".toList, "img".toList, 3⟩ = true ∧
    (check_initial_validity ⟨POST, "x/rotate,0".toList, "img".toList, 3⟩ []
      ⟨0, 0, 0, 0, 0⟩).sent = [] ∧
    ∃ e, client_thread_body (exampleCodec false false) []
        ⟨POST, "x/rotate,0".toList, "img".toList, 3⟩ ⟨1, 0, 0, 0, 0⟩ = .ok e ∧
      e.sent.map (fun x => x.status) = [200] ∧ e.stats.operations = 1 :=
  ⟨by decide, by decide, by decide, by decide, _, rfl, by decide, by decide⟩

/-- C30: client and server agree on the syntax of operations. For every record
that the client's `command_line_arguments` returns (`--rotate a` with `a` in
`[-359, 359]`, `--scale w h` with `w` and `h` in `[1, 10000]`, `--flip h` or
`--flip v`, or no transformation), the request line that
`construct_http_request_type` builds is `POST`, a blank, a target without a
blank, a blank and `HTTP/1.1`; the server's `valid_operation` accepts the
target; `get_operations` turns it into a plan of exactly one operation, the one
asked for (rotate by 0 when none was), before the terminating record; and the
validator never answers such a request 400. -/
theorem client_request_accepted (argv : List (List Char))
    (params : Client.CommandParameters) (body : List Char) (len : Nat)
    (hparse : Client.command_line_arguments argv = .ok params) :
    (Client.construct_http_request_type params [] 0).1 =
      "POST ".toList ++ Client.requestTarget params ++ " HTTP/1.1\r\n".toList ∧
    ' ' ∉ Client.requestTarget params ∧
    valid_operation ⟨"POST".toList, Client.requestTarget params, body, len⟩ = true ∧
    (∃ op, get_operations ⟨"POST".toList, Client.requestTarget params, body, len⟩ =
        .ok [op, ⟨none, 0, 0, none⟩] ∧
      plan [op, ⟨none, 0, 0, none⟩] = [op] ∧
      (params.rotate = true → -359 ≤ params.angle ∧ params.angle ≤ 359 ∧
        op = ⟨some "rotate".toList, params.angle, 0, none⟩) ∧
      (params.scale = true → 1 ≤ params.widthScale ∧ params.widthScale ≤ 10000 ∧
        1 ≤ params.heightScale ∧ params.heightScale ≤ 10000 ∧
        op = ⟨some "scale".toList, params.widthScale, params.heightScale, none⟩) ∧
      (params.flip = true → (params.direction = 'h' ∨ params.direction = 'v') ∧
        op = ⟨some "flip".toList, 0, 0, some [params.direction]⟩) ∧
      (params.rotate = false → params.scale = false → params.flip = false →
        op = ⟨some "rotate".toList, 0, 0, none⟩)) ∧
    (∀ (file : List Char) (stats : Statistics),
      ∀ x ∈ (check_initial_validity ⟨"POST".toList, Client.requestTarget params, body, len⟩
        file stats).sent, x.status ≠ 400) := by
  have hp := client_parsed_of_ok argv params hparse
  obtain ⟨hsp, hv, hg⟩ := server_on_requestTarget params hp body len
  obtain ⟨p1, p2, p3, p4⟩ := hp
  refine ⟨?_, hsp, hv, ⟨_, hg, ?_, ?_, ?_, ?_, ?_⟩, ?_⟩
  · rw [construct_http_request_type_eq params ⟨p1, p2, p3, p4⟩]
  · by_cases hr : params.rotate = true
    · rw [if_pos hr]; rfl
    · by_cases hs : params.scale = true
      · rw [if_neg hr, if_pos hs]; rfl
      · by_cases hf : params.flip = true
        · rw [if_neg hr, if_neg hs, if_pos hf]; rfl
        · rw [if_neg hr, if_neg hs, if_neg hf]; rfl
  · intro hr
    rw [if_pos hr]
    exact ⟨(p1 hr).2.2.1, (p1 hr).2.2.2, rfl⟩
  · intro hs
    have hr : ¬ params.rotate = true := by rw [(p2 hs).1]; decide
    rw [if_neg hr, if_pos hs]
    obtain ⟨-, -, w0, w1, h0, h1⟩ := p2 hs
    exact ⟨w0, w1, h0, h1, rfl⟩
  · intro hf
    have hr : ¬ params.rotate = true := by rw [(p3 hf).1]; decide
    have hs : ¬ params.scale = true := by rw [(p3 hf).2.1]; decide
    rw [if_neg hr, if_neg hs, if_pos hf]
    exact ⟨(p3 hf).2.2, rfl⟩
  · intro h1 h2 h3
    have hr : ¬ params.rotate = true := by rw [h1]; decide
    have hs : ¬ params.scale = true := by rw [h2]; decide
    have hf : ¬ params.flip = true := by rw [h3]; decide
    rw [if_neg hr, if_neg hs, if_neg hf]
    rfl
  · intro file stats x hx
    rw [check_post _ file stats rfl] at hx
    have hv' : ¬ valid_operation
        ⟨"POST".toList, Client.requestTarget params, body, len⟩ = false := by
      intro hc
      exact absurd (hv.symm.trans hc) (by decide)
    rw [if_neg hv'] at hx
    split at hx
    · simp only [List.mem_singleton] at hx
      subst hx
      exact (by decide : (413 : Nat) ≠ 400)
    · cases hx

/-- The command lines `--rotate -90`, `--scale 200 50`, `--flip v` and the one
without a transformation: the target built for each and the plan the server
makes of it. -/
theorem client_request_accepted_witness :
    (Client.requestTarget ⟨"2310".toList, false, none, true, -90, false, 0, 0, false, ' ',
        false, none⟩ = "/rotate,-90".toList ∧
      get_operations ⟨"POST".toList, "/rotate,-90".toList, [], 0⟩ =
        .ok [⟨some "rotate".toList, -90, 0, none⟩, ⟨none, 0, 0, none⟩]) ∧
    (Client.requestTarget ⟨"2310".toList, false, none, false, 0, true, 200, 50, false, ' ',
        false, none⟩ = "/scale,200,50".toList ∧
      get_operations ⟨"POST".toList, "/scale,200,50".toList, [], 0⟩ =
        .ok [⟨some "scale".toList, 200, 50, none⟩, ⟨none, 0, 0, none⟩]) ∧
    valid_operation ⟨"POST".toList,
      Client.requestTarget ⟨"2310".toList, false, none, false, 0, false, 0, 0, true, 'v',
        false, none⟩, [], 0⟩ = true ∧
    valid_operation ⟨"POST".toList,
      Client.requestTarget ⟨"2310".toList, false, none, false, 0, false, 0, 0, false, ' ',
        false, none⟩, [], 0⟩ = true :=
  ⟨⟨by decide, rfl⟩, ⟨by decide, rfl⟩,
   (client_request_accepted
      ["uqimageclient".toList, "2310".toList, "--flip".toList, "v".toList]
      ⟨"2310".toList, false, none, false, 0, false, 0, 0, true, 'v', false, none⟩ [] 0 rfl).2.2.1,
   (client_request_accepted ["uqimageclient".toList, "2310".toList]
      ⟨"2310".toList, false, none, false, 0, false, 0, 0, false, ' ', false, none⟩ [] 0
      rfl).2.2.1⟩

end UQImage
